import Mathlib

/-!
# Region item decoder of libheif (`libheif/region.cc`)

A shallow embedding of `RegionItem::parse`, of the field readers
`RegionGeometry::parse_unsigned` / `RegionGeometry::parse_signed` and of the four
geometry decoders, followed by theorems about them.

Conventions of the embedding

* The input `std::vector<uint8_t>` is a `List Byte` with `Byte = Fin 256`.
* `unsigned int` / `uint32_t` values are natural numbers kept below `2^32`: every
  arithmetic result of that type is reduced `% 4294967296`.
* `size_t` is 64 bits wide: `data.size() - *dataOffset` is computed `% 2^64`.
* An `int` built from shifted bytes is represented by its 32-bit two's-complement
  pattern; storing it in a `uint32_t` keeps the pattern, storing it in an `int32_t`
  reads the pattern as a signed number (`toInt32`).
* `data[i]` with `i ≥ data.size()` is undefined behaviour in C++; the embedding stops
  there with `Except.error (Fault.outOfBoundsRead i)`.  A call that runs to one of its
  `return` statements yields `Except.ok` of the returned `Error` and the final state.
* A method that mutates `*this` and `*dataOffset` takes them as arguments and returns
  their final values.
-/

namespace Heif

/-- One element of the input buffer (`uint8_t`). -/
abbrev Byte := Fin 256

/-- Undefined behaviour reached by the code: `data[index]` was evaluated with
`index ≥ data.size()`. -/
inductive Fault where
  | outOfBoundsRead (index : Nat)
  deriving DecidableEq, Repr

/-- Modelled from the spec: the main error codes of `error.h` (not part of the
sources at hand) that `region.cc` uses. -/
inductive heif_error_code where
  | heif_error_Ok
  | heif_error_Invalid_input
  deriving DecidableEq, Repr

/-- Modelled from the spec: the sub-error codes of `error.h` that `region.cc` uses;
`heif_suberror_Invalid_region_data` is the spec's `InvalidRegionData`. -/
inductive heif_suberror_code where
  | heif_suberror_Unspecified
  | heif_suberror_Invalid_region_data
  deriving DecidableEq, Repr

/-- Modelled from the spec: the `Error` class of `error.h`, "a result type carrying
one of the error kinds plus a human-readable message". -/
structure Error where
  error_code : heif_error_code
  sub_error_code : heif_suberror_code
  message : String
  deriving DecidableEq, Repr

/-- Modelled from the spec: `Error::Ok`, the value returned on success. -/
def Error.Ok : Error :=
  ⟨heif_error_code.heif_error_Ok, heif_suberror_code.heif_suberror_Unspecified, ""⟩

/-- Modelled from the spec: `Error::operator bool`, true exactly for a failure. -/
def Error.isError (e : Error) : Bool :=
  e.error_code != heif_error_code.heif_error_Ok

/-- The value `Error(heif_error_Invalid_input, heif_suberror_Invalid_region_data, msg)`
built at every failing length check of `region.cc`. -/
def invalidRegionData (msg : String) : Error :=
  ⟨heif_error_code.heif_error_Invalid_input,
   heif_suberror_code.heif_suberror_Invalid_region_data, msg⟩

/-- Modelled from the spec: `struct Point` of `region.h`, one polygon vertex. -/
structure Point where
  x : Int
  y : Int
  deriving DecidableEq, Repr

/-- Modelled from the spec: the data members of `RegionGeometry_Point`. -/
structure RegionGeometry_Point where
  x : Int
  y : Int
  deriving DecidableEq, Repr

/-- Modelled from the spec: the data members of `RegionGeometry_Rectangle`. -/
structure RegionGeometry_Rectangle where
  x : Int
  y : Int
  width : Nat
  height : Nat
  deriving DecidableEq, Repr

/-- Modelled from the spec: the data members of `RegionGeometry_Ellipse`. -/
structure RegionGeometry_Ellipse where
  x : Int
  y : Int
  radius_x : Nat
  radius_y : Nat
  deriving DecidableEq, Repr

/-- Modelled from the spec: the data members of `RegionGeometry_Polygon`. -/
structure RegionGeometry_Polygon where
  closed : Bool
  points : List Point
  deriving DecidableEq, Repr

/-- The object behind a `std::shared_ptr<RegionGeometry>`: one of the four subclasses. -/
inductive RegionGeometry where
  | point (g : RegionGeometry_Point)
  | rectangle (g : RegionGeometry_Rectangle)
  | ellipse (g : RegionGeometry_Ellipse)
  | polygon (g : RegionGeometry_Polygon)
  deriving DecidableEq, Repr

/-- Modelled from the spec: the data members of `RegionItem` that `parse` writes. -/
structure RegionItem where
  reference_width : Nat
  reference_height : Nat
  mRegions : List RegionGeometry
  deriving DecidableEq, Repr

/-- A freshly constructed record: no regions yet. -/
def RegionItem.fresh : RegionItem := ⟨0, 0, []⟩

/-- Conversion of an `int` to `unsigned int`. -/
def toUnsigned (i : Int) : Nat := (i % 4294967296).toNat

/-- The `int32_t` whose two's-complement pattern is `bits` (taken modulo `2^32`). -/
def toInt32 (bits : Nat) : Int :=
  if bits % 4294967296 < 2147483648 then ((bits % 4294967296 : Nat) : Int)
  else ((bits % 4294967296 : Nat) : Int) - 4294967296

/-- The expression `data[index]`. -/
def readByte (data : List Byte) (index : Nat) : Except Fault Nat :=
  match data[index]? with
  | some b => Except.ok b.val
  | none => Except.error (Fault.outOfBoundsRead index)

/-- The expression `data.size() - *dataOffset` in `size_t` arithmetic. -/
def bytesRemaining (data : List Byte) (dataOffset : Nat) : Nat :=
  (data.length + 18446744073709551616 - dataOffset) % 18446744073709551616

/-- `RegionGeometry::parse_unsigned`: returns the value read and the new `*dataOffset`. -/
def RegionGeometry.parse_unsigned (data : List Byte) (field_size : Int) (dataOffset : Nat) :
    Except Fault (Nat × Nat) :=
  if field_size = 32 then
    match readByte data dataOffset with
    | Except.error f => Except.error f
    | Except.ok b0 =>
    match readByte data ((dataOffset + 1) % 4294967296) with
    | Except.error f => Except.error f
    | Except.ok b1 =>
    match readByte data ((dataOffset + 2) % 4294967296) with
    | Except.error f => Except.error f
    | Except.ok b2 =>
    match readByte data ((dataOffset + 3) % 4294967296) with
    | Except.error f => Except.error f
    | Except.ok b3 =>
      Except.ok (((b0 <<< 24) ||| (b1 <<< 16) ||| (b2 <<< 8) ||| b3) % 4294967296,
                 (dataOffset + 4) % 4294967296)
  else
    match readByte data dataOffset with
    | Except.error f => Except.error f
    | Except.ok b0 =>
    match readByte data ((dataOffset + 1) % 4294967296) with
    | Except.error f => Except.error f
    | Except.ok b1 =>
      Except.ok (((b0 <<< 8) ||| b1) % 4294967296, (dataOffset + 2) % 4294967296)

/-- `RegionGeometry::parse_signed`: the same bytes, stored in an `int32_t`. -/
def RegionGeometry.parse_signed (data : List Byte) (field_size : Int) (dataOffset : Nat) :
    Except Fault (Int × Nat) :=
  if field_size = 32 then
    match readByte data dataOffset with
    | Except.error f => Except.error f
    | Except.ok b0 =>
    match readByte data ((dataOffset + 1) % 4294967296) with
    | Except.error f => Except.error f
    | Except.ok b1 =>
    match readByte data ((dataOffset + 2) % 4294967296) with
    | Except.error f => Except.error f
    | Except.ok b2 =>
    match readByte data ((dataOffset + 3) % 4294967296) with
    | Except.error f => Except.error f
    | Except.ok b3 =>
      Except.ok (toInt32 ((b0 <<< 24) ||| (b1 <<< 16) ||| (b2 <<< 8) ||| b3),
                 (dataOffset + 4) % 4294967296)
  else
    match readByte data dataOffset with
    | Except.error f => Except.error f
    | Except.ok b0 =>
    match readByte data ((dataOffset + 1) % 4294967296) with
    | Except.error f => Except.error f
    | Except.ok b1 =>
      Except.ok (toInt32 ((b0 <<< 8) ||| b1), (dataOffset + 2) % 4294967296)

/-- `RegionGeometry_Point::parse`: returns the `Error`, the object and `*dataOffset`. -/
def RegionGeometry_Point.parse (self : RegionGeometry_Point) (data : List Byte)
    (field_size : Int) (dataOffset : Nat) :
    Except Fault (Error × RegionGeometry_Point × Nat) :=
  let bytesRequired := toUnsigned (Int.tdiv field_size 8 * 2)
  if bytesRemaining data dataOffset < bytesRequired then
    Except.ok (invalidRegionData "Insufficient data remaining for point region",
               self, dataOffset)
  else
    match RegionGeometry.parse_signed data field_size dataOffset with
    | Except.error f => Except.error f
    | Except.ok (x, off1) =>
    match RegionGeometry.parse_signed data field_size off1 with
    | Except.error f => Except.error f
    | Except.ok (y, off2) =>
      Except.ok (Error.Ok, { self with x := x, y := y }, off2)

/-- `RegionGeometry_Rectangle::parse`. -/
def RegionGeometry_Rectangle.parse (self : RegionGeometry_Rectangle) (data : List Byte)
    (field_size : Int) (dataOffset : Nat) :
    Except Fault (Error × RegionGeometry_Rectangle × Nat) :=
  let bytesRequired := toUnsigned (Int.tdiv field_size 8 * 4)
  if bytesRemaining data dataOffset < bytesRequired then
    Except.ok (invalidRegionData "Insufficient data remaining for rectangle region",
               self, dataOffset)
  else
    match RegionGeometry.parse_signed data field_size dataOffset with
    | Except.error f => Except.error f
    | Except.ok (x, off1) =>
    match RegionGeometry.parse_signed data field_size off1 with
    | Except.error f => Except.error f
    | Except.ok (y, off2) =>
    match RegionGeometry.parse_unsigned data field_size off2 with
    | Except.error f => Except.error f
    | Except.ok (width, off3) =>
    match RegionGeometry.parse_unsigned data field_size off3 with
    | Except.error f => Except.error f
    | Except.ok (height, off4) =>
      Except.ok (Error.Ok, { self with x := x, y := y, width := width, height := height },
                 off4)

/-- `RegionGeometry_Ellipse::parse`. -/
def RegionGeometry_Ellipse.parse (self : RegionGeometry_Ellipse) (data : List Byte)
    (field_size : Int) (dataOffset : Nat) :
    Except Fault (Error × RegionGeometry_Ellipse × Nat) :=
  let bytesRequired := toUnsigned (Int.tdiv field_size 8 * 4)
  if bytesRemaining data dataOffset < bytesRequired then
    Except.ok (invalidRegionData "Insufficient data remaining for ellipse region",
               self, dataOffset)
  else
    match RegionGeometry.parse_signed data field_size dataOffset with
    | Except.error f => Except.error f
    | Except.ok (x, off1) =>
    match RegionGeometry.parse_signed data field_size off1 with
    | Except.error f => Except.error f
    | Except.ok (y, off2) =>
    match RegionGeometry.parse_unsigned data field_size off2 with
    | Except.error f => Except.error f
    | Except.ok (radius_x, off3) =>
    match RegionGeometry.parse_unsigned data field_size off3 with
    | Except.error f => Except.error f
    | Except.ok (radius_y, off4) =>
      Except.ok (Error.Ok,
                 { self with x := x, y := y, radius_x := radius_x, radius_y := radius_y },
                 off4)

/-- The loop `for (uint32_t i = 0; i < numPoints; i++)` of `RegionGeometry_Polygon::parse`,
by recursion on the number `numPoints - i` of iterations still to run. -/
def RegionGeometry_Polygon.parse_points (data : List Byte) (field_size : Int) :
    Nat → List Point → Nat → Except Fault (List Point × Nat)
  | 0, points, dataOffset => Except.ok (points, dataOffset)
  | n + 1, points, dataOffset =>
    match RegionGeometry.parse_signed data field_size dataOffset with
    | Except.error f => Except.error f
    | Except.ok (x, off1) =>
    match RegionGeometry.parse_signed data field_size off1 with
    | Except.error f => Except.error f
    | Except.ok (y, off2) =>
      RegionGeometry_Polygon.parse_points data field_size n (points ++ [⟨x, y⟩]) off2

/-- `RegionGeometry_Polygon::parse`. -/
def RegionGeometry_Polygon.parse (self : RegionGeometry_Polygon) (data : List Byte)
    (field_size : Int) (dataOffset : Nat) :
    Except Fault (Error × RegionGeometry_Polygon × Nat) :=
  let bytesRequired1 := toUnsigned (Int.tdiv field_size 8 * 1)
  if bytesRemaining data dataOffset < bytesRequired1 then
    Except.ok (invalidRegionData "Insufficient data remaining for polygon", self, dataOffset)
  else
    match RegionGeometry.parse_unsigned data field_size dataOffset with
    | Except.error f => Except.error f
    | Except.ok (numPoints, off1) =>
      let bytesRequired2 := (toUnsigned (Int.tdiv field_size 8) * numPoints * 2) % 4294967296
      if bytesRemaining data off1 < bytesRequired2 then
        Except.ok (invalidRegionData "Insufficient data remaining for polygon", self, off1)
      else
        match RegionGeometry_Polygon.parse_points data field_size numPoints self.points off1 with
        | Except.error f => Except.error f
        | Except.ok (points, off2) =>
          Except.ok (Error.Ok, { self with points := points }, off2)

/-- The virtual call `region->parse(data, field_size, &dataOffset)`. -/
def RegionGeometry.parse (region : RegionGeometry) (data : List Byte) (field_size : Int)
    (dataOffset : Nat) : Except Fault (Error × RegionGeometry × Nat) :=
  match region with
  | RegionGeometry.point g =>
    match g.parse data field_size dataOffset with
    | Except.error f => Except.error f
    | Except.ok (e, g1, off) => Except.ok (e, RegionGeometry.point g1, off)
  | RegionGeometry.rectangle g =>
    match g.parse data field_size dataOffset with
    | Except.error f => Except.error f
    | Except.ok (e, g1, off) => Except.ok (e, RegionGeometry.rectangle g1, off)
  | RegionGeometry.ellipse g =>
    match g.parse data field_size dataOffset with
    | Except.error f => Except.error f
    | Except.ok (e, g1, off) => Except.ok (e, RegionGeometry.ellipse g1, off)
  | RegionGeometry.polygon g =>
    match g.parse data field_size dataOffset with
    | Except.error f => Except.error f
    | Except.ok (e, g1, off) => Except.ok (e, RegionGeometry.polygon g1, off)

/-- The `if / else if` chain of the loop body of `RegionItem::parse` that creates the
geometry object for a tag; `none` is the final `else` branch (`continue`).  The members
that `make_shared` leaves unset are written as `0`; every decoder overwrites them before
it returns `Error::Ok`. -/
def makeRegion (geometry_type : Nat) : Option RegionGeometry :=
  if geometry_type = 0 then some (RegionGeometry.point ⟨0, 0⟩)
  else if geometry_type = 1 then some (RegionGeometry.rectangle ⟨0, 0, 0, 0⟩)
  else if geometry_type = 2 then some (RegionGeometry.ellipse ⟨0, 0, 0, 0⟩)
  else if geometry_type = 3 then some (RegionGeometry.polygon ⟨true, []⟩)
  else if geometry_type = 6 then some (RegionGeometry.polygon ⟨false, []⟩)
  else none

/-- How one run of the loop body of `RegionItem::parse` ends: it falls through (or
`continue`s) to the next iteration with the record and cursor given, or it leaves
`parse` through `return error`. -/
inductive LoopStep where
  | next (self : RegionItem) (dataOffset : Nat)
  | ret (error : Error) (self : RegionItem)
  deriving DecidableEq, Repr

/-- One iteration of the loop body of `RegionItem::parse` (lines 65 to 109). -/
def RegionItem.parse_entry (self : RegionItem) (data : List Byte) (field_size : Int)
    (dataOffset : Nat) : Except Fault LoopStep :=
  match readByte data dataOffset with
  | Except.error f => Except.error f
  | Except.ok geometry_type =>
    let dataOffset1 := (dataOffset + 1) % 4294967296
    match makeRegion geometry_type with
    | none => Except.ok (LoopStep.next self dataOffset1)
    | some region =>
      match region.parse data field_size dataOffset1 with
      | Except.error f => Except.error f
      | Except.ok (error, region1, dataOffset2) =>
        if error.isError then Except.ok (LoopStep.ret error self)
        else Except.ok (LoopStep.next { self with mRegions := self.mRegions ++ [region1] }
                                      dataOffset2)

/-- The loop `for (int i = 0; i < region_count; i++)` followed by `return Error::Ok`,
by recursion on the number `region_count - i` of iterations still to run. -/
def RegionItem.parse_loop (data : List Byte) (field_size : Int) :
    Nat → RegionItem → Nat → Except Fault (Error × RegionItem)
  | 0, self, _ => Except.ok (Error.Ok, self)
  | n + 1, self, dataOffset =>
    match RegionItem.parse_entry self data field_size dataOffset with
    | Except.error f => Except.error f
    | Except.ok (LoopStep.ret error self1) => Except.ok (error, self1)
    | Except.ok (LoopStep.next self1 dataOffset1) =>
      RegionItem.parse_loop data field_size n self1 dataOffset1

/-- Lines 61 to 111 of `RegionItem::parse`: read `region_count`, run the loop. -/
def RegionItem.parse_regions (self : RegionItem) (data : List Byte) (field_size : Int)
    (dataOffset : Nat) : Except Fault (Error × RegionItem) :=
  match readByte data dataOffset with
  | Except.error f => Except.error f
  | Except.ok region_count =>
    RegionItem.parse_loop data field_size region_count self ((dataOffset + 1) % 4294967296)

/-- `RegionItem::parse`: returns the `Error` and the record as the call leaves it. -/
def RegionItem.parse (self : RegionItem) (data : List Byte) :
    Except Fault (Error × RegionItem) :=
  if data.length < 8 then
    Except.ok (invalidRegionData "Less than 8 bytes of data", self)
  else
    match readByte data 0 with
    | Except.error f => Except.error f
    | Except.ok _version =>
    match readByte data 1 with
    | Except.error f => Except.error f
    | Except.ok flags =>
      let field_size : Int := if flags &&& 1 ≠ 0 then 32 else 16
      if field_size = 32 then
        if data.length < 12 then
          Except.ok (invalidRegionData "Region data incomplete", self)
        else do
          let b2 ← readByte data 2
          let b3 ← readByte data 3
          let b4 ← readByte data 4
          let b5 ← readByte data 5
          let b6 ← readByte data 6
          let b7 ← readByte data 7
          let b8 ← readByte data 8
          let b9 ← readByte data 9
          RegionItem.parse_regions
            { self with
              reference_width :=
                ((b2 <<< 24) ||| (b3 <<< 16) ||| (b4 <<< 8) ||| b5) % 4294967296,
              reference_height :=
                ((b6 <<< 24) ||| (b7 <<< 16) ||| (b8 <<< 8) ||| b9) % 4294967296 }
            data field_size 10
      else do
        let b2 ← readByte data 2
        let b3 ← readByte data 3
        let b4 ← readByte data 4
        let b5 ← readByte data 5
        RegionItem.parse_regions
          { self with
            reference_width := ((b2 <<< 8) ||| b3) % 4294967296,
            reference_height := ((b4 <<< 8) ||| b5) % 4294967296 }
          data field_size 6

/-- The first `k` iterations of the loop of `RegionItem::parse`: the state in which
iteration `k + 1` would start, or the `return` that one of the `k` iterations took. -/
def RegionItem.parse_entries (data : List Byte) (field_size : Int) :
    Nat → RegionItem → Nat → Except Fault LoopStep
  | 0, self, dataOffset => Except.ok (LoopStep.next self dataOffset)
  | k + 1, self, dataOffset =>
    match RegionItem.parse_entry self data field_size dataOffset with
    | Except.error f => Except.error f
    | Except.ok (LoopStep.ret error self1) => Except.ok (LoopStep.ret error self1)
    | Except.ok (LoopStep.next self1 dataOffset1) =>
      RegionItem.parse_entries data field_size k self1 dataOffset1

/-- The byte `data[i]` as a number (`0` when `i` is not an index of `data`). -/
def byteAt (data : List Byte) (i : Nat) : Nat := (data.getD i 0).val

/-- The number `field_size / 8` of bytes in one field. -/
def fieldBytes (field_size : Int) : Nat := Int.toNat (Int.tdiv field_size 8)

/-- The field width that `RegionItem::parse` derives from bit 0 of the flags byte. -/
def headerFieldSize (data : List Byte) : Int := if byteAt data 1 % 2 = 1 then 32 else 16

/-- The index of the `region_count` byte: 10 after two 32-bit fields, 6 after two 16-bit. -/
def regionCountOffset (data : List Byte) : Nat := if byteAt data 1 % 2 = 1 then 10 else 6

/-- The record once the header is read: the reference size is set, the regions are kept. -/
def RegionItem.withReferenceSize (self : RegionItem) (data : List Byte) : RegionItem :=
  if byteAt data 1 % 2 = 1 then
    { self with
      reference_width := byteAt data 2 * 16777216 + byteAt data 3 * 65536
                          + byteAt data 4 * 256 + byteAt data 5,
      reference_height := byteAt data 6 * 16777216 + byteAt data 7 * 65536
                          + byteAt data 8 * 256 + byteAt data 9 }
  else
    { self with reference_width := 256 * byteAt data 2 + byteAt data 3,
                reference_height := 256 * byteAt data 4 + byteAt data 5 }

/-- The entry with tag `tag` whose payload would start at `dataOffset` is cut short: fewer
bytes remain than the fields its decoder checks for (2 fields for a Point, 4 for a
Rectangle or Ellipse, the count field for a Polygon). -/
def truncatedEntry (data : List Byte) (field_size : Int) (tag dataOffset : Nat) : Prop :=
  (tag = 0 ∧ data.length - dataOffset < 2 * fieldBytes field_size) ∨
  ((tag = 1 ∨ tag = 2) ∧ data.length - dataOffset < 4 * fieldBytes field_size) ∨
  ((tag = 3 ∨ tag = 6) ∧ data.length - dataOffset < fieldBytes field_size)

instance (data : List Byte) (field_size : Int) (tag dataOffset : Nat) :
    Decidable (truncatedEntry data field_size tag dataOffset) := by
  unfold truncatedEntry; infer_instance


/-- The number of bytes one field read consumes: 4 when `field_size == 32`, else 2. -/
def fieldWidth (field_size : Int) : Nat := if field_size = 32 then 4 else 2

/-- The big-endian unsigned value of the field at `dataOffset`: four bytes when
`field_size == 32`, else two. -/
def unsignedField (data : List Byte) (field_size : Int) (dataOffset : Nat) : Nat :=
  if field_size = 32 then
    byteAt data dataOffset * 16777216 + byteAt data (dataOffset + 1) * 65536
      + byteAt data (dataOffset + 2) * 256 + byteAt data (dataOffset + 3)
  else 256 * byteAt data dataOffset + byteAt data (dataOffset + 1)

/-- The value of the field at `dataOffset` as the code's signed read gives it: the
two's-complement reading of the four bytes when `field_size == 32`, the unsigned value of
the two bytes otherwise. -/
def signedField (data : List Byte) (field_size : Int) (dataOffset : Nat) : Int :=
  if field_size = 32 then toInt32 (unsignedField data field_size dataOffset)
  else ((unsignedField data field_size dataOffset : Nat) : Int)

/-- Whether a `geometry_type` tag is one of those the loop of `RegionItem::parse` creates
an object for: 0, 1, 2, 3 or 6. -/
def recognisedTag (tag : Nat) : Bool :=
  decide (tag = 0 ∨ tag = 1 ∨ tag = 2 ∨ tag = 3 ∨ tag = 6)

/-- The tag that the dispatch table of the spec gives to a geometry: 0 Point, 1 Rectangle,
2 Ellipse, 3 closed Polygon, 6 open Polygon. -/
def RegionGeometry.geometry_type : RegionGeometry → Nat
  | RegionGeometry.point _ => 0
  | RegionGeometry.rectangle _ => 1
  | RegionGeometry.ellipse _ => 2
  | RegionGeometry.polygon g => if g.closed then 3 else 6

/-- The loop of `RegionItem::parse` again, recording for every iteration that starts the
tag it reads and the cursor just behind the tag (where the payload would begin). -/
def RegionItem.entries_read (data : List Byte) (field_size : Int) :
    Nat → RegionItem → Nat → List (Nat × Nat)
  | 0, _, _ => []
  | n + 1, self, dataOffset =>
    match readByte data dataOffset with
    | Except.error _ => []
    | Except.ok geometry_type =>
      (geometry_type, (dataOffset + 1) % 4294967296) ::
        match RegionItem.parse_entry self data field_size dataOffset with
        | Except.ok (LoopStep.next self1 dataOffset1) =>
          RegionItem.entries_read data field_size n self1 dataOffset1
        | _ => []

/-- The geometry `g` is what the decoder selected by the recorded entry `(tag, cursor)`
returns with `Error::Ok` when run at `cursor`, and its variant is the one the dispatch
table gives for `tag`. -/
def decodedFrom (data : List Byte) (field_size : Int) (g : RegionGeometry)
    (entry : Nat × Nat) : Prop :=
  g.geometry_type = entry.1 ∧
  ∃ region dataOffset1, makeRegion entry.1 = some region ∧
    region.parse data field_size entry.2 = Except.ok (Error.Ok, g, dataOffset1)

/-- The entries (tag, payload cursor) that `RegionItem::parse` reads from `data` when called
on a fresh record: the iterations of its loop after the header. -/
def regionEntries (data : List Byte) : List (Nat × Nat) :=
  RegionItem.entries_read data (headerFieldSize data) (byteAt data (regionCountOffset data))
    (RegionItem.fresh.withReferenceSize data) (regionCountOffset data + 1)

/-- The `n` points stored from `dataOffset` on: each is a pair of consecutive fields, read
the way the code's signed read gives them. -/
def pointsAt (data : List Byte) (field_size : Int) : Nat → Nat → List Point
  | 0, _ => []
  | n + 1, dataOffset =>
    ⟨signedField data field_size dataOffset,
     signedField data field_size (dataOffset + fieldWidth field_size)⟩ ::
      pointsAt data field_size n (dataOffset + 2 * fieldWidth field_size)

/-- What a decoder call that stays inside the buffer looks like from outside: it returned
`Error::Ok` or an `InvalidRegionData` error, and the cursor it leaves is not before the
entry cursor and not beyond the end of the buffer. -/
def inBoundsOutcome (data : List Byte) (dataOffset : Nat) (e : Error) (off1 : Nat) : Prop :=
  dataOffset ≤ off1 ∧ off1 ≤ data.length ∧
  (e = Error.Ok ∨
    (e.isError = true ∧
      e.sub_error_code = heif_suberror_code.heif_suberror_Invalid_region_data))

/-- Two buffers that can differ only in the version byte and in bits 1 to 7 of the flags
byte: equal length, the same bit 0 in byte 1, the same bytes from index 2 on. -/
def sameFromByte2 (d1 d2 : List Byte) : Prop :=
  d1.length = d2.length ∧ byteAt d1 1 % 2 = byteAt d2 1 % 2 ∧
  ∀ i, 2 ≤ i → byteAt d1 i = byteAt d2 i

/-- A buffer of `2^32 + 6` bytes: `05 01 00 02 00 03`, then zeros up to index `2^32 - 3`,
then `00 01` at indices `2^32 - 2` and `2^32 - 1`, then `00 0A 00 0B 00 0C`. -/
def wrapBuffer : List Byte :=
  [5, 1, 0, 2, 0, 3] ++ (List.replicate 4294967288 0 ++ [0, 1, 0, 10, 0, 11, 0, 12])

/-- The bytes behind the version byte of `wrapRecord`: flags `01` (32-bit fields), a
reference size of `0 × 0`, `region_count = 1`, the tag 3 of a closed polygon, the count
`1F FF FF FF` (`2^29 - 1` points), then `2^32 - 8` zero bytes. -/
def wrapRecordTail : List Byte :=
  [1, 0, 0, 0, 0, 0, 0, 0, 0, 1, 3, 31, 255, 255, 255] ++ List.replicate 4294967288 0

/-- A record of `2^32 + 8` bytes with the given version byte: one closed polygon whose
`2^29 - 1` points fill the buffer exactly. -/
def wrapRecord (version : Byte) : List Byte := version :: wrapRecordTail

/-! ## Reading bytes -/

theorem byteAt_lt (data : List Byte) (i : Nat) : byteAt data i < 256 :=
  (data.getD i 0).isLt

theorem readByte_eq_ok (data : List Byte) (i : Nat) (h : i < data.length) :
    readByte data i = Except.ok (byteAt data i) := by
  simp [readByte, byteAt, List.getElem?_eq_getElem h, List.getD_eq_getElem?_getD]

theorem readByte_eq_error (data : List Byte) (i : Nat) (h : data.length ≤ i) :
    readByte data i = Except.error (Fault.outOfBoundsRead i) := by
  simp [readByte, List.getElem?_eq_none h]

theorem readByte_ok_lt (data : List Byte) (i v : Nat) (h : readByte data i = Except.ok v) :
    i < data.length ∧ v = byteAt data i := by
  by_cases hi : i < data.length
  · rw [readByte_eq_ok data i hi] at h
    exact ⟨hi, (Except.ok.inj h).symm⟩
  · rw [readByte_eq_error data i (Nat.le_of_not_lt hi)] at h
    cases h

theorem be16_eq (b0 b1 : Nat) (h1 : b1 < 256) :
    (b0 <<< 8) ||| b1 = 256 * b0 + b1 := by
  rw [Nat.shiftLeft_eq, Nat.mul_comm]
  exact (Nat.mul_add_lt_is_or (i := 8) h1 b0).symm

theorem be32_eq (b0 b1 b2 b3 : Nat) (h1 : b1 < 256) (h2 : b2 < 256) (h3 : b3 < 256) :
    (b0 <<< 24) ||| (b1 <<< 16) ||| (b2 <<< 8) ||| b3
      = b0 * 16777216 + b1 * 65536 + b2 * 256 + b3 := by
  simp only [Nat.shiftLeft_eq]
  have e1 : b0 * 2 ^ 24 ||| b1 * 2 ^ 16 = 2 ^ 16 * (b0 * 256 + b1) := by
    have := Nat.mul_add_lt_is_or (i := 24) (b := b1 * 2 ^ 16) (by omega) b0
    rw [Nat.mul_comm (2 ^ 24) b0] at this
    rw [← this]; ring
  have e2 : 2 ^ 16 * (b0 * 256 + b1) ||| b2 * 2 ^ 8
      = 2 ^ 8 * (b0 * 65536 + b1 * 256 + b2) := by
    have := Nat.mul_add_lt_is_or (i := 16) (b := b2 * 2 ^ 8) (by omega) (b0 * 256 + b1)
    rw [← this]; ring
  have e3 := Nat.mul_add_lt_is_or (i := 8) (b := b3) (by omega)
    (b0 * 65536 + b1 * 256 + b2)
  rw [e1, e2, ← e3]; ring

/-! ## The loop body and the loop keep what is already in the record -/

theorem RegionItem.parse_entry_next (self : RegionItem) (data : List Byte) (field_size : Int)
    (dataOffset : Nat) (self1 : RegionItem) (off1 : Nat)
    (h : RegionItem.parse_entry self data field_size dataOffset
          = Except.ok (LoopStep.next self1 off1)) :
    self1 = self ∨ ∃ g, self1 = { self with mRegions := self.mRegions ++ [g] } := by
  unfold RegionItem.parse_entry at h
  dsimp only at h
  split at h
  · simp at h
  · split at h
    · simp only [Except.ok.injEq, LoopStep.next.injEq] at h
      exact Or.inl h.1.symm
    · split at h
      · simp at h
      · split at h
        · simp at h
        · simp only [Except.ok.injEq, LoopStep.next.injEq] at h
          exact Or.inr ⟨_, h.1.symm⟩

theorem RegionItem.parse_entry_ret (self : RegionItem) (data : List Byte) (field_size : Int)
    (dataOffset : Nat) (e : Error) (self1 : RegionItem)
    (h : RegionItem.parse_entry self data field_size dataOffset
          = Except.ok (LoopStep.ret e self1)) :
    self1 = self ∧ e.isError = true := by
  unfold RegionItem.parse_entry at h
  dsimp only at h
  split at h
  · simp at h
  · split at h
    · simp at h
    · split at h
      · simp at h
      · split at h
        · rename_i herr
          simp only [Except.ok.injEq, LoopStep.ret.injEq] at h
          exact ⟨h.2.symm, h.1 ▸ herr⟩
        · simp at h

theorem RegionItem.parse_loop_dims (data : List Byte) (field_size : Int) (n : Nat) :
    ∀ (self : RegionItem) (dataOffset : Nat) (e : Error) (item : RegionItem),
      RegionItem.parse_loop data field_size n self dataOffset = Except.ok (e, item) →
      item.reference_width = self.reference_width ∧
      item.reference_height = self.reference_height := by
  induction n with
  | zero =>
    intro self dataOffset e item h
    simp only [RegionItem.parse_loop, Except.ok.injEq, Prod.mk.injEq] at h
    rw [← h.2]; exact ⟨rfl, rfl⟩
  | succ n ih =>
    intro self dataOffset e item h
    rw [RegionItem.parse_loop] at h
    split at h
    · simp at h
    · rename_i err s hstep
      simp only [Except.ok.injEq, Prod.mk.injEq] at h
      have := (RegionItem.parse_entry_ret _ _ _ _ _ _ hstep).1
      rw [← h.2, this]; exact ⟨rfl, rfl⟩
    · rename_i s off hstep
      have hs := ih s off e item h
      rcases RegionItem.parse_entry_next _ _ _ _ _ _ hstep with h1 | ⟨g, h1⟩
      · rw [h1] at hs; exact hs
      · rw [h1] at hs; exact hs

theorem RegionItem.parse_regions_dims (self : RegionItem) (data : List Byte)
    (field_size : Int) (dataOffset : Nat) (e : Error) (item : RegionItem)
    (h : RegionItem.parse_regions self data field_size dataOffset = Except.ok (e, item)) :
    item.reference_width = self.reference_width ∧
    item.reference_height = self.reference_height := by
  unfold RegionItem.parse_regions at h
  split at h
  · simp at h
  · exact RegionItem.parse_loop_dims _ _ _ _ _ _ _ h

/-! ## The header -/

theorem RegionItem.parse_of_length_lt_8 (self : RegionItem) (data : List Byte)
    (h : data.length < 8) :
    RegionItem.parse self data
      = Except.ok (invalidRegionData "Less than 8 bytes of data", self) := by
  simp [RegionItem.parse, h]

theorem RegionItem.parse_of_length_lt_12 (self : RegionItem) (data : List Byte)
    (h8 : 8 ≤ data.length) (h12 : data.length < 12) (hflag : byteAt data 1 % 2 = 1) :
    RegionItem.parse self data
      = Except.ok (invalidRegionData "Region data incomplete", self) := by
  have h0 := readByte_eq_ok data 0 (by omega)
  have h1 := readByte_eq_ok data 1 (by omega)
  simp [RegionItem.parse, h0, h1, hflag, h12, Nat.not_lt.mpr h8]

theorem RegionItem.parse_header16 (self : RegionItem) (data : List Byte)
    (h8 : 8 ≤ data.length) (hflag : byteAt data 1 % 2 = 0) :
    RegionItem.parse self data =
      RegionItem.parse_regions
        { self with reference_width := 256 * byteAt data 2 + byteAt data 3,
                    reference_height := 256 * byteAt data 4 + byteAt data 5 } data 16 6 := by
  have e1 : ((byteAt data 2 <<< 8) ||| byteAt data 3) % 4294967296
      = 256 * byteAt data 2 + byteAt data 3 := by
    rw [be16_eq _ _ (byteAt_lt data 3)]
    have := byteAt_lt data 2; have := byteAt_lt data 3; omega
  have e2 : ((byteAt data 4 <<< 8) ||| byteAt data 5) % 4294967296
      = 256 * byteAt data 4 + byteAt data 5 := by
    rw [be16_eq _ _ (byteAt_lt data 5)]
    have := byteAt_lt data 4; have := byteAt_lt data 5; omega
  simp [RegionItem.parse, readByte_eq_ok data 0 (by omega), readByte_eq_ok data 1 (by omega),
    readByte_eq_ok data 2 (by omega), readByte_eq_ok data 3 (by omega),
    readByte_eq_ok data 4 (by omega), readByte_eq_ok data 5 (by omega),
    hflag, Nat.not_lt.mpr h8, bind, Except.bind, e1, e2]

theorem RegionItem.parse_header32 (self : RegionItem) (data : List Byte)
    (h12 : 12 ≤ data.length) (hflag : byteAt data 1 % 2 = 1) :
    RegionItem.parse self data =
      RegionItem.parse_regions
        { self with
          reference_width := byteAt data 2 * 16777216 + byteAt data 3 * 65536
                              + byteAt data 4 * 256 + byteAt data 5,
          reference_height := byteAt data 6 * 16777216 + byteAt data 7 * 65536
                              + byteAt data 8 * 256 + byteAt data 9 } data 32 10 := by
  have e1 : ((byteAt data 2 <<< 24) ||| (byteAt data 3 <<< 16) ||| (byteAt data 4 <<< 8)
        ||| byteAt data 5) % 4294967296
      = byteAt data 2 * 16777216 + byteAt data 3 * 65536
                              + byteAt data 4 * 256 + byteAt data 5 := by
    rw [be32_eq _ _ _ _ (byteAt_lt data 3) (byteAt_lt data 4) (byteAt_lt data 5)]
    have := byteAt_lt data 2; have := byteAt_lt data 3
    have := byteAt_lt data 4; have := byteAt_lt data 5; omega
  have e2 : ((byteAt data 6 <<< 24) ||| (byteAt data 7 <<< 16) ||| (byteAt data 8 <<< 8)
        ||| byteAt data 9) % 4294967296
      = byteAt data 6 * 16777216 + byteAt data 7 * 65536
                              + byteAt data 8 * 256 + byteAt data 9 := by
    rw [be32_eq _ _ _ _ (byteAt_lt data 7) (byteAt_lt data 8) (byteAt_lt data 9)]
    have := byteAt_lt data 6; have := byteAt_lt data 7
    have := byteAt_lt data 8; have := byteAt_lt data 9; omega
  simp [RegionItem.parse, readByte_eq_ok data 0 (by omega), readByte_eq_ok data 1 (by omega),
    readByte_eq_ok data 2 (by omega), readByte_eq_ok data 3 (by omega),
    readByte_eq_ok data 4 (by omega), readByte_eq_ok data 5 (by omega),
    readByte_eq_ok data 6 (by omega), readByte_eq_ok data 7 (by omega),
    readByte_eq_ok data 8 (by omega), readByte_eq_ok data 9 (by omega),
    hflag, Nat.not_lt.mpr h12, Nat.not_lt.mpr (show 8 ≤ data.length by omega),
    bind, Except.bind, e1, e2]

/-! ## The geometry decoders and the loop body -/

theorem RegionGeometry_Polygon.parse_closed (g : RegionGeometry_Polygon) (data : List Byte)
    (field_size : Int) (dataOffset : Nat) (e : Error) (g1 : RegionGeometry_Polygon) (off1 : Nat)
    (h : g.parse data field_size dataOffset = Except.ok (e, g1, off1)) :
    g1.closed = g.closed := by
  unfold RegionGeometry_Polygon.parse at h
  dsimp only at h
  split at h
  · simp only [Except.ok.injEq, Prod.mk.injEq] at h
    rw [← h.2.1]
  · split at h
    · simp at h
    · split at h
      · simp only [Except.ok.injEq, Prod.mk.injEq] at h
        rw [← h.2.1]
      · split at h
        · simp at h
        · simp only [Except.ok.injEq, Prod.mk.injEq] at h
          rw [← h.2.1]

/-- The virtual call keeps the dynamic type of the object and, for a polygon, its
`closed` member. -/
theorem RegionGeometry.parse_kind (region : RegionGeometry) (data : List Byte)
    (field_size : Int) (dataOffset : Nat) (e : Error) (region1 : RegionGeometry) (off1 : Nat)
    (h : region.parse data field_size dataOffset = Except.ok (e, region1, off1)) :
    (∀ g, region = RegionGeometry.point g → ∃ g1, region1 = RegionGeometry.point g1) ∧
    (∀ g, region = RegionGeometry.rectangle g → ∃ g1, region1 = RegionGeometry.rectangle g1) ∧
    (∀ g, region = RegionGeometry.ellipse g → ∃ g1, region1 = RegionGeometry.ellipse g1) ∧
    (∀ g, region = RegionGeometry.polygon g →
      ∃ pts, region1 = RegionGeometry.polygon ⟨g.closed, pts⟩) := by
  unfold RegionGeometry.parse at h
  cases region with
  | point g =>
    dsimp only at h
    split at h
    · simp at h
    · simp only [Except.ok.injEq, Prod.mk.injEq] at h
      refine ⟨fun _ _ => ⟨_, h.2.1.symm⟩, ?_, ?_, ?_⟩ <;> intro g0 hg <;> cases hg
  | rectangle g =>
    dsimp only at h
    split at h
    · simp at h
    · simp only [Except.ok.injEq, Prod.mk.injEq] at h
      refine ⟨?_, fun _ _ => ⟨_, h.2.1.symm⟩, ?_, ?_⟩ <;> intro g0 hg <;> cases hg
  | ellipse g =>
    dsimp only at h
    split at h
    · simp at h
    · simp only [Except.ok.injEq, Prod.mk.injEq] at h
      refine ⟨?_, ?_, fun _ _ => ⟨_, h.2.1.symm⟩, ?_⟩ <;> intro g0 hg <;> cases hg
  | polygon g =>
    dsimp only at h
    split at h
    · simp at h
    · rename_i e0 g1 off0 hp
      simp only [Except.ok.injEq, Prod.mk.injEq] at h
      have hc := RegionGeometry_Polygon.parse_closed _ _ _ _ _ _ _ hp
      refine ⟨?_, ?_, ?_, ?_⟩ <;> intro g0 hg <;> cases hg
      exact ⟨g1.points, by rw [← h.2.1, ← hc]⟩


theorem bytesRemaining_of_le (data : List Byte) (dataOffset : Nat)
    (h : dataOffset ≤ data.length) (h2 : data.length - dataOffset < 18446744073709551616) :
    bytesRemaining data dataOffset = data.length - dataOffset := by
  unfold bytesRemaining; omega

theorem RegionGeometry_Point.parse_point_truncated (g : RegionGeometry_Point) (data : List Byte)
    (field_size : Int) (dataOffset : Nat) (hfs : field_size = 16 ∨ field_size = 32)
    (hoff : dataOffset ≤ data.length)
    (hshort : data.length - dataOffset < 2 * fieldBytes field_size) :
    g.parse data field_size dataOffset
      = Except.ok (invalidRegionData "Insufficient data remaining for point region",
                   g, dataOffset) := by
  rcases hfs with rfl | rfl
  · have hw : fieldBytes 16 = 2 := rfl
    have hb : toUnsigned (Int.tdiv 16 8 * 2) = 4 := rfl
    rw [hw] at hshort
    unfold RegionGeometry_Point.parse
    simp only [hb, bytesRemaining_of_le data dataOffset hoff (by omega)]
    rw [if_pos (by omega)]
  · have hw : fieldBytes 32 = 4 := rfl
    have hb : toUnsigned (Int.tdiv 32 8 * 2) = 8 := rfl
    rw [hw] at hshort
    unfold RegionGeometry_Point.parse
    simp only [hb, bytesRemaining_of_le data dataOffset hoff (by omega)]
    rw [if_pos (by omega)]

theorem RegionGeometry_Rectangle.parse_rectangle_truncated (g : RegionGeometry_Rectangle)
    (data : List Byte) (field_size : Int) (dataOffset : Nat)
    (hfs : field_size = 16 ∨ field_size = 32) (hoff : dataOffset ≤ data.length)
    (hshort : data.length - dataOffset < 4 * fieldBytes field_size) :
    g.parse data field_size dataOffset
      = Except.ok (invalidRegionData "Insufficient data remaining for rectangle region",
                   g, dataOffset) := by
  rcases hfs with rfl | rfl
  · have hw : fieldBytes 16 = 2 := rfl
    have hb : toUnsigned (Int.tdiv 16 8 * 4) = 8 := rfl
    rw [hw] at hshort
    unfold RegionGeometry_Rectangle.parse
    simp only [hb, bytesRemaining_of_le data dataOffset hoff (by omega)]
    rw [if_pos (by omega)]
  · have hw : fieldBytes 32 = 4 := rfl
    have hb : toUnsigned (Int.tdiv 32 8 * 4) = 16 := rfl
    rw [hw] at hshort
    unfold RegionGeometry_Rectangle.parse
    simp only [hb, bytesRemaining_of_le data dataOffset hoff (by omega)]
    rw [if_pos (by omega)]

theorem RegionGeometry_Ellipse.parse_ellipse_truncated (g : RegionGeometry_Ellipse)
    (data : List Byte) (field_size : Int) (dataOffset : Nat)
    (hfs : field_size = 16 ∨ field_size = 32) (hoff : dataOffset ≤ data.length)
    (hshort : data.length - dataOffset < 4 * fieldBytes field_size) :
    g.parse data field_size dataOffset
      = Except.ok (invalidRegionData "Insufficient data remaining for ellipse region",
                   g, dataOffset) := by
  rcases hfs with rfl | rfl
  · have hw : fieldBytes 16 = 2 := rfl
    have hb : toUnsigned (Int.tdiv 16 8 * 4) = 8 := rfl
    rw [hw] at hshort
    unfold RegionGeometry_Ellipse.parse
    simp only [hb, bytesRemaining_of_le data dataOffset hoff (by omega)]
    rw [if_pos (by omega)]
  · have hw : fieldBytes 32 = 4 := rfl
    have hb : toUnsigned (Int.tdiv 32 8 * 4) = 16 := rfl
    rw [hw] at hshort
    unfold RegionGeometry_Ellipse.parse
    simp only [hb, bytesRemaining_of_le data dataOffset hoff (by omega)]
    rw [if_pos (by omega)]

theorem RegionGeometry_Polygon.parse_polygon_truncated (g : RegionGeometry_Polygon)
    (data : List Byte) (field_size : Int) (dataOffset : Nat)
    (hfs : field_size = 16 ∨ field_size = 32) (hoff : dataOffset ≤ data.length)
    (hshort : data.length - dataOffset < fieldBytes field_size) :
    g.parse data field_size dataOffset
      = Except.ok (invalidRegionData "Insufficient data remaining for polygon",
                   g, dataOffset) := by
  rcases hfs with rfl | rfl
  · have hw : fieldBytes 16 = 2 := rfl
    have hb : toUnsigned (Int.tdiv 16 8 * 1) = 2 := rfl
    rw [hw] at hshort
    unfold RegionGeometry_Polygon.parse
    simp only [hb, bytesRemaining_of_le data dataOffset hoff (by omega)]
    rw [if_pos (by omega)]
  · have hw : fieldBytes 32 = 4 := rfl
    have hb : toUnsigned (Int.tdiv 32 8 * 1) = 4 := rfl
    rw [hw] at hshort
    unfold RegionGeometry_Polygon.parse
    simp only [hb, bytesRemaining_of_le data dataOffset hoff (by omega)]
    rw [if_pos (by omega)]

/-- The object created for a recognised tag whose payload is cut short: its decoder
returns an `InvalidRegionData` error and leaves object and cursor as they were. -/
theorem RegionGeometry.parse_region_truncated (data : List Byte) (field_size : Int)
    (tag dataOffset : Nat) (hfs : field_size = 16 ∨ field_size = 32)
    (hoff : dataOffset ≤ data.length)
    (hshort : truncatedEntry data field_size tag dataOffset) :
    ∃ region e, makeRegion tag = some region ∧
      region.parse data field_size dataOffset = Except.ok (e, region, dataOffset) ∧
      e.isError = true ∧
      e.error_code = heif_error_code.heif_error_Invalid_input ∧
      e.sub_error_code = heif_suberror_code.heif_suberror_Invalid_region_data := by
  rcases hshort with ⟨rfl, h⟩ | ⟨rfl | rfl, h⟩ | ⟨rfl | rfl, h⟩
  · refine ⟨RegionGeometry.point ⟨0, 0⟩,
      invalidRegionData "Insufficient data remaining for point region", rfl, ?_, rfl, rfl, rfl⟩
    simp only [RegionGeometry.parse,
      RegionGeometry_Point.parse_point_truncated _ data field_size _ hfs hoff h]
  · refine ⟨RegionGeometry.rectangle ⟨0, 0, 0, 0⟩,
      invalidRegionData "Insufficient data remaining for rectangle region",
      rfl, ?_, rfl, rfl, rfl⟩
    simp only [RegionGeometry.parse,
      RegionGeometry_Rectangle.parse_rectangle_truncated _ data field_size _ hfs hoff h]
  · refine ⟨RegionGeometry.ellipse ⟨0, 0, 0, 0⟩,
      invalidRegionData "Insufficient data remaining for ellipse region",
      rfl, ?_, rfl, rfl, rfl⟩
    simp only [RegionGeometry.parse,
      RegionGeometry_Ellipse.parse_ellipse_truncated _ data field_size _ hfs hoff h]
  · refine ⟨RegionGeometry.polygon ⟨true, []⟩,
      invalidRegionData "Insufficient data remaining for polygon", rfl, ?_, rfl, rfl, rfl⟩
    simp only [RegionGeometry.parse,
      RegionGeometry_Polygon.parse_polygon_truncated _ data field_size _ hfs hoff h]
  · refine ⟨RegionGeometry.polygon ⟨false, []⟩,
      invalidRegionData "Insufficient data remaining for polygon", rfl, ?_, rfl, rfl, rfl⟩
    simp only [RegionGeometry.parse,
      RegionGeometry_Polygon.parse_polygon_truncated _ data field_size _ hfs hoff h]

/-- When the decoder of the object created for the tag returns an error, the loop body
leaves through `return error` with that error, the record as it was. -/
theorem RegionItem.parse_entry_of_error (self : RegionItem) (data : List Byte)
    (field_size : Int) (tagOffset tag : Nat) (region region1 : RegionGeometry) (e : Error)
    (off1 : Nat) (hread : readByte data tagOffset = Except.ok tag)
    (hmake : makeRegion tag = some region)
    (hparse : region.parse data field_size ((tagOffset + 1) % 4294967296)
                = Except.ok (e, region1, off1))
    (herr : e.isError = true) :
    RegionItem.parse_entry self data field_size tagOffset
      = Except.ok (LoopStep.ret e self) := by
  unfold RegionItem.parse_entry
  rw [hread]
  simp only [hmake, hparse, herr, if_true]

/-- The loop after `k` iterations that all fell through is the loop started in the
state they reached. -/
theorem RegionItem.parse_loop_after_entries (data : List Byte) (field_size : Int) (m k : Nat) :
    ∀ (self : RegionItem) (dataOffset : Nat) (s : RegionItem) (t : Nat),
      RegionItem.parse_entries data field_size k self dataOffset
        = Except.ok (LoopStep.next s t) →
      RegionItem.parse_loop data field_size (k + m) self dataOffset
        = RegionItem.parse_loop data field_size m s t := by
  induction k with
  | zero =>
    intro self dataOffset s t h
    simp only [RegionItem.parse_entries, Except.ok.injEq, LoopStep.next.injEq] at h
    rw [Nat.zero_add, h.1, h.2]
  | succ k ih =>
    intro self dataOffset s t h
    rw [show k + 1 + m = (k + m) + 1 by omega, RegionItem.parse_loop]
    rw [RegionItem.parse_entries] at h
    split at h
    · simp at h
    · simp at h
    · rename_i s1 t1 hstep
      exact ih s1 t1 s t h

theorem RegionItem.parse_header (self : RegionItem) (data : List Byte)
    (h8 : 8 ≤ data.length) (h12 : byteAt data 1 % 2 = 1 → 12 ≤ data.length) :
    RegionItem.parse self data =
      RegionItem.parse_loop data (headerFieldSize data) (byteAt data (regionCountOffset data))
        (self.withReferenceSize data) (regionCountOffset data + 1) := by
  by_cases hflag : byteAt data 1 % 2 = 1
  · have h := h12 hflag
    rw [RegionItem.parse_header32 self data h hflag]
    simp only [headerFieldSize, regionCountOffset, RegionItem.withReferenceSize, hflag,
      if_true, RegionItem.parse_regions, readByte_eq_ok data 10 (by omega)]
  · have hflag0 : byteAt data 1 % 2 = 0 := by omega
    rw [RegionItem.parse_header16 self data h8 hflag0]
    simp only [headerFieldSize, regionCountOffset, RegionItem.withReferenceSize, hflag,
      if_false, RegionItem.parse_regions, readByte_eq_ok data 6 (by omega)]

theorem RegionItem.parse_entries_regions (data : List Byte) (field_size : Int) (k : Nat) :
    ∀ (self : RegionItem) (dataOffset : Nat) (s : RegionItem) (t : Nat),
      RegionItem.parse_entries data field_size k self dataOffset
        = Except.ok (LoopStep.next s t) →
      ∃ gs, s.mRegions = self.mRegions ++ gs ∧ gs.length ≤ k := by
  induction k with
  | zero =>
    intro self dataOffset s t h
    simp only [RegionItem.parse_entries, Except.ok.injEq, LoopStep.next.injEq] at h
    exact ⟨[], by rw [← h.1, List.append_nil], Nat.le_refl _⟩
  | succ k ih =>
    intro self dataOffset s t h
    rw [RegionItem.parse_entries] at h
    split at h
    · simp at h
    · simp at h
    · rename_i s1 t1 hstep
      obtain ⟨gs, hgs, hlen⟩ := ih s1 t1 s t h
      rcases RegionItem.parse_entry_next _ _ _ _ _ _ hstep with h1 | ⟨g, h1⟩
      · exact ⟨gs, by rw [hgs, h1], by omega⟩
      · refine ⟨g :: gs, ?_, by simp only [List.length_cons]; omega⟩
        rw [hgs, h1]
        simp only [List.append_assoc, List.singleton_append]

/-- When the loop returns an error, some iteration `k + 1` took `return error`; the record
returned is the one the `k` iterations before it had built. -/
theorem RegionItem.parse_loop_error (data : List Byte) (field_size : Int) (e : Error)
    (item : RegionItem) (herr : e.isError = true) (n : Nat) :
    ∀ (self : RegionItem) (dataOffset : Nat),
      RegionItem.parse_loop data field_size n self dataOffset = Except.ok (e, item) →
      ∃ k t, k < n ∧
        RegionItem.parse_entries data field_size k self dataOffset
          = Except.ok (LoopStep.next item t) ∧
        RegionItem.parse_entry item data field_size t = Except.ok (LoopStep.ret e item) := by
  induction n with
  | zero =>
    intro self dataOffset h
    simp only [RegionItem.parse_loop, Except.ok.injEq, Prod.mk.injEq] at h
    rw [← h.1] at herr
    cases herr
  | succ n ih =>
    intro self dataOffset h
    rw [RegionItem.parse_loop] at h
    split at h
    · simp at h
    · rename_i err s hstep
      simp only [Except.ok.injEq, Prod.mk.injEq] at h
      have hs := (RegionItem.parse_entry_ret _ _ _ _ _ _ hstep).1
      rw [h.1, h.2] at hstep
      rw [h.2] at hs
      refine ⟨0, dataOffset, Nat.succ_pos n, ?_, ?_⟩
      · rw [RegionItem.parse_entries, hs]
      · rw [hs]; rw [hs] at hstep; exact hstep
    · rename_i s1 t1 hstep
      obtain ⟨k, t, hk, hpre, hfail⟩ := ih s1 t1 h
      refine ⟨k + 1, t, by omega, ?_, hfail⟩
      rw [RegionItem.parse_entries, hstep]
      exact hpre


/-! ## The field readers -/

theorem fieldWidth_eq_fieldBytes (field_size : Int) (hfs : field_size = 16 ∨ field_size = 32) :
    fieldWidth field_size = fieldBytes field_size := by
  rcases hfs with rfl | rfl <;> rfl

theorem unsignedField_lt (data : List Byte) (field_size : Int) (dataOffset : Nat) :
    unsignedField data field_size dataOffset < 4294967296 := by
  unfold unsignedField
  have := byteAt_lt data dataOffset; have := byteAt_lt data (dataOffset + 1)
  have := byteAt_lt data (dataOffset + 2); have := byteAt_lt data (dataOffset + 3)
  split <;> omega

theorem RegionGeometry.parse_unsigned_ok (data : List Byte) (field_size : Int)
    (dataOffset : Nat) (hin : dataOffset + fieldWidth field_size ≤ data.length)
    (hrep : dataOffset + fieldWidth field_size < 4294967296) :
    RegionGeometry.parse_unsigned data field_size dataOffset
      = Except.ok (unsignedField data field_size dataOffset,
                   dataOffset + fieldWidth field_size) := by
  unfold RegionGeometry.parse_unsigned unsignedField fieldWidth
  unfold fieldWidth at hin hrep
  by_cases h32 : field_size = 32
  · simp only [h32, if_true] at hin hrep ⊢
    have m1 : (dataOffset + 1) % 4294967296 = dataOffset + 1 := by omega
    have m2 : (dataOffset + 2) % 4294967296 = dataOffset + 2 := by omega
    have m3 : (dataOffset + 3) % 4294967296 = dataOffset + 3 := by omega
    have m4 : (dataOffset + 4) % 4294967296 = dataOffset + 4 := by omega
    rw [m1, m2, m3, m4, readByte_eq_ok data dataOffset (by omega),
      readByte_eq_ok data (dataOffset + 1) (by omega),
      readByte_eq_ok data (dataOffset + 2) (by omega),
      readByte_eq_ok data (dataOffset + 3) (by omega)]
    simp only
    rw [be32_eq _ _ _ _ (byteAt_lt _ _) (byteAt_lt _ _) (byteAt_lt _ _)]
    have := byteAt_lt data dataOffset; have := byteAt_lt data (dataOffset + 1)
    have := byteAt_lt data (dataOffset + 2); have := byteAt_lt data (dataOffset + 3)
    rw [Nat.mod_eq_of_lt (by omega)]
  · simp only [h32, if_false] at hin hrep ⊢
    have m1 : (dataOffset + 1) % 4294967296 = dataOffset + 1 := by omega
    have m2 : (dataOffset + 2) % 4294967296 = dataOffset + 2 := by omega
    rw [m1, m2, readByte_eq_ok data dataOffset (by omega),
      readByte_eq_ok data (dataOffset + 1) (by omega)]
    simp only
    rw [be16_eq _ _ (byteAt_lt _ _)]
    have := byteAt_lt data dataOffset; have := byteAt_lt data (dataOffset + 1)
    rw [Nat.mod_eq_of_lt (by omega)]

theorem RegionGeometry.parse_signed_ok (data : List Byte) (field_size : Int)
    (dataOffset : Nat) (hin : dataOffset + fieldWidth field_size ≤ data.length)
    (hrep : dataOffset + fieldWidth field_size < 4294967296) :
    RegionGeometry.parse_signed data field_size dataOffset
      = Except.ok (signedField data field_size dataOffset,
                   dataOffset + fieldWidth field_size) := by
  unfold RegionGeometry.parse_signed signedField unsignedField fieldWidth
  unfold fieldWidth at hin hrep
  by_cases h32 : field_size = 32
  · simp only [h32, if_true] at hin hrep ⊢
    have m1 : (dataOffset + 1) % 4294967296 = dataOffset + 1 := by omega
    have m2 : (dataOffset + 2) % 4294967296 = dataOffset + 2 := by omega
    have m3 : (dataOffset + 3) % 4294967296 = dataOffset + 3 := by omega
    have m4 : (dataOffset + 4) % 4294967296 = dataOffset + 4 := by omega
    rw [m1, m2, m3, m4, readByte_eq_ok data dataOffset (by omega),
      readByte_eq_ok data (dataOffset + 1) (by omega),
      readByte_eq_ok data (dataOffset + 2) (by omega),
      readByte_eq_ok data (dataOffset + 3) (by omega)]
    simp only
    rw [be32_eq _ _ _ _ (byteAt_lt _ _) (byteAt_lt _ _) (byteAt_lt _ _)]
  · simp only [h32, if_false] at hin hrep ⊢
    have m1 : (dataOffset + 1) % 4294967296 = dataOffset + 1 := by omega
    have m2 : (dataOffset + 2) % 4294967296 = dataOffset + 2 := by omega
    rw [m1, m2, readByte_eq_ok data dataOffset (by omega),
      readByte_eq_ok data (dataOffset + 1) (by omega)]
    simp only
    rw [be16_eq _ _ (byteAt_lt _ _)]
    have := byteAt_lt data dataOffset; have := byteAt_lt data (dataOffset + 1)
    unfold toInt32
    rw [Nat.mod_eq_of_lt (by omega), if_pos (by omega)]

theorem RegionGeometry.parse_unsigned_fault (data : List Byte) (field_size : Int)
    (dataOffset : Nat) (hoff : dataOffset ≤ data.length)
    (hin : data.length < dataOffset + fieldWidth field_size)
    (hlen : data.length < 4294967296) :
    RegionGeometry.parse_unsigned data field_size dataOffset
      = Except.error (Fault.outOfBoundsRead data.length) := by
  unfold RegionGeometry.parse_unsigned
  unfold fieldWidth at hin
  by_cases h32 : field_size = 32
  · simp only [h32, if_true] at hin ⊢
    by_cases h0 : dataOffset < data.length
    · rw [readByte_eq_ok data dataOffset h0]
      have m1 : (dataOffset + 1) % 4294967296 = dataOffset + 1 := by omega
      rw [m1]
      by_cases h1 : dataOffset + 1 < data.length
      · rw [readByte_eq_ok data _ h1]
        have m2 : (dataOffset + 2) % 4294967296 = dataOffset + 2 := by omega
        rw [m2]
        by_cases h2 : dataOffset + 2 < data.length
        · rw [readByte_eq_ok data _ h2]
          have m3 : (dataOffset + 3) % 4294967296 = dataOffset + 3 := by omega
          rw [m3, readByte_eq_error data _ (by omega)]
          simp only
          rw [show dataOffset + 3 = data.length by omega]
        · rw [readByte_eq_error data _ (by omega)]
          simp only
          rw [show dataOffset + 2 = data.length by omega]
      · rw [readByte_eq_error data _ (by omega)]
        simp only
        rw [show dataOffset + 1 = data.length by omega]
    · rw [readByte_eq_error data _ (by omega)]
      simp only
      rw [show dataOffset = data.length by omega]
  · simp only [h32, if_false] at hin ⊢
    by_cases h0 : dataOffset < data.length
    · rw [readByte_eq_ok data dataOffset h0]
      have m1 : (dataOffset + 1) % 4294967296 = dataOffset + 1 := by omega
      rw [m1, readByte_eq_error data _ (by omega)]
      simp only
      rw [show dataOffset + 1 = data.length by omega]
    · rw [readByte_eq_error data _ (by omega)]
      simp only
      rw [show dataOffset = data.length by omega]

theorem RegionGeometry.parse_signed_fault (data : List Byte) (field_size : Int)
    (dataOffset : Nat) (hoff : dataOffset ≤ data.length)
    (hin : data.length < dataOffset + fieldWidth field_size)
    (hlen : data.length < 4294967296) :
    RegionGeometry.parse_signed data field_size dataOffset
      = Except.error (Fault.outOfBoundsRead data.length) := by
  unfold RegionGeometry.parse_signed
  unfold fieldWidth at hin
  by_cases h32 : field_size = 32
  · simp only [h32, if_true] at hin ⊢
    by_cases h0 : dataOffset < data.length
    · rw [readByte_eq_ok data dataOffset h0]
      have m1 : (dataOffset + 1) % 4294967296 = dataOffset + 1 := by omega
      rw [m1]
      by_cases h1 : dataOffset + 1 < data.length
      · rw [readByte_eq_ok data _ h1]
        have m2 : (dataOffset + 2) % 4294967296 = dataOffset + 2 := by omega
        rw [m2]
        by_cases h2 : dataOffset + 2 < data.length
        · rw [readByte_eq_ok data _ h2]
          have m3 : (dataOffset + 3) % 4294967296 = dataOffset + 3 := by omega
          rw [m3, readByte_eq_error data _ (by omega)]
          simp only
          rw [show dataOffset + 3 = data.length by omega]
        · rw [readByte_eq_error data _ (by omega)]
          simp only
          rw [show dataOffset + 2 = data.length by omega]
      · rw [readByte_eq_error data _ (by omega)]
        simp only
        rw [show dataOffset + 1 = data.length by omega]
    · rw [readByte_eq_error data _ (by omega)]
      simp only
      rw [show dataOffset = data.length by omega]
  · simp only [h32, if_false] at hin ⊢
    by_cases h0 : dataOffset < data.length
    · rw [readByte_eq_ok data dataOffset h0]
      have m1 : (dataOffset + 1) % 4294967296 = dataOffset + 1 := by omega
      rw [m1, readByte_eq_error data _ (by omega)]
      simp only
      rw [show dataOffset + 1 = data.length by omega]
    · rw [readByte_eq_error data _ (by omega)]
      simp only
      rw [show dataOffset = data.length by omega]

/-! ## The decoders on complete payloads -/

theorem bytesRequired_eq (field_size : Int) (hfs : field_size = 16 ∨ field_size = 32)
    (k : Nat) (hk : k = 1 ∨ k = 2 ∨ k = 4) :
    toUnsigned (Int.tdiv field_size 8 * (k : Int)) = k * fieldWidth field_size := by
  rcases hfs with rfl | rfl <;> rcases hk with rfl | rfl | rfl <;> rfl

theorem RegionGeometry_Point.parse_point_ok (g : RegionGeometry_Point) (data : List Byte)
    (field_size : Int) (dataOffset : Nat) (hfs : field_size = 16 ∨ field_size = 32)
    (hin : dataOffset + 2 * fieldWidth field_size ≤ data.length)
    (hrep : dataOffset + 2 * fieldWidth field_size < 4294967296)
    (hsz : data.length < 18446744073709551616) :
    g.parse data field_size dataOffset
      = Except.ok (Error.Ok,
          ⟨signedField data field_size dataOffset,
           signedField data field_size (dataOffset + fieldWidth field_size)⟩,
          dataOffset + 2 * fieldWidth field_size) := by
  have hb := bytesRequired_eq field_size hfs 2 (Or.inr (Or.inl rfl))
  have hw : fieldWidth field_size = 2 ∨ fieldWidth field_size = 4 := by
    rcases hfs with rfl | rfl
    · exact Or.inl rfl
    · exact Or.inr rfl
  unfold RegionGeometry_Point.parse
  simp only [Nat.cast_ofNat] at hb
  simp only [hb, bytesRemaining_of_le data dataOffset (by omega) (by omega)]
  rw [if_neg (by omega),
    RegionGeometry.parse_signed_ok data field_size dataOffset (by omega) (by omega)]
  simp only
  rw [RegionGeometry.parse_signed_ok data field_size _ (by omega) (by omega)]
  simp only
  rw [show dataOffset + fieldWidth field_size + fieldWidth field_size
        = dataOffset + 2 * fieldWidth field_size by omega]

theorem RegionGeometry_Rectangle.parse_rectangle_ok (g : RegionGeometry_Rectangle)
    (data : List Byte) (field_size : Int) (dataOffset : Nat)
    (hfs : field_size = 16 ∨ field_size = 32)
    (hin : dataOffset + 4 * fieldWidth field_size ≤ data.length)
    (hrep : dataOffset + 4 * fieldWidth field_size < 4294967296)
    (hsz : data.length < 18446744073709551616) :
    g.parse data field_size dataOffset
      = Except.ok (Error.Ok,
          ⟨signedField data field_size dataOffset,
           signedField data field_size (dataOffset + fieldWidth field_size),
           unsignedField data field_size (dataOffset + 2 * fieldWidth field_size),
           unsignedField data field_size (dataOffset + 3 * fieldWidth field_size)⟩,
          dataOffset + 4 * fieldWidth field_size) := by
  have hb := bytesRequired_eq field_size hfs 4 (Or.inr (Or.inr rfl))
  have hw : fieldWidth field_size = 2 ∨ fieldWidth field_size = 4 := by
    rcases hfs with rfl | rfl
    · exact Or.inl rfl
    · exact Or.inr rfl
  unfold RegionGeometry_Rectangle.parse
  simp only [Nat.cast_ofNat] at hb
  simp only [hb, bytesRemaining_of_le data dataOffset (by omega) (by omega)]
  rw [if_neg (by omega),
    RegionGeometry.parse_signed_ok data field_size dataOffset (by omega) (by omega)]
  simp only
  rw [RegionGeometry.parse_signed_ok data field_size _ (by omega) (by omega)]
  simp only
  rw [RegionGeometry.parse_unsigned_ok data field_size _ (by omega) (by omega)]
  simp only
  rw [RegionGeometry.parse_unsigned_ok data field_size _ (by omega) (by omega)]
  simp only
  rw [show dataOffset + fieldWidth field_size + fieldWidth field_size
        = dataOffset + 2 * fieldWidth field_size by omega,
    show dataOffset + 2 * fieldWidth field_size + fieldWidth field_size
        = dataOffset + 3 * fieldWidth field_size by omega,
    show dataOffset + 3 * fieldWidth field_size + fieldWidth field_size
        = dataOffset + 4 * fieldWidth field_size by omega]

theorem RegionGeometry_Ellipse.parse_ellipse_ok (g : RegionGeometry_Ellipse)
    (data : List Byte) (field_size : Int) (dataOffset : Nat)
    (hfs : field_size = 16 ∨ field_size = 32)
    (hin : dataOffset + 4 * fieldWidth field_size ≤ data.length)
    (hrep : dataOffset + 4 * fieldWidth field_size < 4294967296)
    (hsz : data.length < 18446744073709551616) :
    g.parse data field_size dataOffset
      = Except.ok (Error.Ok,
          ⟨signedField data field_size dataOffset,
           signedField data field_size (dataOffset + fieldWidth field_size),
           unsignedField data field_size (dataOffset + 2 * fieldWidth field_size),
           unsignedField data field_size (dataOffset + 3 * fieldWidth field_size)⟩,
          dataOffset + 4 * fieldWidth field_size) := by
  have hb := bytesRequired_eq field_size hfs 4 (Or.inr (Or.inr rfl))
  have hw : fieldWidth field_size = 2 ∨ fieldWidth field_size = 4 := by
    rcases hfs with rfl | rfl
    · exact Or.inl rfl
    · exact Or.inr rfl
  unfold RegionGeometry_Ellipse.parse
  simp only [Nat.cast_ofNat] at hb
  simp only [hb, bytesRemaining_of_le data dataOffset (by omega) (by omega)]
  rw [if_neg (by omega),
    RegionGeometry.parse_signed_ok data field_size dataOffset (by omega) (by omega)]
  simp only
  rw [RegionGeometry.parse_signed_ok data field_size _ (by omega) (by omega)]
  simp only
  rw [RegionGeometry.parse_unsigned_ok data field_size _ (by omega) (by omega)]
  simp only
  rw [RegionGeometry.parse_unsigned_ok data field_size _ (by omega) (by omega)]
  simp only
  rw [show dataOffset + fieldWidth field_size + fieldWidth field_size
        = dataOffset + 2 * fieldWidth field_size by omega,
    show dataOffset + 2 * fieldWidth field_size + fieldWidth field_size
        = dataOffset + 3 * fieldWidth field_size by omega,
    show dataOffset + 3 * fieldWidth field_size + fieldWidth field_size
        = dataOffset + 4 * fieldWidth field_size by omega]

/-- When the decoder of the object created for the tag returns `Error::Ok`, the loop body
appends the object and falls through with the cursor the decoder left. -/
theorem RegionItem.parse_entry_of_ok (self : RegionItem) (data : List Byte)
    (field_size : Int) (tagOffset tag : Nat) (region region1 : RegionGeometry) (e : Error)
    (off1 : Nat) (hread : readByte data tagOffset = Except.ok tag)
    (hmake : makeRegion tag = some region)
    (hparse : region.parse data field_size ((tagOffset + 1) % 4294967296)
                = Except.ok (e, region1, off1))
    (herr : e.isError = false) :
    RegionItem.parse_entry self data field_size tagOffset
      = Except.ok (LoopStep.next { self with mRegions := self.mRegions ++ [region1] }
                                 off1) := by
  unfold RegionItem.parse_entry
  rw [hread]
  simp only [hmake, hparse, herr]
  rfl

/-! ## The regions of a successful decode -/

theorem makeRegion_some (tag : Nat) (region : RegionGeometry)
    (h : makeRegion tag = some region) :
    recognisedTag tag = true ∧ region.geometry_type = tag := by
  unfold makeRegion at h
  split at h
  · rename_i h0; subst h0
    simp only [Option.some.injEq] at h; subst h
    exact ⟨rfl, rfl⟩
  · split at h
    · rename_i h0; subst h0
      simp only [Option.some.injEq] at h; subst h
      exact ⟨rfl, rfl⟩
    · split at h
      · rename_i h0; subst h0
        simp only [Option.some.injEq] at h; subst h
        exact ⟨rfl, rfl⟩
      · split at h
        · rename_i h0; subst h0
          simp only [Option.some.injEq] at h; subst h
          exact ⟨rfl, rfl⟩
        · split at h
          · rename_i h0; subst h0
            simp only [Option.some.injEq] at h; subst h
            exact ⟨rfl, rfl⟩
          · cases h

theorem makeRegion_none_iff (tag : Nat) (h : makeRegion tag = none) :
    recognisedTag tag = false := by
  unfold makeRegion at h
  unfold recognisedTag
  split at h
  · cases h
  · split at h
    · cases h
    · split at h
      · cases h
      · split at h
        · cases h
        · split at h
          · cases h
          · simp only [decide_eq_false_iff_not]
            omega

/-- The virtual call keeps the tag of the object. -/
theorem RegionGeometry.parse_geometry_type (region : RegionGeometry) (data : List Byte)
    (field_size : Int) (dataOffset : Nat) (e : Error) (region1 : RegionGeometry) (off1 : Nat)
    (h : region.parse data field_size dataOffset = Except.ok (e, region1, off1)) :
    region1.geometry_type = region.geometry_type := by
  have hk := RegionGeometry.parse_kind region data field_size dataOffset e region1 off1 h
  cases region with
  | point g => obtain ⟨g1, h1⟩ := hk.1 g rfl; rw [h1]; rfl
  | rectangle g => obtain ⟨g1, h1⟩ := hk.2.1 g rfl; rw [h1]; rfl
  | ellipse g => obtain ⟨g1, h1⟩ := hk.2.2.1 g rfl; rw [h1]; rfl
  | polygon g => obtain ⟨pts, h1⟩ := hk.2.2.2 g rfl; rw [h1]; rfl

/-- A decoder that does not return an error returns `Error::Ok`. -/
theorem RegionGeometry.parse_no_error (region : RegionGeometry) (data : List Byte)
    (field_size : Int) (dataOffset : Nat) (e : Error) (region1 : RegionGeometry) (off1 : Nat)
    (h : region.parse data field_size dataOffset = Except.ok (e, region1, off1))
    (he : e.isError = false) : e = Error.Ok := by
  unfold RegionGeometry.parse at h
  cases region with
  | point g =>
    dsimp only at h
    split at h
    · simp at h
    · rename_i e0 g1 o1 hp
      simp only [Except.ok.injEq, Prod.mk.injEq] at h
      rw [← h.1]; rw [← h.1] at he
      unfold RegionGeometry_Point.parse at hp
      dsimp only at hp
      split at hp
      · simp only [Except.ok.injEq, Prod.mk.injEq] at hp
        rw [← hp.1] at he; cases he
      · split at hp
        · simp at hp
        · split at hp
          · simp at hp
          · simp only [Except.ok.injEq, Prod.mk.injEq] at hp
            exact hp.1.symm
  | rectangle g =>
    dsimp only at h
    split at h
    · simp at h
    · rename_i e0 g1 o1 hp
      simp only [Except.ok.injEq, Prod.mk.injEq] at h
      rw [← h.1]; rw [← h.1] at he
      unfold RegionGeometry_Rectangle.parse at hp
      dsimp only at hp
      split at hp
      · simp only [Except.ok.injEq, Prod.mk.injEq] at hp
        rw [← hp.1] at he; cases he
      · split at hp
        · simp at hp
        · split at hp
          · simp at hp
          · split at hp
            · simp at hp
            · split at hp
              · simp at hp
              · simp only [Except.ok.injEq, Prod.mk.injEq] at hp
                exact hp.1.symm
  | ellipse g =>
    dsimp only at h
    split at h
    · simp at h
    · rename_i e0 g1 o1 hp
      simp only [Except.ok.injEq, Prod.mk.injEq] at h
      rw [← h.1]; rw [← h.1] at he
      unfold RegionGeometry_Ellipse.parse at hp
      dsimp only at hp
      split at hp
      · simp only [Except.ok.injEq, Prod.mk.injEq] at hp
        rw [← hp.1] at he; cases he
      · split at hp
        · simp at hp
        · split at hp
          · simp at hp
          · split at hp
            · simp at hp
            · split at hp
              · simp at hp
              · simp only [Except.ok.injEq, Prod.mk.injEq] at hp
                exact hp.1.symm
  | polygon g =>
    dsimp only at h
    split at h
    · simp at h
    · rename_i e0 g1 o1 hp
      simp only [Except.ok.injEq, Prod.mk.injEq] at h
      rw [← h.1]; rw [← h.1] at he
      unfold RegionGeometry_Polygon.parse at hp
      dsimp only at hp
      split at hp
      · simp only [Except.ok.injEq, Prod.mk.injEq] at hp
        rw [← hp.1] at he; cases he
      · split at hp
        · simp at hp
        · split at hp
          · simp only [Except.ok.injEq, Prod.mk.injEq] at hp
            rw [← hp.1] at he; cases he
          · split at hp
            · simp at hp
            · simp only [Except.ok.injEq, Prod.mk.injEq] at hp
              exact hp.1.symm

/-- One run of the loop body that falls through, read together with its tag: an
unrecognised tag leaves the record alone; a recognised one appends the geometry its
decoder returned with `Error::Ok`. -/
theorem RegionItem.parse_entry_next_cases (self : RegionItem) (data : List Byte)
    (field_size : Int) (dataOffset tag : Nat) (self1 : RegionItem) (off1 : Nat)
    (hread : readByte data dataOffset = Except.ok tag)
    (h : RegionItem.parse_entry self data field_size dataOffset
          = Except.ok (LoopStep.next self1 off1)) :
    (recognisedTag tag = false ∧ self1 = self) ∨
    (recognisedTag tag = true ∧ ∃ g, self1 = { self with mRegions := self.mRegions ++ [g] } ∧
      decodedFrom data field_size g (tag, (dataOffset + 1) % 4294967296)) := by
  unfold RegionItem.parse_entry at h
  rw [hread] at h
  dsimp only at h
  split at h
  · rename_i hnone
    simp only [Except.ok.injEq, LoopStep.next.injEq] at h
    exact Or.inl ⟨makeRegion_none_iff tag hnone, h.1.symm⟩
  · rename_i region hsome
    split at h
    · simp at h
    · rename_i e region1 off2 hparse
      split at h
      · simp at h
      · rename_i hne
        simp only [Except.ok.injEq, LoopStep.next.injEq] at h
        have he : e.isError = false := by simpa using hne
        have hok := RegionGeometry.parse_no_error _ _ _ _ _ _ _ hparse he
        have hty := RegionGeometry.parse_geometry_type _ _ _ _ _ _ _ hparse
        have hms := makeRegion_some tag region hsome
        refine Or.inr ⟨hms.1, region1, h.1.symm, ?_, region, off2, hsome, ?_⟩
        · rw [hty]; exact hms.2
        · rw [hparse, hok]

theorem RegionItem.parse_loop_regions (data : List Byte) (field_size : Int) (e : Error)
    (item : RegionItem) (he : e.isError = false) (n : Nat) :
    ∀ (self : RegionItem) (dataOffset : Nat),
      RegionItem.parse_loop data field_size n self dataOffset = Except.ok (e, item) →
      (RegionItem.entries_read data field_size n self dataOffset).length = n ∧
      ∃ gs, item.mRegions = self.mRegions ++ gs ∧
        List.Forall₂ (decodedFrom data field_size) gs
          ((RegionItem.entries_read data field_size n self dataOffset).filter
            (fun entry => recognisedTag entry.1)) := by
  induction n with
  | zero =>
    intro self dataOffset h
    simp only [RegionItem.parse_loop, Except.ok.injEq, Prod.mk.injEq] at h
    refine ⟨rfl, [], by rw [← h.2, List.append_nil], ?_⟩
    simp only [RegionItem.entries_read, List.filter_nil]
    exact List.Forall₂.nil
  | succ n ih =>
    intro self dataOffset h
    rw [RegionItem.parse_loop] at h
    cases hstep : RegionItem.parse_entry self data field_size dataOffset with
    | error f => rw [hstep] at h; simp at h
    | ok step =>
      cases step with
      | ret err s =>
        rw [hstep] at h
        simp only [Except.ok.injEq, Prod.mk.injEq] at h
        have := (RegionItem.parse_entry_ret _ _ _ _ _ _ hstep).2
        rw [h.1, he] at this
        cases this
      | next s off =>
        rw [hstep] at h
        simp only at h
        obtain ⟨hlen, gs, hgs, hall⟩ := ih s off h
        have hread : ∃ tag, readByte data dataOffset = Except.ok tag := by
          unfold RegionItem.parse_entry at hstep
          cases hr : readByte data dataOffset with
          | error f => rw [hr] at hstep; simp at hstep
          | ok tag => exact ⟨tag, rfl⟩
        obtain ⟨tag, hread⟩ := hread
        have hent : RegionItem.entries_read data field_size (n + 1) self dataOffset
            = (tag, (dataOffset + 1) % 4294967296)
                :: RegionItem.entries_read data field_size n s off := by
          rw [RegionItem.entries_read, hread]
          simp only [hstep]
        rw [hent]
        refine ⟨by simp only [List.length_cons, hlen], ?_⟩
        rcases RegionItem.parse_entry_next_cases _ _ _ _ _ _ _ hread hstep with
          ⟨hrec, hs⟩ | ⟨hrec, g, hs, hdec⟩
        · refine ⟨gs, by rw [hgs, hs], ?_⟩
          rw [List.filter_cons_of_neg (by simp only [hrec]; decide)]
          exact hall
        · refine ⟨g :: gs, ?_, ?_⟩
          · rw [hgs, hs]
            simp only [List.append_assoc, List.singleton_append]
          · rw [List.filter_cons_of_pos (by simp only [hrec])]
            exact List.Forall₂.cons hdec hall

theorem forall₂_decodedFrom_map (data : List Byte) (field_size : Int)
    (gs : List RegionGeometry) (entries : List (Nat × Nat))
    (h : List.Forall₂ (decodedFrom data field_size) gs entries) :
    gs.map RegionGeometry.geometry_type = entries.map Prod.fst := by
  induction h with
  | nil => rfl
  | cons hd _ ih => simp only [List.map_cons, ih, hd.1]

theorem toInt32_of_lt (n : Nat) (h : n < 2147483648) : toInt32 n = (n : Int) := by
  unfold toInt32
  rw [Nat.mod_eq_of_lt (by omega), if_pos h]

/-- A record with one Point entry right behind the header. -/
theorem RegionItem.parse_one_point (self : RegionItem) (data : List Byte)
    (h8 : 8 ≤ data.length) (h12 : byteAt data 1 % 2 = 1 → 12 ≤ data.length)
    (hsz : data.length < 18446744073709551616)
    (hcount : byteAt data (regionCountOffset data) = 1)
    (htag : byteAt data (regionCountOffset data + 1) = 0)
    (hin : regionCountOffset data + 2 + 2 * fieldWidth (headerFieldSize data)
            ≤ data.length) :
    RegionItem.parse self data =
      Except.ok (Error.Ok,
        { self.withReferenceSize data with
          mRegions := self.mRegions ++
            [RegionGeometry.point
              ⟨signedField data (headerFieldSize data) (regionCountOffset data + 2),
               signedField data (headerFieldSize data)
                 (regionCountOffset data + 2 + fieldWidth (headerFieldSize data))⟩] }) := by
  have hoff : regionCountOffset data = 6 ∨ regionCountOffset data = 10 := by
    unfold regionCountOffset; split
    · exact Or.inr rfl
    · exact Or.inl rfl
  have hfs : headerFieldSize data = 16 ∨ headerFieldSize data = 32 := by
    unfold headerFieldSize; split
    · exact Or.inr rfl
    · exact Or.inl rfl
  have hw : fieldWidth (headerFieldSize data) = 2 ∨ fieldWidth (headerFieldSize data) = 4 := by
    rcases hfs with h | h <;> rw [h]
    · exact Or.inl rfl
    · exact Or.inr rfl
  have hm : (regionCountOffset data + 1 + 1) % 4294967296 = regionCountOffset data + 2 := by
    omega
  have hread := readByte_eq_ok data (regionCountOffset data + 1) (by omega)
  rw [htag] at hread
  have hpoint := RegionGeometry_Point.parse_point_ok ⟨0, 0⟩ data (headerFieldSize data)
    (regionCountOffset data + 2) hfs hin (by omega) hsz
  have hparse : (RegionGeometry.point ⟨0, 0⟩).parse data (headerFieldSize data)
      ((regionCountOffset data + 1 + 1) % 4294967296)
      = Except.ok (Error.Ok,
          RegionGeometry.point
            ⟨signedField data (headerFieldSize data) (regionCountOffset data + 2),
             signedField data (headerFieldSize data)
               (regionCountOffset data + 2 + fieldWidth (headerFieldSize data))⟩,
          regionCountOffset data + 2 + 2 * fieldWidth (headerFieldSize data)) := by
    rw [hm]
    simp only [RegionGeometry.parse, hpoint]
  have hstep := RegionItem.parse_entry_of_ok (self.withReferenceSize data) data
    (headerFieldSize data) (regionCountOffset data + 1) 0 _ _ _ _ hread rfl hparse rfl
  have hregs : (self.withReferenceSize data).mRegions = self.mRegions := by
    unfold RegionItem.withReferenceSize
    split <;> rfl
  rw [RegionItem.parse_header self data h8 h12, hcount]
  simp only [RegionItem.parse_loop, hstep, hregs]

/-! ## The polygon decoder on a complete payload -/

theorem pointsAt_length (data : List Byte) (field_size : Int) (n : Nat) :
    ∀ dataOffset, (pointsAt data field_size n dataOffset).length = n := by
  induction n with
  | zero => intro dataOffset; rfl
  | succ n ih => intro dataOffset; simp only [pointsAt, List.length_cons, ih]

theorem pointsAt_getElem? (data : List Byte) (field_size : Int) (n : Nat) :
    ∀ (dataOffset i : Nat), i < n →
      (pointsAt data field_size n dataOffset)[i]?
        = some ⟨signedField data field_size (dataOffset + 2 * i * fieldWidth field_size),
                signedField data field_size
                  (dataOffset + (2 * i + 1) * fieldWidth field_size)⟩ := by
  induction n with
  | zero => intro dataOffset i hi; omega
  | succ n ih =>
    intro dataOffset i hi
    cases i with
    | zero =>
      simp only [pointsAt, List.getElem?_cons_zero, Nat.mul_zero, Nat.zero_mul, Nat.add_zero,
        Nat.zero_add, Nat.one_mul]
    | succ i =>
      simp only [pointsAt, List.getElem?_cons_succ]
      rw [ih _ i (by omega)]
      have e1 : dataOffset + 2 * fieldWidth field_size + 2 * i * fieldWidth field_size
          = dataOffset + 2 * (i + 1) * fieldWidth field_size := by ring
      have e2 : dataOffset + 2 * fieldWidth field_size + (2 * i + 1) * fieldWidth field_size
          = dataOffset + (2 * (i + 1) + 1) * fieldWidth field_size := by ring
      rw [e1, e2]

theorem RegionGeometry_Polygon.parse_points_ok (data : List Byte) (field_size : Int)
    (hlen : data.length < 4294967296) (n : Nat) :
    ∀ (points : List Point) (dataOffset : Nat),
      dataOffset + 2 * n * fieldWidth field_size ≤ data.length →
      RegionGeometry_Polygon.parse_points data field_size n points dataOffset
        = Except.ok (points ++ pointsAt data field_size n dataOffset,
                     dataOffset + 2 * n * fieldWidth field_size) := by
  induction n with
  | zero =>
    intro points dataOffset _
    simp only [RegionGeometry_Polygon.parse_points, pointsAt, List.append_nil, Nat.mul_zero,
      Nat.zero_mul, Nat.add_zero]
  | succ n ih =>
    intro points dataOffset hin
    have hexp : 2 * (n + 1) * fieldWidth field_size
        = 2 * fieldWidth field_size + 2 * n * fieldWidth field_size := by ring
    rw [hexp] at hin ⊢
    rw [RegionGeometry_Polygon.parse_points,
      RegionGeometry.parse_signed_ok data field_size dataOffset (by omega) (by omega)]
    simp only
    rw [RegionGeometry.parse_signed_ok data field_size _ (by omega) (by omega)]
    simp only
    rw [show dataOffset + fieldWidth field_size + fieldWidth field_size
          = dataOffset + 2 * fieldWidth field_size by omega,
      ih _ _ (by omega)]
    simp only [pointsAt, List.append_assoc, List.singleton_append, Nat.add_assoc]

theorem RegionGeometry_Polygon.parse_polygon_ok (g : RegionGeometry_Polygon)
    (data : List Byte) (field_size : Int) (dataOffset : Nat)
    (hfs : field_size = 16 ∨ field_size = 32) (hlen : data.length < 4294967296)
    (hin : dataOffset + fieldWidth field_size
            + 2 * unsignedField data field_size dataOffset * fieldWidth field_size
            ≤ data.length) :
    g.parse data field_size dataOffset
      = Except.ok (Error.Ok,
          ⟨g.closed, g.points ++
              pointsAt data field_size (unsignedField data field_size dataOffset)
                (dataOffset + fieldWidth field_size)⟩,
          dataOffset + fieldWidth field_size
            + 2 * unsignedField data field_size dataOffset * fieldWidth field_size) := by
  have hb := bytesRequired_eq field_size hfs 1 (Or.inl rfl)
  have hw : fieldWidth field_size = 2 ∨ fieldWidth field_size = 4 := by
    rcases hfs with rfl | rfl
    · exact Or.inl rfl
    · exact Or.inr rfl
  have hu : toUnsigned (Int.tdiv field_size 8) = fieldWidth field_size := by
    rcases hfs with rfl | rfl <;> rfl
  have hreq : (fieldWidth field_size * unsignedField data field_size dataOffset * 2)
      % 4294967296 = 2 * unsignedField data field_size dataOffset * fieldWidth field_size := by
    rw [show fieldWidth field_size * unsignedField data field_size dataOffset * 2
        = 2 * unsignedField data field_size dataOffset * fieldWidth field_size by ring]
    exact Nat.mod_eq_of_lt (by omega)
  unfold RegionGeometry_Polygon.parse
  simp only [Nat.cast_one] at hb
  simp only [hb, Nat.one_mul, bytesRemaining_of_le data dataOffset (by omega) (by omega)]
  rw [if_neg (by omega),
    RegionGeometry.parse_unsigned_ok data field_size dataOffset (by omega) (by omega)]
  simp only [hu, hreq,
    bytesRemaining_of_le data (dataOffset + fieldWidth field_size) (by omega) (by omega)]
  rw [if_neg (by omega),
    RegionGeometry_Polygon.parse_points_ok data field_size hlen _ _ _ (by omega)]

/-! ## Independence of the record's old reference size; cursors on error -/

theorem RegionItem.withReferenceSize_congr (self1 self2 : RegionItem) (data : List Byte)
    (h : self1.mRegions = self2.mRegions) :
    self1.withReferenceSize data = self2.withReferenceSize data := by
  unfold RegionItem.withReferenceSize
  split <;> simp only [h]

theorem RegionGeometry.parse_unsigned_cursor (data : List Byte) (field_size : Int)
    (dataOffset v off1 : Nat)
    (h : RegionGeometry.parse_unsigned data field_size dataOffset = Except.ok (v, off1)) :
    off1 = (dataOffset + fieldWidth field_size) % 4294967296 := by
  unfold RegionGeometry.parse_unsigned at h
  unfold fieldWidth
  split at h
  · rename_i h32
    rw [if_pos h32]
    split at h
    · simp at h
    · split at h
      · simp at h
      · split at h
        · simp at h
        · split at h
          · simp at h
          · simp only [Except.ok.injEq, Prod.mk.injEq] at h
            exact h.2.symm
  · rename_i h32
    rw [if_neg h32]
    split at h
    · simp at h
    · split at h
      · simp at h
      · simp only [Except.ok.injEq, Prod.mk.injEq] at h
        exact h.2.symm

theorem RegionGeometry_Point.parse_point_error (g : RegionGeometry_Point) (data : List Byte)
    (field_size : Int) (dataOffset : Nat) (e : Error) (g1 : RegionGeometry_Point)
    (off1 : Nat) (h : g.parse data field_size dataOffset = Except.ok (e, g1, off1))
    (he : e.sub_error_code = heif_suberror_code.heif_suberror_Invalid_region_data) :
    off1 = dataOffset ∧ g1 = g := by
  unfold RegionGeometry_Point.parse at h
  dsimp only at h
  split at h
  · simp only [Except.ok.injEq, Prod.mk.injEq] at h
    exact ⟨h.2.2.symm, h.2.1.symm⟩
  · split at h
    · simp at h
    · split at h
      · simp at h
      · simp only [Except.ok.injEq, Prod.mk.injEq] at h
        rw [← h.1] at he
        cases he

theorem RegionGeometry_Rectangle.parse_rectangle_error (g : RegionGeometry_Rectangle)
    (data : List Byte) (field_size : Int) (dataOffset : Nat) (e : Error)
    (g1 : RegionGeometry_Rectangle) (off1 : Nat)
    (h : g.parse data field_size dataOffset = Except.ok (e, g1, off1))
    (he : e.sub_error_code = heif_suberror_code.heif_suberror_Invalid_region_data) :
    off1 = dataOffset ∧ g1 = g := by
  unfold RegionGeometry_Rectangle.parse at h
  dsimp only at h
  split at h
  · simp only [Except.ok.injEq, Prod.mk.injEq] at h
    exact ⟨h.2.2.symm, h.2.1.symm⟩
  · split at h
    · simp at h
    · split at h
      · simp at h
      · split at h
        · simp at h
        · split at h
          · simp at h
          · simp only [Except.ok.injEq, Prod.mk.injEq] at h
            rw [← h.1] at he
            cases he

theorem RegionGeometry_Ellipse.parse_ellipse_error (g : RegionGeometry_Ellipse)
    (data : List Byte) (field_size : Int) (dataOffset : Nat) (e : Error)
    (g1 : RegionGeometry_Ellipse) (off1 : Nat)
    (h : g.parse data field_size dataOffset = Except.ok (e, g1, off1))
    (he : e.sub_error_code = heif_suberror_code.heif_suberror_Invalid_region_data) :
    off1 = dataOffset ∧ g1 = g := by
  unfold RegionGeometry_Ellipse.parse at h
  dsimp only at h
  split at h
  · simp only [Except.ok.injEq, Prod.mk.injEq] at h
    exact ⟨h.2.2.symm, h.2.1.symm⟩
  · split at h
    · simp at h
    · split at h
      · simp at h
      · split at h
        · simp at h
        · split at h
          · simp at h
          · simp only [Except.ok.injEq, Prod.mk.injEq] at h
            rw [← h.1] at he
            cases he

theorem RegionGeometry_Polygon.parse_polygon_error (g : RegionGeometry_Polygon)
    (data : List Byte) (field_size : Int) (dataOffset : Nat) (e : Error)
    (g1 : RegionGeometry_Polygon) (off1 : Nat)
    (h : g.parse data field_size dataOffset = Except.ok (e, g1, off1))
    (he : e.sub_error_code = heif_suberror_code.heif_suberror_Invalid_region_data) :
    g1 = g ∧
    (off1 = dataOffset ∨
      ∃ numPoints, RegionGeometry.parse_unsigned data field_size dataOffset
          = Except.ok (numPoints, off1) ∧
        off1 = (dataOffset + fieldWidth field_size) % 4294967296 ∧
        bytesRemaining data off1
          < (toUnsigned (Int.tdiv field_size 8) * numPoints * 2) % 4294967296) := by
  unfold RegionGeometry_Polygon.parse at h
  dsimp only at h
  split at h
  · simp only [Except.ok.injEq, Prod.mk.injEq] at h
    exact ⟨h.2.1.symm, Or.inl h.2.2.symm⟩
  · split at h
    · simp at h
    · rename_i numPoints o1 hu
      split at h
      · rename_i hshort
        simp only [Except.ok.injEq, Prod.mk.injEq] at h
        obtain ⟨-, hg, ho⟩ := h
        subst ho
        exact ⟨hg.symm, Or.inr ⟨numPoints, hu,
          RegionGeometry.parse_unsigned_cursor _ _ _ _ _ hu, hshort⟩⟩
      · split at h
        · simp at h
        · simp only [Except.ok.injEq, Prod.mk.injEq] at h
          rw [← h.1] at he
          cases he

theorem RegionGeometry_Polygon.parse_polygon_error_check (g : RegionGeometry_Polygon)
    (data : List Byte) (field_size : Int) (dataOffset : Nat) (e : Error)
    (g1 : RegionGeometry_Polygon) (off1 : Nat)
    (h : g.parse data field_size dataOffset = Except.ok (e, g1, off1))
    (he : e.sub_error_code = heif_suberror_code.heif_suberror_Invalid_region_data) :
    (bytesRemaining data dataOffset < toUnsigned (Int.tdiv field_size 8 * 1) →
      off1 = dataOffset) ∧
    (¬ bytesRemaining data dataOffset < toUnsigned (Int.tdiv field_size 8 * 1) →
      ∃ numPoints, RegionGeometry.parse_unsigned data field_size dataOffset
          = Except.ok (numPoints, off1) ∧
        off1 = (dataOffset + fieldWidth field_size) % 4294967296 ∧
        bytesRemaining data off1
          < (toUnsigned (Int.tdiv field_size 8) * numPoints * 2) % 4294967296) := by
  unfold RegionGeometry_Polygon.parse at h
  dsimp only at h
  split at h
  · rename_i hfirst
    simp only [Except.ok.injEq, Prod.mk.injEq] at h
    exact ⟨fun _ => h.2.2.symm, fun hn => absurd hfirst hn⟩
  · rename_i hfirst
    refine ⟨fun hf => absurd hf hfirst, fun _ => ?_⟩
    split at h
    · simp at h
    · rename_i numPoints o1 hu
      split at h
      · rename_i hshort
        simp only [Except.ok.injEq, Prod.mk.injEq] at h
        obtain ⟨-, -, ho⟩ := h
        subst ho
        exact ⟨numPoints, hu, RegionGeometry.parse_unsigned_cursor _ _ _ _ _ hu, hshort⟩
      · split at h
        · simp at h
        · simp only [Except.ok.injEq, Prod.mk.injEq] at h
          rw [← h.1] at he
          cases he

/-! ## Decoders never leave the buffer when the cursor is inside it -/

theorem RegionGeometry_Polygon.parse_polygon_short_list (g : RegionGeometry_Polygon)
    (data : List Byte) (field_size : Int) (dataOffset : Nat)
    (hfs : field_size = 16 ∨ field_size = 32) (hlen : data.length < 4294967296)
    (hcount : dataOffset + fieldWidth field_size ≤ data.length)
    (hnowrap : 2 * unsignedField data field_size dataOffset * fieldWidth field_size
                < 4294967296)
    (hshort : data.length < dataOffset + fieldWidth field_size
                + 2 * unsignedField data field_size dataOffset * fieldWidth field_size) :
    g.parse data field_size dataOffset
      = Except.ok (invalidRegionData "Insufficient data remaining for polygon", g,
                   dataOffset + fieldWidth field_size) := by
  have hb := bytesRequired_eq field_size hfs 1 (Or.inl rfl)
  have hw : fieldWidth field_size = 2 ∨ fieldWidth field_size = 4 := by
    rcases hfs with rfl | rfl
    · exact Or.inl rfl
    · exact Or.inr rfl
  have hu : toUnsigned (Int.tdiv field_size 8) = fieldWidth field_size := by
    rcases hfs with rfl | rfl <;> rfl
  have hreq : (fieldWidth field_size * unsignedField data field_size dataOffset * 2)
      % 4294967296 = 2 * unsignedField data field_size dataOffset * fieldWidth field_size := by
    rw [show fieldWidth field_size * unsignedField data field_size dataOffset * 2
        = 2 * unsignedField data field_size dataOffset * fieldWidth field_size by ring]
    exact Nat.mod_eq_of_lt hnowrap
  unfold RegionGeometry_Polygon.parse
  simp only [Nat.cast_one] at hb
  simp only [hb, Nat.one_mul, bytesRemaining_of_le data dataOffset (by omega) (by omega)]
  rw [if_neg (by omega),
    RegionGeometry.parse_unsigned_ok data field_size dataOffset (by omega) (by omega)]
  simp only [hu, hreq,
    bytesRemaining_of_le data (dataOffset + fieldWidth field_size) (by omega) (by omega)]
  rw [if_pos (by omega)]

theorem inBoundsOutcome_error (data : List Byte) (dataOffset off1 : Nat) (msg : String)
    (h1 : dataOffset ≤ off1) (h2 : off1 ≤ data.length) :
    inBoundsOutcome data dataOffset (invalidRegionData msg) off1 :=
  ⟨h1, h2, Or.inr ⟨rfl, rfl⟩⟩

/-! ## Bytes behind the decoded part of the buffer -/

theorem readByte_append (d t : List Byte) (i v : Nat) (h : readByte d i = Except.ok v) :
    readByte (d ++ t) i = Except.ok v := by
  have hi := (readByte_ok_lt d i v h).1
  unfold readByte at h ⊢
  rw [List.getElem?_append_left hi]
  exact h

theorem RegionGeometry.parse_unsigned_append (d t : List Byte) (field_size : Int)
    (dataOffset v off1 : Nat)
    (h : RegionGeometry.parse_unsigned d field_size dataOffset = Except.ok (v, off1)) :
    RegionGeometry.parse_unsigned (d ++ t) field_size dataOffset = Except.ok (v, off1) ∧
    off1 ≤ d.length := by
  unfold RegionGeometry.parse_unsigned at h ⊢
  by_cases h32 : field_size = 32
  · simp only [h32, if_true] at h ⊢
    cases h0 : readByte d dataOffset with
    | error f => rw [h0] at h; simp at h
    | ok b0 =>
      rw [h0] at h; simp only at h
      cases h1 : readByte d ((dataOffset + 1) % 4294967296) with
      | error f => rw [h1] at h; simp at h
      | ok b1 =>
        rw [h1] at h; simp only at h
        cases h2 : readByte d ((dataOffset + 2) % 4294967296) with
        | error f => rw [h2] at h; simp at h
        | ok b2 =>
          rw [h2] at h; simp only at h
          cases h3 : readByte d ((dataOffset + 3) % 4294967296) with
          | error f => rw [h3] at h; simp at h
          | ok b3 =>
            rw [h3] at h; simp only [Except.ok.injEq, Prod.mk.injEq] at h
            rw [readByte_append d t _ _ h0, readByte_append d t _ _ h1,
              readByte_append d t _ _ h2, readByte_append d t _ _ h3]
            have hl := (readByte_ok_lt d _ _ h3).1
            refine ⟨by simp only [h.1, h.2], ?_⟩
            omega
  · simp only [h32, if_false] at h ⊢
    cases h0 : readByte d dataOffset with
    | error f => rw [h0] at h; simp at h
    | ok b0 =>
      rw [h0] at h; simp only at h
      cases h1 : readByte d ((dataOffset + 1) % 4294967296) with
      | error f => rw [h1] at h; simp at h
      | ok b1 =>
        rw [h1] at h; simp only [Except.ok.injEq, Prod.mk.injEq] at h
        rw [readByte_append d t _ _ h0, readByte_append d t _ _ h1]
        have hl := (readByte_ok_lt d _ _ h1).1
        refine ⟨by simp only [h.1, h.2], ?_⟩
        omega

theorem RegionGeometry.parse_signed_append (d t : List Byte) (field_size : Int)
    (dataOffset : Nat) (v : Int) (off1 : Nat)
    (h : RegionGeometry.parse_signed d field_size dataOffset = Except.ok (v, off1)) :
    RegionGeometry.parse_signed (d ++ t) field_size dataOffset = Except.ok (v, off1) ∧
    off1 ≤ d.length := by
  unfold RegionGeometry.parse_signed at h ⊢
  by_cases h32 : field_size = 32
  · simp only [h32, if_true] at h ⊢
    cases h0 : readByte d dataOffset with
    | error f => rw [h0] at h; simp at h
    | ok b0 =>
      rw [h0] at h; simp only at h
      cases h1 : readByte d ((dataOffset + 1) % 4294967296) with
      | error f => rw [h1] at h; simp at h
      | ok b1 =>
        rw [h1] at h; simp only at h
        cases h2 : readByte d ((dataOffset + 2) % 4294967296) with
        | error f => rw [h2] at h; simp at h
        | ok b2 =>
          rw [h2] at h; simp only at h
          cases h3 : readByte d ((dataOffset + 3) % 4294967296) with
          | error f => rw [h3] at h; simp at h
          | ok b3 =>
            rw [h3] at h; simp only [Except.ok.injEq, Prod.mk.injEq] at h
            rw [readByte_append d t _ _ h0, readByte_append d t _ _ h1,
              readByte_append d t _ _ h2, readByte_append d t _ _ h3]
            have hl := (readByte_ok_lt d _ _ h3).1
            refine ⟨by simp only [h.1, h.2], ?_⟩
            omega
  · simp only [h32, if_false] at h ⊢
    cases h0 : readByte d dataOffset with
    | error f => rw [h0] at h; simp at h
    | ok b0 =>
      rw [h0] at h; simp only at h
      cases h1 : readByte d ((dataOffset + 1) % 4294967296) with
      | error f => rw [h1] at h; simp at h
      | ok b1 =>
        rw [h1] at h; simp only [Except.ok.injEq, Prod.mk.injEq] at h
        rw [readByte_append d t _ _ h0, readByte_append d t _ _ h1]
        have hl := (readByte_ok_lt d _ _ h1).1
        refine ⟨by simp only [h.1, h.2], ?_⟩
        omega

theorem bytesRemaining_append (d t : List Byte) (dataOffset : Nat)
    (hoff : dataOffset ≤ d.length) (hsz : (d ++ t).length < 18446744073709551616) :
    bytesRemaining d dataOffset ≤ bytesRemaining (d ++ t) dataOffset := by
  rw [List.length_append] at hsz
  rw [bytesRemaining_of_le d dataOffset hoff (by omega),
    bytesRemaining_of_le (d ++ t) dataOffset (by rw [List.length_append]; omega)
      (by rw [List.length_append]; omega), List.length_append]
  omega

theorem RegionGeometry_Point.parse_point_append (g : RegionGeometry_Point) (d t : List Byte)
    (field_size : Int) (dataOffset : Nat) (e : Error) (g1 : RegionGeometry_Point)
    (off1 : Nat) (hoff : dataOffset ≤ d.length)
    (hsz : (d ++ t).length < 18446744073709551616)
    (h : g.parse d field_size dataOffset = Except.ok (e, g1, off1))
    (he : e.isError = false) :
    g.parse (d ++ t) field_size dataOffset = Except.ok (e, g1, off1) ∧ off1 ≤ d.length := by
  have hrem := bytesRemaining_append d t dataOffset hoff hsz
  unfold RegionGeometry_Point.parse at h ⊢
  dsimp only at h ⊢
  split at h
  · simp only [Except.ok.injEq, Prod.mk.injEq] at h
    rw [← h.1] at he; cases he
  · rename_i hc
    rw [if_neg (by omega)]
    cases h0 : RegionGeometry.parse_signed d field_size dataOffset with
    | error f => rw [h0] at h; simp at h
    | ok r0 =>
      obtain ⟨x, o1⟩ := r0
      rw [h0] at h; simp only at h
      rw [(RegionGeometry.parse_signed_append d t _ _ _ _ h0).1]
      simp only
      cases h1 : RegionGeometry.parse_signed d field_size o1 with
      | error f => rw [h1] at h; simp at h
      | ok r1 =>
        obtain ⟨y, o2⟩ := r1
        rw [h1] at h; simp only [Except.ok.injEq, Prod.mk.injEq] at h
        have a1 := RegionGeometry.parse_signed_append d t _ _ _ _ h1
        rw [a1.1]
        simp only [Except.ok.injEq, Prod.mk.injEq]
        exact ⟨h, h.2.2 ▸ a1.2⟩

theorem RegionGeometry_Rectangle.parse_rectangle_append (g : RegionGeometry_Rectangle) (d t : List Byte)
    (field_size : Int) (dataOffset : Nat) (e : Error) (g1 : RegionGeometry_Rectangle)
    (off1 : Nat) (hoff : dataOffset ≤ d.length)
    (hsz : (d ++ t).length < 18446744073709551616)
    (h : g.parse d field_size dataOffset = Except.ok (e, g1, off1))
    (he : e.isError = false) :
    g.parse (d ++ t) field_size dataOffset = Except.ok (e, g1, off1) ∧ off1 ≤ d.length := by
  have hrem := bytesRemaining_append d t dataOffset hoff hsz
  unfold RegionGeometry_Rectangle.parse at h ⊢
  dsimp only at h ⊢
  split at h
  · simp only [Except.ok.injEq, Prod.mk.injEq] at h
    rw [← h.1] at he; cases he
  · rename_i hc
    rw [if_neg (by omega)]
    cases h0 : RegionGeometry.parse_signed d field_size dataOffset with
    | error f => rw [h0] at h; simp at h
    | ok r0 =>
      obtain ⟨x, o1⟩ := r0
      rw [h0] at h; simp only at h
      rw [(RegionGeometry.parse_signed_append d t _ _ _ _ h0).1]
      simp only
      cases h1 : RegionGeometry.parse_signed d field_size o1 with
      | error f => rw [h1] at h; simp at h
      | ok r1 =>
        obtain ⟨y, o2⟩ := r1
        rw [h1] at h; simp only at h
        rw [(RegionGeometry.parse_signed_append d t _ _ _ _ h1).1]
        simp only
        cases h2 : RegionGeometry.parse_unsigned d field_size o2 with
        | error f => rw [h2] at h; simp at h
        | ok r2 =>
          obtain ⟨a, o3⟩ := r2
          rw [h2] at h; simp only at h
          rw [(RegionGeometry.parse_unsigned_append d t _ _ _ _ h2).1]
          simp only
          cases h3 : RegionGeometry.parse_unsigned d field_size o3 with
          | error f => rw [h3] at h; simp at h
          | ok r3 =>
            obtain ⟨b, o4⟩ := r3
            rw [h3] at h; simp only [Except.ok.injEq, Prod.mk.injEq] at h
            have a3 := RegionGeometry.parse_unsigned_append d t _ _ _ _ h3
            rw [a3.1]
            simp only [Except.ok.injEq, Prod.mk.injEq]
            exact ⟨h, h.2.2 ▸ a3.2⟩

theorem RegionGeometry_Ellipse.parse_ellipse_append (g : RegionGeometry_Ellipse) (d t : List Byte)
    (field_size : Int) (dataOffset : Nat) (e : Error) (g1 : RegionGeometry_Ellipse)
    (off1 : Nat) (hoff : dataOffset ≤ d.length)
    (hsz : (d ++ t).length < 18446744073709551616)
    (h : g.parse d field_size dataOffset = Except.ok (e, g1, off1))
    (he : e.isError = false) :
    g.parse (d ++ t) field_size dataOffset = Except.ok (e, g1, off1) ∧ off1 ≤ d.length := by
  have hrem := bytesRemaining_append d t dataOffset hoff hsz
  unfold RegionGeometry_Ellipse.parse at h ⊢
  dsimp only at h ⊢
  split at h
  · simp only [Except.ok.injEq, Prod.mk.injEq] at h
    rw [← h.1] at he; cases he
  · rename_i hc
    rw [if_neg (by omega)]
    cases h0 : RegionGeometry.parse_signed d field_size dataOffset with
    | error f => rw [h0] at h; simp at h
    | ok r0 =>
      obtain ⟨x, o1⟩ := r0
      rw [h0] at h; simp only at h
      rw [(RegionGeometry.parse_signed_append d t _ _ _ _ h0).1]
      simp only
      cases h1 : RegionGeometry.parse_signed d field_size o1 with
      | error f => rw [h1] at h; simp at h
      | ok r1 =>
        obtain ⟨y, o2⟩ := r1
        rw [h1] at h; simp only at h
        rw [(RegionGeometry.parse_signed_append d t _ _ _ _ h1).1]
        simp only
        cases h2 : RegionGeometry.parse_unsigned d field_size o2 with
        | error f => rw [h2] at h; simp at h
        | ok r2 =>
          obtain ⟨a, o3⟩ := r2
          rw [h2] at h; simp only at h
          rw [(RegionGeometry.parse_unsigned_append d t _ _ _ _ h2).1]
          simp only
          cases h3 : RegionGeometry.parse_unsigned d field_size o3 with
          | error f => rw [h3] at h; simp at h
          | ok r3 =>
            obtain ⟨b, o4⟩ := r3
            rw [h3] at h; simp only [Except.ok.injEq, Prod.mk.injEq] at h
            have a3 := RegionGeometry.parse_unsigned_append d t _ _ _ _ h3
            rw [a3.1]
            simp only [Except.ok.injEq, Prod.mk.injEq]
            exact ⟨h, h.2.2 ▸ a3.2⟩

theorem RegionGeometry_Polygon.parse_points_append (d t : List Byte) (field_size : Int)
    (n : Nat) :
    ∀ (points : List Point) (dataOffset : Nat) (points1 : List Point) (off1 : Nat),
      dataOffset ≤ d.length →
      RegionGeometry_Polygon.parse_points d field_size n points dataOffset
        = Except.ok (points1, off1) →
      RegionGeometry_Polygon.parse_points (d ++ t) field_size n points dataOffset
        = Except.ok (points1, off1) ∧ off1 ≤ d.length := by
  induction n with
  | zero =>
    intro points dataOffset points1 off1 hoff h
    simp only [RegionGeometry_Polygon.parse_points, Except.ok.injEq, Prod.mk.injEq] at h ⊢
    exact ⟨h, h.2 ▸ hoff⟩
  | succ n ih =>
    intro points dataOffset points1 off1 hoff h
    rw [RegionGeometry_Polygon.parse_points] at h ⊢
    cases h0 : RegionGeometry.parse_signed d field_size dataOffset with
    | error f => rw [h0] at h; simp at h
    | ok r0 =>
      obtain ⟨x, o1⟩ := r0
      rw [h0] at h; simp only at h
      rw [(RegionGeometry.parse_signed_append d t _ _ _ _ h0).1]
      simp only
      cases h1 : RegionGeometry.parse_signed d field_size o1 with
      | error f => rw [h1] at h; simp at h
      | ok r1 =>
        obtain ⟨y, o2⟩ := r1
        rw [h1] at h; simp only at h
        have a1 := RegionGeometry.parse_signed_append d t _ _ _ _ h1
        rw [a1.1]
        simp only
        exact ih _ _ _ _ a1.2 h

theorem RegionGeometry_Polygon.parse_polygon_append (g : RegionGeometry_Polygon)
    (d t : List Byte) (field_size : Int) (dataOffset : Nat) (e : Error)
    (g1 : RegionGeometry_Polygon) (off1 : Nat) (hoff : dataOffset ≤ d.length)
    (hsz : (d ++ t).length < 18446744073709551616)
    (h : g.parse d field_size dataOffset = Except.ok (e, g1, off1))
    (he : e.isError = false) :
    g.parse (d ++ t) field_size dataOffset = Except.ok (e, g1, off1) ∧ off1 ≤ d.length := by
  have hrem := bytesRemaining_append d t dataOffset hoff hsz
  unfold RegionGeometry_Polygon.parse at h ⊢
  dsimp only at h ⊢
  split at h
  · simp only [Except.ok.injEq, Prod.mk.injEq] at h
    rw [← h.1] at he; cases he
  · rename_i hc
    rw [if_neg (by omega)]
    cases h0 : RegionGeometry.parse_unsigned d field_size dataOffset with
    | error f => rw [h0] at h; simp at h
    | ok r0 =>
      obtain ⟨numPoints, o1⟩ := r0
      rw [h0] at h; simp only at h
      have a0 := RegionGeometry.parse_unsigned_append d t _ _ _ _ h0
      rw [a0.1]
      simp only
      have hrem1 := bytesRemaining_append d t o1 a0.2 hsz
      split at h
      · simp only [Except.ok.injEq, Prod.mk.injEq] at h
        rw [← h.1] at he; cases he
      · rename_i hc2
        rw [if_neg (by omega)]
        cases h1 : RegionGeometry_Polygon.parse_points d field_size numPoints g.points o1 with
        | error f => rw [h1] at h; simp at h
        | ok r1 =>
          obtain ⟨points1, o2⟩ := r1
          rw [h1] at h; simp only [Except.ok.injEq, Prod.mk.injEq] at h
          have a1 := RegionGeometry_Polygon.parse_points_append d t field_size numPoints
            _ _ _ _ a0.2 h1
          rw [a1.1]
          simp only [Except.ok.injEq, Prod.mk.injEq]
          exact ⟨h, h.2.2 ▸ a1.2⟩

theorem RegionGeometry.parse_region_append (region : RegionGeometry) (d t : List Byte)
    (field_size : Int) (dataOffset : Nat) (e : Error) (region1 : RegionGeometry)
    (off1 : Nat) (hoff : dataOffset ≤ d.length)
    (hsz : (d ++ t).length < 18446744073709551616)
    (h : region.parse d field_size dataOffset = Except.ok (e, region1, off1))
    (he : e.isError = false) :
    region.parse (d ++ t) field_size dataOffset = Except.ok (e, region1, off1) ∧
    off1 ≤ d.length := by
  unfold RegionGeometry.parse at h ⊢
  cases region with
  | point g =>
    dsimp only at h ⊢
    cases hp : g.parse d field_size dataOffset with
    | error f => rw [hp] at h; simp at h
    | ok r =>
      obtain ⟨e0, g1, o1⟩ := r
      rw [hp] at h; simp only [Except.ok.injEq, Prod.mk.injEq] at h
      have a := RegionGeometry_Point.parse_point_append g d t field_size dataOffset e0 g1 o1
        hoff hsz hp (h.1 ▸ he)
      rw [a.1]
      simp only [Except.ok.injEq, Prod.mk.injEq]
      exact ⟨h, h.2.2 ▸ a.2⟩
  | rectangle g =>
    dsimp only at h ⊢
    cases hp : g.parse d field_size dataOffset with
    | error f => rw [hp] at h; simp at h
    | ok r =>
      obtain ⟨e0, g1, o1⟩ := r
      rw [hp] at h; simp only [Except.ok.injEq, Prod.mk.injEq] at h
      have a := RegionGeometry_Rectangle.parse_rectangle_append g d t field_size dataOffset
        e0 g1 o1 hoff hsz hp (h.1 ▸ he)
      rw [a.1]
      simp only [Except.ok.injEq, Prod.mk.injEq]
      exact ⟨h, h.2.2 ▸ a.2⟩
  | ellipse g =>
    dsimp only at h ⊢
    cases hp : g.parse d field_size dataOffset with
    | error f => rw [hp] at h; simp at h
    | ok r =>
      obtain ⟨e0, g1, o1⟩ := r
      rw [hp] at h; simp only [Except.ok.injEq, Prod.mk.injEq] at h
      have a := RegionGeometry_Ellipse.parse_ellipse_append g d t field_size dataOffset
        e0 g1 o1 hoff hsz hp (h.1 ▸ he)
      rw [a.1]
      simp only [Except.ok.injEq, Prod.mk.injEq]
      exact ⟨h, h.2.2 ▸ a.2⟩
  | polygon g =>
    dsimp only at h ⊢
    cases hp : g.parse d field_size dataOffset with
    | error f => rw [hp] at h; simp at h
    | ok r =>
      obtain ⟨e0, g1, o1⟩ := r
      rw [hp] at h; simp only [Except.ok.injEq, Prod.mk.injEq] at h
      have a := RegionGeometry_Polygon.parse_polygon_append g d t field_size dataOffset
        e0 g1 o1 hoff hsz hp (h.1 ▸ he)
      rw [a.1]
      simp only [Except.ok.injEq, Prod.mk.injEq]
      exact ⟨h, h.2.2 ▸ a.2⟩

theorem RegionItem.parse_entry_append (self : RegionItem) (d t : List Byte)
    (field_size : Int) (dataOffset : Nat) (self1 : RegionItem) (off1 : Nat)
    (hsz : (d ++ t).length < 18446744073709551616)
    (h : RegionItem.parse_entry self d field_size dataOffset
          = Except.ok (LoopStep.next self1 off1)) :
    RegionItem.parse_entry self (d ++ t) field_size dataOffset
      = Except.ok (LoopStep.next self1 off1) ∧ off1 ≤ d.length := by
  unfold RegionItem.parse_entry at h ⊢
  cases hr : readByte d dataOffset with
  | error f => rw [hr] at h; simp at h
  | ok tag =>
    have hlt := (readByte_ok_lt d _ _ hr).1
    have hcur : (dataOffset + 1) % 4294967296 ≤ d.length := by omega
    rw [hr] at h
    rw [readByte_append d t _ _ hr]
    dsimp only at h ⊢
    cases hm : makeRegion tag with
    | none =>
      rw [hm] at h
      simp only [Except.ok.injEq, LoopStep.next.injEq] at h ⊢
      exact ⟨h, h.2 ▸ hcur⟩
    | some region =>
      rw [hm] at h
      dsimp only at h ⊢
      cases hp : region.parse d field_size ((dataOffset + 1) % 4294967296) with
      | error f => rw [hp] at h; simp at h
      | ok r =>
        obtain ⟨e, region1, o2⟩ := r
        rw [hp] at h
        dsimp only at h
        by_cases he : e.isError = true
        · rw [if_pos he] at h; simp at h
        · rw [if_neg he] at h
          have he0 : e.isError = false := by simpa using he
          have a := RegionGeometry.parse_region_append region d t field_size _ e region1 o2
            hcur hsz hp he0
          rw [a.1]
          dsimp only
          rw [if_neg he]
          simp only [Except.ok.injEq, LoopStep.next.injEq] at h ⊢
          exact ⟨h, h.2 ▸ a.2⟩

theorem RegionItem.parse_loop_append (d t : List Byte) (field_size : Int) (e : Error)
    (item : RegionItem) (he : e.isError = false)
    (hsz : (d ++ t).length < 18446744073709551616) (n : Nat) :
    ∀ (self : RegionItem) (dataOffset : Nat),
      RegionItem.parse_loop d field_size n self dataOffset = Except.ok (e, item) →
      RegionItem.parse_loop (d ++ t) field_size n self dataOffset = Except.ok (e, item) := by
  induction n with
  | zero =>
    intro self dataOffset h
    simp only [RegionItem.parse_loop] at h ⊢
    exact h
  | succ n ih =>
    intro self dataOffset h
    rw [RegionItem.parse_loop] at h ⊢
    cases hstep : RegionItem.parse_entry self d field_size dataOffset with
    | error f => rw [hstep] at h; simp at h
    | ok step =>
      cases step with
      | ret err s =>
        rw [hstep] at h
        simp only [Except.ok.injEq, Prod.mk.injEq] at h
        have := (RegionItem.parse_entry_ret _ _ _ _ _ _ hstep).2
        rw [h.1, he] at this
        cases this
      | next s off =>
        rw [hstep] at h
        simp only at h
        rw [(RegionItem.parse_entry_append self d t field_size dataOffset s off hsz hstep).1]
        exact ih s off h

theorem byteAt_append (d t : List Byte) (i : Nat) (hi : i < d.length) :
    byteAt (d ++ t) i = byteAt d i := by
  unfold byteAt
  rw [List.getD_eq_getElem?_getD, List.getD_eq_getElem?_getD, List.getElem?_append_left hi]

/-! ## Bytes 0 and 1 are read by the header only -/

theorem readByte_congr (d1 d2 : List Byte) (h : sameFromByte2 d1 d2) (i : Nat) (hi : 2 ≤ i) :
    readByte d1 i = readByte d2 i := by
  by_cases hlt : i < d1.length
  · rw [readByte_eq_ok d1 i hlt, readByte_eq_ok d2 i (h.1 ▸ hlt), h.2.2 i hi]
  · rw [readByte_eq_error d1 i (by omega), readByte_eq_error d2 i (by rw [← h.1]; omega)]

theorem unsignedField_congr (d1 d2 : List Byte) (h : sameFromByte2 d1 d2) (field_size : Int)
    (dataOffset : Nat) (hoff : 2 ≤ dataOffset) :
    unsignedField d1 field_size dataOffset = unsignedField d2 field_size dataOffset := by
  unfold unsignedField
  rw [h.2.2 dataOffset hoff, h.2.2 (dataOffset + 1) (by omega),
    h.2.2 (dataOffset + 2) (by omega), h.2.2 (dataOffset + 3) (by omega)]

theorem signedField_congr (d1 d2 : List Byte) (h : sameFromByte2 d1 d2) (field_size : Int)
    (dataOffset : Nat) (hoff : 2 ≤ dataOffset) :
    signedField d1 field_size dataOffset = signedField d2 field_size dataOffset := by
  unfold signedField
  rw [unsignedField_congr d1 d2 h field_size dataOffset hoff]

theorem fieldWidth_pos (field_size : Int) :
    fieldWidth field_size = 2 ∨ fieldWidth field_size = 4 := by
  unfold fieldWidth
  split
  · exact Or.inr rfl
  · exact Or.inl rfl

theorem RegionGeometry.parse_unsigned_congr (d1 d2 : List Byte) (h : sameFromByte2 d1 d2)
    (hlen : d1.length < 4294967296) (field_size : Int) (dataOffset : Nat)
    (hoff : 2 ≤ dataOffset) (hle : dataOffset ≤ d1.length) :
    RegionGeometry.parse_unsigned d1 field_size dataOffset
      = RegionGeometry.parse_unsigned d2 field_size dataOffset := by
  have hl := h.1
  by_cases hin : dataOffset + fieldWidth field_size ≤ d1.length
  · rw [RegionGeometry.parse_unsigned_ok d1 field_size dataOffset hin (by omega),
      RegionGeometry.parse_unsigned_ok d2 field_size dataOffset (by omega) (by omega),
      unsignedField_congr d1 d2 h field_size dataOffset hoff]
  · rw [RegionGeometry.parse_unsigned_fault d1 field_size dataOffset hle (by omega) hlen,
      RegionGeometry.parse_unsigned_fault d2 field_size dataOffset (by omega) (by omega)
        (by omega), hl]

theorem RegionGeometry.parse_signed_congr (d1 d2 : List Byte) (h : sameFromByte2 d1 d2)
    (hlen : d1.length < 4294967296) (field_size : Int) (dataOffset : Nat)
    (hoff : 2 ≤ dataOffset) (hle : dataOffset ≤ d1.length) :
    RegionGeometry.parse_signed d1 field_size dataOffset
      = RegionGeometry.parse_signed d2 field_size dataOffset := by
  have hl := h.1
  by_cases hin : dataOffset + fieldWidth field_size ≤ d1.length
  · rw [RegionGeometry.parse_signed_ok d1 field_size dataOffset hin (by omega),
      RegionGeometry.parse_signed_ok d2 field_size dataOffset (by omega) (by omega),
      signedField_congr d1 d2 h field_size dataOffset hoff]
  · rw [RegionGeometry.parse_signed_fault d1 field_size dataOffset hle (by omega) hlen,
      RegionGeometry.parse_signed_fault d2 field_size dataOffset (by omega) (by omega)
        (by omega), hl]

/-- A field read that returns has moved the cursor forward and not past the end. -/
theorem RegionGeometry.parse_unsigned_bounds (d : List Byte) (hlen : d.length < 4294967296)
    (field_size : Int) (dataOffset v off1 : Nat) (hle : dataOffset ≤ d.length)
    (h : RegionGeometry.parse_unsigned d field_size dataOffset = Except.ok (v, off1)) :
    dataOffset ≤ off1 ∧ off1 ≤ d.length := by
  by_cases hin : dataOffset + fieldWidth field_size ≤ d.length
  · rw [RegionGeometry.parse_unsigned_ok d field_size dataOffset hin (by omega)] at h
    simp only [Except.ok.injEq, Prod.mk.injEq] at h
    omega
  · rw [RegionGeometry.parse_unsigned_fault d field_size dataOffset hle (by omega) hlen] at h
    cases h

theorem RegionGeometry.parse_signed_bounds (d : List Byte) (hlen : d.length < 4294967296)
    (field_size : Int) (dataOffset : Nat) (v : Int) (off1 : Nat)
    (hle : dataOffset ≤ d.length)
    (h : RegionGeometry.parse_signed d field_size dataOffset = Except.ok (v, off1)) :
    dataOffset ≤ off1 ∧ off1 ≤ d.length := by
  by_cases hin : dataOffset + fieldWidth field_size ≤ d.length
  · rw [RegionGeometry.parse_signed_ok d field_size dataOffset hin (by omega)] at h
    simp only [Except.ok.injEq, Prod.mk.injEq] at h
    omega
  · rw [RegionGeometry.parse_signed_fault d field_size dataOffset hle (by omega) hlen] at h
    cases h

theorem bytesRemaining_congr (d1 d2 : List Byte) (h : sameFromByte2 d1 d2) (dataOffset : Nat) :
    bytesRemaining d1 dataOffset = bytesRemaining d2 dataOffset := by
  unfold bytesRemaining
  rw [h.1]

theorem RegionGeometry_Point.parse_point_congr (g : RegionGeometry_Point) (d1 d2 : List Byte)
    (h : sameFromByte2 d1 d2) (hlen : d1.length < 4294967296) (field_size : Int)
    (dataOffset : Nat) (hoff : 2 ≤ dataOffset) (hle : dataOffset ≤ d1.length) :
    g.parse d1 field_size dataOffset = g.parse d2 field_size dataOffset ∧
    ∀ e g1 off1, g.parse d1 field_size dataOffset = Except.ok (e, g1, off1) →
      dataOffset ≤ off1 ∧ off1 ≤ d1.length := by
  unfold RegionGeometry_Point.parse
  dsimp only
  rw [← bytesRemaining_congr d1 d2 h dataOffset]
  split
  · refine ⟨rfl, fun e g1 off1 hr => ?_⟩
    simp only [Except.ok.injEq, Prod.mk.injEq] at hr
    omega
  · rw [← RegionGeometry.parse_signed_congr d1 d2 h hlen field_size dataOffset hoff hle]
    cases h0 : RegionGeometry.parse_signed d1 field_size dataOffset with
    | error f => exact ⟨rfl, fun e g1 off1 hr => by simp at hr⟩
    | ok r0 =>
      obtain ⟨x, o1⟩ := r0
      have b0 := RegionGeometry.parse_signed_bounds d1 hlen _ _ _ _ hle h0
      dsimp only
      rw [← RegionGeometry.parse_signed_congr d1 d2 h hlen field_size o1 (by omega) b0.2]
      cases h1 : RegionGeometry.parse_signed d1 field_size o1 with
      | error f => exact ⟨rfl, fun e g1 off1 hr => by simp at hr⟩
      | ok r1 =>
        obtain ⟨y, o2⟩ := r1
        have b1 := RegionGeometry.parse_signed_bounds d1 hlen _ _ _ _ b0.2 h1
        refine ⟨rfl, fun e g1 off1 hr => ?_⟩
        simp only [Except.ok.injEq, Prod.mk.injEq] at hr
        omega

theorem RegionGeometry_Rectangle.parse_rectangle_congr (g : RegionGeometry_Rectangle) (d1 d2 : List Byte)
    (h : sameFromByte2 d1 d2) (hlen : d1.length < 4294967296) (field_size : Int)
    (dataOffset : Nat) (hoff : 2 ≤ dataOffset) (hle : dataOffset ≤ d1.length) :
    g.parse d1 field_size dataOffset = g.parse d2 field_size dataOffset ∧
    ∀ e g1 off1, g.parse d1 field_size dataOffset = Except.ok (e, g1, off1) →
      dataOffset ≤ off1 ∧ off1 ≤ d1.length := by
  unfold RegionGeometry_Rectangle.parse
  dsimp only
  rw [← bytesRemaining_congr d1 d2 h dataOffset]
  split
  · refine ⟨rfl, fun e g1 off1 hr => ?_⟩
    simp only [Except.ok.injEq, Prod.mk.injEq] at hr
    omega
  · rw [← RegionGeometry.parse_signed_congr d1 d2 h hlen field_size dataOffset hoff hle]
    cases h0 : RegionGeometry.parse_signed d1 field_size dataOffset with
    | error f => exact ⟨rfl, fun e g1 off1 hr => by simp at hr⟩
    | ok r0 =>
      obtain ⟨x, o1⟩ := r0
      have b0 := RegionGeometry.parse_signed_bounds d1 hlen _ _ _ _ hle h0
      dsimp only
      rw [← RegionGeometry.parse_signed_congr d1 d2 h hlen field_size o1 (by omega) b0.2]
      cases h1 : RegionGeometry.parse_signed d1 field_size o1 with
      | error f => exact ⟨rfl, fun e g1 off1 hr => by simp at hr⟩
      | ok r1 =>
        obtain ⟨y, o2⟩ := r1
        have b1 := RegionGeometry.parse_signed_bounds d1 hlen _ _ _ _ b0.2 h1
        dsimp only
        rw [← RegionGeometry.parse_unsigned_congr d1 d2 h hlen field_size o2 (by omega) b1.2]
        cases h2 : RegionGeometry.parse_unsigned d1 field_size o2 with
        | error f => exact ⟨rfl, fun e g1 off1 hr => by simp at hr⟩
        | ok r2 =>
          obtain ⟨a, o3⟩ := r2
          have b2 := RegionGeometry.parse_unsigned_bounds d1 hlen _ _ _ _ b1.2 h2
          dsimp only
          rw [← RegionGeometry.parse_unsigned_congr d1 d2 h hlen field_size o3 (by omega)
            b2.2]
          cases h3 : RegionGeometry.parse_unsigned d1 field_size o3 with
          | error f => exact ⟨rfl, fun e g1 off1 hr => by simp at hr⟩
          | ok r3 =>
            obtain ⟨b, o4⟩ := r3
            have b3 := RegionGeometry.parse_unsigned_bounds d1 hlen _ _ _ _ b2.2 h3
            refine ⟨rfl, fun e g1 off1 hr => ?_⟩
            simp only [Except.ok.injEq, Prod.mk.injEq] at hr
            omega

theorem RegionGeometry_Ellipse.parse_ellipse_congr (g : RegionGeometry_Ellipse) (d1 d2 : List Byte)
    (h : sameFromByte2 d1 d2) (hlen : d1.length < 4294967296) (field_size : Int)
    (dataOffset : Nat) (hoff : 2 ≤ dataOffset) (hle : dataOffset ≤ d1.length) :
    g.parse d1 field_size dataOffset = g.parse d2 field_size dataOffset ∧
    ∀ e g1 off1, g.parse d1 field_size dataOffset = Except.ok (e, g1, off1) →
      dataOffset ≤ off1 ∧ off1 ≤ d1.length := by
  unfold RegionGeometry_Ellipse.parse
  dsimp only
  rw [← bytesRemaining_congr d1 d2 h dataOffset]
  split
  · refine ⟨rfl, fun e g1 off1 hr => ?_⟩
    simp only [Except.ok.injEq, Prod.mk.injEq] at hr
    omega
  · rw [← RegionGeometry.parse_signed_congr d1 d2 h hlen field_size dataOffset hoff hle]
    cases h0 : RegionGeometry.parse_signed d1 field_size dataOffset with
    | error f => exact ⟨rfl, fun e g1 off1 hr => by simp at hr⟩
    | ok r0 =>
      obtain ⟨x, o1⟩ := r0
      have b0 := RegionGeometry.parse_signed_bounds d1 hlen _ _ _ _ hle h0
      dsimp only
      rw [← RegionGeometry.parse_signed_congr d1 d2 h hlen field_size o1 (by omega) b0.2]
      cases h1 : RegionGeometry.parse_signed d1 field_size o1 with
      | error f => exact ⟨rfl, fun e g1 off1 hr => by simp at hr⟩
      | ok r1 =>
        obtain ⟨y, o2⟩ := r1
        have b1 := RegionGeometry.parse_signed_bounds d1 hlen _ _ _ _ b0.2 h1
        dsimp only
        rw [← RegionGeometry.parse_unsigned_congr d1 d2 h hlen field_size o2 (by omega) b1.2]
        cases h2 : RegionGeometry.parse_unsigned d1 field_size o2 with
        | error f => exact ⟨rfl, fun e g1 off1 hr => by simp at hr⟩
        | ok r2 =>
          obtain ⟨a, o3⟩ := r2
          have b2 := RegionGeometry.parse_unsigned_bounds d1 hlen _ _ _ _ b1.2 h2
          dsimp only
          rw [← RegionGeometry.parse_unsigned_congr d1 d2 h hlen field_size o3 (by omega)
            b2.2]
          cases h3 : RegionGeometry.parse_unsigned d1 field_size o3 with
          | error f => exact ⟨rfl, fun e g1 off1 hr => by simp at hr⟩
          | ok r3 =>
            obtain ⟨b, o4⟩ := r3
            have b3 := RegionGeometry.parse_unsigned_bounds d1 hlen _ _ _ _ b2.2 h3
            refine ⟨rfl, fun e g1 off1 hr => ?_⟩
            simp only [Except.ok.injEq, Prod.mk.injEq] at hr
            omega

theorem RegionGeometry_Polygon.parse_points_congr (d1 d2 : List Byte)
    (h : sameFromByte2 d1 d2) (hlen : d1.length < 4294967296) (field_size : Int) (n : Nat) :
    ∀ (points : List Point) (dataOffset : Nat), 2 ≤ dataOffset → dataOffset ≤ d1.length →
      RegionGeometry_Polygon.parse_points d1 field_size n points dataOffset
        = RegionGeometry_Polygon.parse_points d2 field_size n points dataOffset ∧
      ∀ points1 off1,
        RegionGeometry_Polygon.parse_points d1 field_size n points dataOffset
          = Except.ok (points1, off1) →
        dataOffset ≤ off1 ∧ off1 ≤ d1.length := by
  induction n with
  | zero =>
    intro points dataOffset hoff hle
    simp only [RegionGeometry_Polygon.parse_points, Except.ok.injEq, Prod.mk.injEq, true_and]
    intro points1 off1 hr
    omega
  | succ n ih =>
    intro points dataOffset hoff hle
    simp only [RegionGeometry_Polygon.parse_points]
    rw [← RegionGeometry.parse_signed_congr d1 d2 h hlen field_size dataOffset hoff hle]
    cases h0 : RegionGeometry.parse_signed d1 field_size dataOffset with
    | error f => exact ⟨rfl, fun points1 off1 hr => by simp at hr⟩
    | ok r0 =>
      obtain ⟨x, o1⟩ := r0
      have b0 := RegionGeometry.parse_signed_bounds d1 hlen _ _ _ _ hle h0
      dsimp only
      rw [← RegionGeometry.parse_signed_congr d1 d2 h hlen field_size o1 (by omega) b0.2]
      cases h1 : RegionGeometry.parse_signed d1 field_size o1 with
      | error f => exact ⟨rfl, fun points1 off1 hr => by simp at hr⟩
      | ok r1 =>
        obtain ⟨y, o2⟩ := r1
        have b1 := RegionGeometry.parse_signed_bounds d1 hlen _ _ _ _ b0.2 h1
        dsimp only
        have hrec := ih (points ++ [⟨x, y⟩]) o2 (by omega) b1.2
        refine ⟨hrec.1, fun points1 off1 hr => ?_⟩
        have := hrec.2 points1 off1 hr
        omega

theorem RegionGeometry_Polygon.parse_polygon_congr (g : RegionGeometry_Polygon)
    (d1 d2 : List Byte) (h : sameFromByte2 d1 d2) (hlen : d1.length < 4294967296)
    (field_size : Int) (dataOffset : Nat) (hoff : 2 ≤ dataOffset)
    (hle : dataOffset ≤ d1.length) :
    g.parse d1 field_size dataOffset = g.parse d2 field_size dataOffset ∧
    ∀ e g1 off1, g.parse d1 field_size dataOffset = Except.ok (e, g1, off1) →
      dataOffset ≤ off1 ∧ off1 ≤ d1.length := by
  unfold RegionGeometry_Polygon.parse
  dsimp only
  rw [← bytesRemaining_congr d1 d2 h dataOffset]
  split
  · refine ⟨rfl, fun e g1 off1 hr => ?_⟩
    simp only [Except.ok.injEq, Prod.mk.injEq] at hr
    omega
  · rw [← RegionGeometry.parse_unsigned_congr d1 d2 h hlen field_size dataOffset hoff hle]
    cases h0 : RegionGeometry.parse_unsigned d1 field_size dataOffset with
    | error f => exact ⟨rfl, fun e g1 off1 hr => by simp at hr⟩
    | ok r0 =>
      obtain ⟨numPoints, o1⟩ := r0
      have b0 := RegionGeometry.parse_unsigned_bounds d1 hlen _ _ _ _ hle h0
      dsimp only
      rw [← bytesRemaining_congr d1 d2 h o1]
      split
      · refine ⟨rfl, fun e g1 off1 hr => ?_⟩
        simp only [Except.ok.injEq, Prod.mk.injEq] at hr
        omega
      · have hp := RegionGeometry_Polygon.parse_points_congr d1 d2 h hlen field_size numPoints
          g.points o1 (by omega) b0.2
        rw [← hp.1]
        cases h1 : RegionGeometry_Polygon.parse_points d1 field_size numPoints g.points o1 with
        | error f => exact ⟨rfl, fun e g1 off1 hr => by simp at hr⟩
        | ok r1 =>
          obtain ⟨points1, o2⟩ := r1
          have b1 := hp.2 points1 o2 h1
          refine ⟨rfl, fun e g1 off1 hr => ?_⟩
          simp only [Except.ok.injEq, Prod.mk.injEq] at hr
          omega

theorem RegionGeometry.parse_region_congr (region : RegionGeometry) (d1 d2 : List Byte)
    (h : sameFromByte2 d1 d2) (hlen : d1.length < 4294967296) (field_size : Int)
    (dataOffset : Nat) (hoff : 2 ≤ dataOffset) (hle : dataOffset ≤ d1.length) :
    region.parse d1 field_size dataOffset = region.parse d2 field_size dataOffset ∧
    ∀ e region1 off1, region.parse d1 field_size dataOffset = Except.ok (e, region1, off1) →
      dataOffset ≤ off1 ∧ off1 ≤ d1.length := by
  unfold RegionGeometry.parse
  cases region with
  | point g =>
    dsimp only
    have hp := RegionGeometry_Point.parse_point_congr g d1 d2 h hlen field_size dataOffset
      hoff hle
    rw [← hp.1]
    cases h0 : g.parse d1 field_size dataOffset with
    | error f => exact ⟨rfl, fun e r1 off1 hr => by simp at hr⟩
    | ok r =>
      obtain ⟨e0, g1, o1⟩ := r
      refine ⟨rfl, fun e r1 off1 hr => ?_⟩
      simp only [Except.ok.injEq, Prod.mk.injEq] at hr
      have := hp.2 e0 g1 o1 h0
      omega
  | rectangle g =>
    dsimp only
    have hp := RegionGeometry_Rectangle.parse_rectangle_congr g d1 d2 h hlen field_size
      dataOffset hoff hle
    rw [← hp.1]
    cases h0 : g.parse d1 field_size dataOffset with
    | error f => exact ⟨rfl, fun e r1 off1 hr => by simp at hr⟩
    | ok r =>
      obtain ⟨e0, g1, o1⟩ := r
      refine ⟨rfl, fun e r1 off1 hr => ?_⟩
      simp only [Except.ok.injEq, Prod.mk.injEq] at hr
      have := hp.2 e0 g1 o1 h0
      omega
  | ellipse g =>
    dsimp only
    have hp := RegionGeometry_Ellipse.parse_ellipse_congr g d1 d2 h hlen field_size
      dataOffset hoff hle
    rw [← hp.1]
    cases h0 : g.parse d1 field_size dataOffset with
    | error f => exact ⟨rfl, fun e r1 off1 hr => by simp at hr⟩
    | ok r =>
      obtain ⟨e0, g1, o1⟩ := r
      refine ⟨rfl, fun e r1 off1 hr => ?_⟩
      simp only [Except.ok.injEq, Prod.mk.injEq] at hr
      have := hp.2 e0 g1 o1 h0
      omega
  | polygon g =>
    dsimp only
    have hp := RegionGeometry_Polygon.parse_polygon_congr g d1 d2 h hlen field_size
      dataOffset hoff hle
    rw [← hp.1]
    cases h0 : g.parse d1 field_size dataOffset with
    | error f => exact ⟨rfl, fun e r1 off1 hr => by simp at hr⟩
    | ok r =>
      obtain ⟨e0, g1, o1⟩ := r
      refine ⟨rfl, fun e r1 off1 hr => ?_⟩
      simp only [Except.ok.injEq, Prod.mk.injEq] at hr
      have := hp.2 e0 g1 o1 h0
      omega

theorem RegionItem.parse_entry_congr (self : RegionItem) (d1 d2 : List Byte)
    (h : sameFromByte2 d1 d2) (hlen : d1.length < 4294967296) (field_size : Int)
    (dataOffset : Nat) (hoff : 2 ≤ dataOffset) :
    RegionItem.parse_entry self d1 field_size dataOffset
      = RegionItem.parse_entry self d2 field_size dataOffset ∧
    ∀ self1 off1, RegionItem.parse_entry self d1 field_size dataOffset
        = Except.ok (LoopStep.next self1 off1) →
      2 ≤ off1 ∧ off1 ≤ d1.length := by
  unfold RegionItem.parse_entry
  rw [← readByte_congr d1 d2 h dataOffset hoff]
  cases hr : readByte d1 dataOffset with
  | error f => exact ⟨rfl, fun s o hs => by simp at hs⟩
  | ok tag =>
    have hlt := (readByte_ok_lt d1 _ _ hr).1
    have hcur : (dataOffset + 1) % 4294967296 = dataOffset + 1 := by omega
    dsimp only
    rw [hcur]
    cases hm : makeRegion tag with
    | none =>
      dsimp only
      refine ⟨rfl, fun s o hs => ?_⟩
      simp only [Except.ok.injEq, LoopStep.next.injEq] at hs
      omega
    | some region =>
      dsimp only
      have hp := RegionGeometry.parse_region_congr region d1 d2 h hlen field_size
        (dataOffset + 1) (by omega) (by omega)
      rw [← hp.1]
      cases h0 : region.parse d1 field_size (dataOffset + 1) with
      | error f => exact ⟨rfl, fun s o hs => by simp at hs⟩
      | ok r =>
        obtain ⟨e, region1, o2⟩ := r
        have b := hp.2 e region1 o2 h0
        dsimp only
        refine ⟨rfl, fun s o hs => ?_⟩
        split at hs
        · simp at hs
        · simp only [Except.ok.injEq, LoopStep.next.injEq] at hs
          omega

theorem RegionItem.parse_loop_congr (d1 d2 : List Byte) (h : sameFromByte2 d1 d2)
    (hlen : d1.length < 4294967296) (field_size : Int) (n : Nat) :
    ∀ (self : RegionItem) (dataOffset : Nat), 2 ≤ dataOffset →
      RegionItem.parse_loop d1 field_size n self dataOffset
        = RegionItem.parse_loop d2 field_size n self dataOffset := by
  induction n with
  | zero => intro self dataOffset _; rfl
  | succ n ih =>
    intro self dataOffset hoff
    rw [RegionItem.parse_loop, RegionItem.parse_loop]
    have hp := RegionItem.parse_entry_congr self d1 d2 h hlen field_size dataOffset hoff
    rw [← hp.1]
    cases hstep : RegionItem.parse_entry self d1 field_size dataOffset with
    | error f => rfl
    | ok step =>
      cases step with
      | ret err s => rfl
      | next s off => exact ih s off (hp.2 s off hstep).1

/-! ## Field reads whose cursor arithmetic wraps -/

theorem byteAt_append_right (a b : List Byte) (i : Nat) (h : a.length ≤ i) :
    byteAt (a ++ b) i = byteAt b (i - a.length) := by
  unfold byteAt
  rw [List.getD_eq_getElem?_getD, List.getD_eq_getElem?_getD, List.getElem?_append_right h]

theorem wrapBuffer_length : wrapBuffer.length = 4294967302 := by
  rw [wrapBuffer, List.length_append, List.length_append, List.length_replicate]
  rfl

theorem wrapBuffer_low (i : Nat) (h : i < 6) :
    byteAt wrapBuffer i = byteAt [5, 1, 0, 2, 0, 3] i := by
  rw [wrapBuffer]
  exact byteAt_append _ _ i h

theorem wrapBuffer_high (i : Nat) (h : 4294967294 ≤ i) :
    byteAt wrapBuffer i = byteAt [0, 1, 0, 10, 0, 11, 0, 12] (i - 4294967294) := by
  rw [wrapBuffer,
    byteAt_append_right _ _ i (by simp only [List.length_cons, List.length_nil]; omega),
    byteAt_append_right _ _ _ (by
      simp only [List.length_replicate, List.length_cons, List.length_nil]; omega)]
  simp only [List.length_replicate, List.length_cons, List.length_nil]
  rw [show i - (0 + 1 + 1 + 1 + 1 + 1 + 1) - 4294967288 = i - 4294967294 by omega]

/-- A two-byte read, with the index of the second byte and the new cursor as the code
computes them, in 32-bit unsigned arithmetic. -/
theorem RegionGeometry.parse_unsigned_16 (data : List Byte) (field_size : Int)
    (dataOffset : Nat) (hfs : field_size ≠ 32) (h0 : dataOffset < data.length)
    (h1 : (dataOffset + 1) % 4294967296 < data.length) :
    RegionGeometry.parse_unsigned data field_size dataOffset
      = Except.ok (256 * byteAt data dataOffset
                    + byteAt data ((dataOffset + 1) % 4294967296),
                   (dataOffset + 2) % 4294967296) := by
  unfold RegionGeometry.parse_unsigned
  rw [if_neg hfs, readByte_eq_ok data _ h0, readByte_eq_ok data _ h1]
  simp only
  rw [be16_eq _ _ (byteAt_lt _ _)]
  have := byteAt_lt data dataOffset
  have := byteAt_lt data ((dataOffset + 1) % 4294967296)
  rw [Nat.mod_eq_of_lt (by omega)]

theorem RegionGeometry.parse_signed_16 (data : List Byte) (field_size : Int)
    (dataOffset : Nat) (hfs : field_size ≠ 32) (h0 : dataOffset < data.length)
    (h1 : (dataOffset + 1) % 4294967296 < data.length) :
    RegionGeometry.parse_signed data field_size dataOffset
      = Except.ok (((256 * byteAt data dataOffset
                    + byteAt data ((dataOffset + 1) % 4294967296) : Nat) : Int),
                   (dataOffset + 2) % 4294967296) := by
  unfold RegionGeometry.parse_signed
  rw [if_neg hfs, readByte_eq_ok data _ h0, readByte_eq_ok data _ h1]
  simp only
  rw [be16_eq _ _ (byteAt_lt _ _)]
  have := byteAt_lt data dataOffset
  have := byteAt_lt data ((dataOffset + 1) % 4294967296)
  rw [toInt32_of_lt _ (by omega)]

theorem wrapBuffer_bytes :
    byteAt wrapBuffer 0 = 5 ∧ byteAt wrapBuffer 1 = 1 ∧ byteAt wrapBuffer 2 = 0 ∧
    byteAt wrapBuffer 3 = 2 ∧ byteAt wrapBuffer 4 = 0 ∧ byteAt wrapBuffer 5 = 3 ∧
    byteAt wrapBuffer 4294967294 = 0 ∧ byteAt wrapBuffer 4294967295 = 1 ∧
    byteAt wrapBuffer 4294967296 = 0 ∧ byteAt wrapBuffer 4294967297 = 10 ∧
    byteAt wrapBuffer 4294967298 = 0 ∧ byteAt wrapBuffer 4294967299 = 11 := by
  refine ⟨?_, ?_, ?_, ?_, ?_, ?_, ?_, ?_, ?_, ?_, ?_, ?_⟩
  · rw [wrapBuffer_low 0 (by omega)]; rfl
  · rw [wrapBuffer_low 1 (by omega)]; rfl
  · rw [wrapBuffer_low 2 (by omega)]; rfl
  · rw [wrapBuffer_low 3 (by omega)]; rfl
  · rw [wrapBuffer_low 4 (by omega)]; rfl
  · rw [wrapBuffer_low 5 (by omega)]; rfl
  · rw [wrapBuffer_high _ (by omega)]; rfl
  · rw [wrapBuffer_high _ (by omega)]; rfl
  · rw [wrapBuffer_high _ (by omega)]; rfl
  · rw [wrapBuffer_high _ (by omega)]; rfl
  · rw [wrapBuffer_high _ (by omega)]; rfl
  · rw [wrapBuffer_high _ (by omega)]; rfl

theorem wrapBuffer_remaining (dataOffset : Nat) (h : dataOffset ≤ 4294967302) :
    bytesRemaining wrapBuffer dataOffset = 4294967302 - dataOffset := by
  rw [bytesRemaining_of_le wrapBuffer dataOffset (by rw [wrapBuffer_length]; exact h)
    (by rw [wrapBuffer_length]; omega), wrapBuffer_length]

/-- The field reads the counterexamples on `wrapBuffer` are made of. -/
theorem wrapBuffer_reads :
    RegionGeometry.parse_signed wrapBuffer 16 4294967294 = Except.ok (1, 0) ∧
    RegionGeometry.parse_signed wrapBuffer 16 4294967295 = Except.ok (261, 1) ∧
    RegionGeometry.parse_signed wrapBuffer 16 0 = Except.ok (1281, 2) ∧
    RegionGeometry.parse_signed wrapBuffer 16 1 = Except.ok (256, 3) ∧
    RegionGeometry.parse_signed wrapBuffer 16 2 = Except.ok (2, 4) ∧
    RegionGeometry.parse_unsigned wrapBuffer 16 4294967294 = Except.ok (1, 0) ∧
    RegionGeometry.parse_unsigned wrapBuffer 16 2 = Except.ok (2, 4) ∧
    RegionGeometry.parse_unsigned wrapBuffer 16 4 = Except.ok (3, 6) := by
  have hlen := wrapBuffer_length
  obtain ⟨b0, b1, b2, b3, b4, b5, bh0, bh1, -⟩ := wrapBuffer_bytes
  have hne : (16 : Int) ≠ 32 := by decide
  refine ⟨?_, ?_, ?_, ?_, ?_, ?_, ?_, ?_⟩
  · rw [RegionGeometry.parse_signed_16 wrapBuffer 16 4294967294 hne (by rw [hlen]; omega)
      (by rw [hlen]; omega),
      show (4294967294 + 1) % 4294967296 = 4294967295 by decide,
      show (4294967294 + 2) % 4294967296 = 0 by decide, bh0, bh1]
    rfl
  · rw [RegionGeometry.parse_signed_16 wrapBuffer 16 4294967295 hne (by rw [hlen]; omega)
      (by rw [hlen]; omega),
      show (4294967295 + 1) % 4294967296 = 0 by decide,
      show (4294967295 + 2) % 4294967296 = 1 by decide, bh1, b0]
    rfl
  · rw [RegionGeometry.parse_signed_16 wrapBuffer 16 0 hne (by rw [hlen]; omega)
      (by rw [hlen]; omega),
      show (0 + 1) % 4294967296 = 1 by decide,
      show (0 + 2) % 4294967296 = 2 by decide, b0, b1]
    rfl
  · rw [RegionGeometry.parse_signed_16 wrapBuffer 16 1 hne (by rw [hlen]; omega)
      (by rw [hlen]; omega),
      show (1 + 1) % 4294967296 = 2 by decide,
      show (1 + 2) % 4294967296 = 3 by decide, b1, b2]
    rfl
  · rw [RegionGeometry.parse_signed_16 wrapBuffer 16 2 hne (by rw [hlen]; omega)
      (by rw [hlen]; omega),
      show (2 + 1) % 4294967296 = 3 by decide,
      show (2 + 2) % 4294967296 = 4 by decide, b2, b3]
    rfl
  · rw [RegionGeometry.parse_unsigned_16 wrapBuffer 16 4294967294 hne (by rw [hlen]; omega)
      (by rw [hlen]; omega),
      show (4294967294 + 1) % 4294967296 = 4294967295 by decide,
      show (4294967294 + 2) % 4294967296 = 0 by decide, bh0, bh1]
  · rw [RegionGeometry.parse_unsigned_16 wrapBuffer 16 2 hne (by rw [hlen]; omega)
      (by rw [hlen]; omega),
      show (2 + 1) % 4294967296 = 3 by decide,
      show (2 + 2) % 4294967296 = 4 by decide, b2, b3]
  · rw [RegionGeometry.parse_unsigned_16 wrapBuffer 16 4 hne (by rw [hlen]; omega)
      (by rw [hlen]; omega),
      show (4 + 1) % 4294967296 = 5 by decide,
      show (4 + 2) % 4294967296 = 6 by decide, b4, b5]

/-! ## A decoder's result from the results of its reads -/

theorem RegionGeometry_Point.parse_of_reads (g : RegionGeometry_Point) (data : List Byte)
    (field_size : Int) (dataOffset : Nat) (x y : Int) (o1 o2 : Nat)
    (hcheck : ¬ bytesRemaining data dataOffset < toUnsigned (Int.tdiv field_size 8 * 2))
    (h1 : RegionGeometry.parse_signed data field_size dataOffset = Except.ok (x, o1))
    (h2 : RegionGeometry.parse_signed data field_size o1 = Except.ok (y, o2)) :
    g.parse data field_size dataOffset = Except.ok (Error.Ok, ⟨x, y⟩, o2) := by
  unfold RegionGeometry_Point.parse
  simp only [hcheck, if_false, h1, h2]

theorem RegionGeometry_Rectangle.parse_of_four_reads (g : RegionGeometry_Rectangle)
    (data : List Byte) (field_size : Int) (dataOffset : Nat) (x y : Int) (a b : Nat)
    (o1 o2 o3 o4 : Nat)
    (hcheck : ¬ bytesRemaining data dataOffset < toUnsigned (Int.tdiv field_size 8 * 4))
    (h1 : RegionGeometry.parse_signed data field_size dataOffset = Except.ok (x, o1))
    (h2 : RegionGeometry.parse_signed data field_size o1 = Except.ok (y, o2))
    (h3 : RegionGeometry.parse_unsigned data field_size o2 = Except.ok (a, o3))
    (h4 : RegionGeometry.parse_unsigned data field_size o3 = Except.ok (b, o4)) :
    g.parse data field_size dataOffset = Except.ok (Error.Ok, ⟨x, y, a, b⟩, o4) := by
  unfold RegionGeometry_Rectangle.parse
  simp only [hcheck, if_false, h1, h2, h3, h4]

theorem RegionGeometry_Polygon.parse_of_points (g : RegionGeometry_Polygon)
    (data : List Byte) (field_size : Int) (dataOffset numPoints o1 o2 : Nat)
    (points : List Point)
    (hcheck1 : ¬ bytesRemaining data dataOffset < toUnsigned (Int.tdiv field_size 8 * 1))
    (hcount : RegionGeometry.parse_unsigned data field_size dataOffset
                = Except.ok (numPoints, o1))
    (hcheck2 : ¬ bytesRemaining data o1
                < (toUnsigned (Int.tdiv field_size 8) * numPoints * 2) % 4294967296)
    (hpoints : RegionGeometry_Polygon.parse_points data field_size numPoints g.points o1
                = Except.ok (points, o2)) :
    g.parse data field_size dataOffset = Except.ok (Error.Ok, ⟨g.closed, points⟩, o2) := by
  unfold RegionGeometry_Polygon.parse
  simp only [hcheck1, if_false, hcount, hcheck2, hpoints]

theorem RegionGeometry_Polygon.parse_points_one (data : List Byte) (field_size : Int)
    (points : List Point) (dataOffset : Nat) (x y : Int) (o1 o2 : Nat)
    (h1 : RegionGeometry.parse_signed data field_size dataOffset = Except.ok (x, o1))
    (h2 : RegionGeometry.parse_signed data field_size o1 = Except.ok (y, o2)) :
    RegionGeometry_Polygon.parse_points data field_size 1 points dataOffset
      = Except.ok (points ++ [⟨x, y⟩], o2) := by
  simp only [RegionGeometry_Polygon.parse_points, h1, h2]

/-! ## A polygon that fills a buffer of more than 4 GiB -/

theorem byteAt_cons_succ (a : Byte) (l : List Byte) (i : Nat) :
    byteAt (a :: l) (i + 1) = byteAt l i := by
  unfold byteAt
  rw [List.getD_eq_getElem?_getD, List.getD_eq_getElem?_getD, List.getElem?_cons_succ]

theorem wrapRecord_length (version : Byte) : (wrapRecord version).length = 4294967304 := by
  rw [wrapRecord, List.length_cons, wrapRecordTail, List.length_append,
    List.length_replicate]
  rfl

theorem wrapRecord_low (version : Byte) (i : Nat) (h : i < 16) :
    byteAt (wrapRecord version) i
      = byteAt (version :: [1, 0, 0, 0, 0, 0, 0, 0, 0, 1, 3, 31, 255, 255, 255]) i := by
  rw [wrapRecord, wrapRecordTail, ← List.cons_append]
  exact byteAt_append _ _ i h

theorem wrapRecord_same_tail (v w : Byte) (i : Nat) (h : 1 ≤ i) :
    byteAt (wrapRecord v) i = byteAt (wrapRecord w) i := by
  obtain ⟨j, rfl⟩ : ∃ j, i = j + 1 := ⟨i - 1, by omega⟩
  rw [wrapRecord, wrapRecord, byteAt_cons_succ, byteAt_cons_succ]

/-- A four-byte signed read, with the byte indices and the new cursor as the code computes
them, in 32-bit unsigned arithmetic. -/
theorem RegionGeometry.parse_signed_32 (data : List Byte) (dataOffset : Nat)
    (h0 : dataOffset < data.length) (h1 : (dataOffset + 1) % 4294967296 < data.length)
    (h2 : (dataOffset + 2) % 4294967296 < data.length)
    (h3 : (dataOffset + 3) % 4294967296 < data.length) :
    RegionGeometry.parse_signed data 32 dataOffset
      = Except.ok (toInt32 (byteAt data dataOffset * 16777216
                      + byteAt data ((dataOffset + 1) % 4294967296) * 65536
                      + byteAt data ((dataOffset + 2) % 4294967296) * 256
                      + byteAt data ((dataOffset + 3) % 4294967296)),
                   (dataOffset + 4) % 4294967296) := by
  unfold RegionGeometry.parse_signed
  rw [if_pos rfl, readByte_eq_ok data _ h0, readByte_eq_ok data _ h1,
    readByte_eq_ok data _ h2, readByte_eq_ok data _ h3]
  simp only
  rw [be32_eq _ _ _ _ (byteAt_lt _ _) (byteAt_lt _ _) (byteAt_lt _ _)]

theorem RegionGeometry_Polygon.parse_points_ok_below (data : List Byte) (field_size : Int)
    (n : Nat) :
    ∀ (points : List Point) (dataOffset : Nat),
      dataOffset + 2 * n * fieldWidth field_size ≤ data.length →
      dataOffset + 2 * n * fieldWidth field_size < 4294967296 →
      RegionGeometry_Polygon.parse_points data field_size n points dataOffset
        = Except.ok (points ++ pointsAt data field_size n dataOffset,
                     dataOffset + 2 * n * fieldWidth field_size) := by
  induction n with
  | zero =>
    intro points dataOffset _ _
    simp only [RegionGeometry_Polygon.parse_points, pointsAt, List.append_nil, Nat.mul_zero,
      Nat.zero_mul, Nat.add_zero]
  | succ n ih =>
    intro points dataOffset hin hrep
    have hexp : 2 * (n + 1) * fieldWidth field_size
        = 2 * fieldWidth field_size + 2 * n * fieldWidth field_size := by ring
    rw [hexp] at hin hrep ⊢
    rw [RegionGeometry_Polygon.parse_points,
      RegionGeometry.parse_signed_ok data field_size dataOffset (by omega) (by omega)]
    simp only
    rw [RegionGeometry.parse_signed_ok data field_size _ (by omega) (by omega)]
    simp only
    rw [show dataOffset + fieldWidth field_size + fieldWidth field_size
          = dataOffset + 2 * fieldWidth field_size by omega,
      ih _ _ (by omega) (by omega)]
    simp only [pointsAt, List.append_assoc, List.singleton_append, Nat.add_assoc]

/-- The loop over the points run for `a + b` iterations is the loop run for `a`
iterations followed by the loop run for `b` on what the first left. -/
theorem RegionGeometry_Polygon.parse_points_add (data : List Byte) (field_size : Int)
    (a b : Nat) :
    ∀ (points : List Point) (dataOffset : Nat) (points1 : List Point) (off1 : Nat),
      RegionGeometry_Polygon.parse_points data field_size a points dataOffset
        = Except.ok (points1, off1) →
      RegionGeometry_Polygon.parse_points data field_size (a + b) points dataOffset
        = RegionGeometry_Polygon.parse_points data field_size b points1 off1 := by
  induction a with
  | zero =>
    intro points dataOffset points1 off1 h
    rw [RegionGeometry_Polygon.parse_points] at h
    simp only [Except.ok.injEq, Prod.mk.injEq] at h
    rw [Nat.zero_add, h.1, h.2]
  | succ a ih =>
    intro points dataOffset points1 off1 h
    rw [Nat.succ_add, RegionGeometry_Polygon.parse_points]
    rw [RegionGeometry_Polygon.parse_points] at h
    cases h1 : RegionGeometry.parse_signed data field_size dataOffset with
    | error f => rw [h1] at h; simp at h
    | ok r1 =>
      obtain ⟨x, o1⟩ := r1
      rw [h1] at h
      simp only at h ⊢
      cases h2 : RegionGeometry.parse_signed data field_size o1 with
      | error f => rw [h2] at h; simp at h
      | ok r2 =>
        obtain ⟨y, o2⟩ := r2
        rw [h2] at h
        simp only at h ⊢
        exact ih _ _ _ _ h

theorem RegionGeometry_Polygon.parse_points_two (data : List Byte) (field_size : Int)
    (points : List Point) (dataOffset : Nat) (x1 y1 x2 y2 : Int) (o1 o2 o3 o4 : Nat)
    (h1 : RegionGeometry.parse_signed data field_size dataOffset = Except.ok (x1, o1))
    (h2 : RegionGeometry.parse_signed data field_size o1 = Except.ok (y1, o2))
    (h3 : RegionGeometry.parse_signed data field_size o2 = Except.ok (x2, o3))
    (h4 : RegionGeometry.parse_signed data field_size o3 = Except.ok (y2, o4)) :
    RegionGeometry_Polygon.parse_points data field_size 2 points dataOffset
      = Except.ok (points ++ [⟨x1, y1⟩] ++ [⟨x2, y2⟩], o4) := by
  simp only [RegionGeometry_Polygon.parse_points, h1, h2, h3, h4]

theorem RegionGeometry.parse_of_polygon (g g1 : RegionGeometry_Polygon) (data : List Byte)
    (field_size : Int) (dataOffset : Nat) (e : Error) (off1 : Nat)
    (h : g.parse data field_size dataOffset = Except.ok (e, g1, off1)) :
    (RegionGeometry.polygon g).parse data field_size dataOffset
      = Except.ok (e, RegionGeometry.polygon g1, off1) := by
  simp only [RegionGeometry.parse, h]

theorem RegionItem.parse_loop_one (data : List Byte) (field_size : Int)
    (self self1 : RegionItem) (dataOffset off1 : Nat)
    (h : RegionItem.parse_entry self data field_size dataOffset
          = Except.ok (LoopStep.next self1 off1)) :
    RegionItem.parse_loop data field_size 1 self dataOffset = Except.ok (Error.Ok, self1) := by
  simp only [RegionItem.parse_loop, h]

/-- The points of a polygon with `2^29 - 1` points at field width 32 whose count field is
at cursor 12 of a buffer of `2^32 + 8` bytes: the byte count `2^32 - 8` passes the second
check, the cursor wraps to 0 behind point `2^29 - 3`, and the last point is read from
bytes 0 to 7 of the buffer. -/
theorem RegionGeometry_Polygon.parse_points_wrap (data : List Byte)
    (hlen : data.length = 4294967304) :
    ∃ points,
      RegionGeometry_Polygon.parse_points data 32 536870911 [] 16
        = Except.ok (points ++ [⟨signedField data 32 0, signedField data 32 4⟩], 8) ∧
      points.length = 536870910 := by
  have hw : fieldWidth 32 = 4 := rfl
  have hfirst := RegionGeometry_Polygon.parse_points_ok_below data 32 536870909 [] 16
    (by rw [hw, hlen]; omega) (by rw [hw]; omega)
  rw [hw, show 16 + 2 * 536870909 * 4 = 4294967288 by norm_num] at hfirst
  have r1 : RegionGeometry.parse_signed data 32 4294967288
      = Except.ok (signedField data 32 4294967288, 4294967292) := by
    rw [RegionGeometry.parse_signed_ok data 32 4294967288 (by rw [hw, hlen]; omega)
      (by rw [hw]; omega), hw]
  have r2 := RegionGeometry.parse_signed_32 data 4294967292 (by rw [hlen]; omega)
    (by rw [hlen]; omega) (by rw [hlen]; omega) (by rw [hlen]; omega)
  rw [show (4294967292 + 4) % 4294967296 = 0 by norm_num] at r2
  have r3 : RegionGeometry.parse_signed data 32 0
      = Except.ok (signedField data 32 0, 4) := by
    rw [RegionGeometry.parse_signed_ok data 32 0 (by rw [hw, hlen]; omega)
      (by rw [hw]; omega), hw]
  have r4 : RegionGeometry.parse_signed data 32 4
      = Except.ok (signedField data 32 4, 8) := by
    rw [RegionGeometry.parse_signed_ok data 32 4 (by rw [hw, hlen]; omega)
      (by rw [hw]; omega), hw]
  obtain ⟨y1, hy1⟩ : ∃ y, RegionGeometry.parse_signed data 32 4294967292
      = Except.ok (y, 0) := ⟨_, r2⟩
  refine ⟨[] ++ pointsAt data 32 536870909 16 ++ [⟨signedField data 32 4294967288, y1⟩],
    ?_, ?_⟩
  · rw [show (536870911 : Nat) = 536870909 + 2 by norm_num,
      RegionGeometry_Polygon.parse_points_add data 32 536870909 2 [] 16 _ _ hfirst]
    exact RegionGeometry_Polygon.parse_points_two data 32 _ 4294967288 _ _ _ _ _ _ _ _
      r1 hy1 r3 r4
  · rw [List.length_append, List.length_append, pointsAt_length, List.length_nil,
      List.length_singleton]

/-- The record of `RegionItem::parse` for a buffer of `2^32 + 8` bytes that announces
32-bit fields and one closed polygon with `2^29 - 1` points: the call returns
`Error::Ok`, and the last point of the polygon is read from bytes 0 to 7, the version
byte included. -/
theorem RegionItem.parse_wrapped_polygon (self : RegionItem) (data : List Byte)
    (hlen : data.length = 4294967304) (hflags : byteAt data 1 % 2 = 1)
    (hcount : byteAt data 10 = 1) (htag : byteAt data 11 = 3)
    (h12 : byteAt data 12 = 31) (h13 : byteAt data 13 = 255) (h14 : byteAt data 14 = 255)
    (h15 : byteAt data 15 = 255) :
    ∃ points item,
      RegionItem.parse self data = Except.ok (Error.Ok, item) ∧
      item.mRegions = self.mRegions ++
        [RegionGeometry.polygon
          ⟨true, points ++ [⟨signedField data 32 0, signedField data 32 4⟩]⟩] ∧
      points.length = 536870910 := by
  have hw : fieldWidth 32 = 4 := rfl
  obtain ⟨points, hpoints, hlength⟩ := RegionGeometry_Polygon.parse_points_wrap data hlen
  have hfs : headerFieldSize data = 32 := by unfold headerFieldSize; rw [if_pos hflags]
  have hoff : regionCountOffset data = 10 := by unfold regionCountOffset; rw [if_pos hflags]
  have hn : RegionGeometry.parse_unsigned data 32 12 = Except.ok (536870911, 16) := by
    rw [RegionGeometry.parse_unsigned_ok data 32 12 (by rw [hw, hlen]; omega)
      (by rw [hw]; omega), hw]
    unfold unsignedField
    rw [if_pos rfl, h12, h13, h14, h15]
  have hb1 : toUnsigned (Int.tdiv 32 8 * 1) = 4 := rfl
  have hu : toUnsigned (Int.tdiv 32 8) = 4 := rfl
  have hb2 : (toUnsigned (Int.tdiv 32 8) * 536870911 * 2) % 4294967296 = 4294967288 := by
    rw [hu]
  have hpoly : RegionGeometry_Polygon.parse ⟨true, []⟩ data 32 12
      = Except.ok (Error.Ok,
          ⟨true, points ++ [⟨signedField data 32 0, signedField data 32 4⟩]⟩, 8) :=
    RegionGeometry_Polygon.parse_of_points ⟨true, []⟩ data 32 12 536870911 16 8 _
      (by rw [hb1, bytesRemaining_of_le data 12 (by omega) (by omega), hlen]; omega) hn
      (by rw [hb2, bytesRemaining_of_le data 16 (by omega) (by omega), hlen]; omega)
      hpoints
  have hentry := RegionItem.parse_entry_of_ok (self.withReferenceSize data) data 32 11 3
    (RegionGeometry.polygon ⟨true, []⟩) _ Error.Ok 8
    (by rw [readByte_eq_ok data 11 (by omega), htag]) rfl
    (RegionGeometry.parse_of_polygon _ _ data 32 _ _ _ hpoly) rfl
  have hhead := RegionItem.parse_header self data (by omega) (fun _ => by omega)
  rw [hfs, hoff, hcount, show (10 : Nat) + 1 = 11 from rfl,
    RegionItem.parse_loop_one data 32 _ _ _ _ hentry] at hhead
  refine ⟨points, _, hhead, ?_, hlength⟩
  show (self.withReferenceSize data).mRegions ++ _ = _
  unfold RegionItem.withReferenceSize
  rw [if_pos hflags]

theorem wrapRecord_last_point :
    signedField (wrapRecord 0) 32 0 = 65536 ∧ signedField (wrapRecord 0) 32 4 = 0 ∧
    signedField (wrapRecord 1) 32 0 = 16842752 ∧ signedField (wrapRecord 1) 32 4 = 0 := by
  have low := wrapRecord_low
  refine ⟨?_, ?_, ?_, ?_⟩
  · unfold signedField unsignedField
    rw [if_pos rfl, if_pos rfl, low 0 0 (by omega), low 0 (0 + 1) (by omega),
      low 0 (0 + 2) (by omega), low 0 (0 + 3) (by omega)]
    rfl
  · unfold signedField unsignedField
    rw [if_pos rfl, if_pos rfl, low 0 4 (by omega), low 0 (4 + 1) (by omega),
      low 0 (4 + 2) (by omega), low 0 (4 + 3) (by omega)]
    rfl
  · unfold signedField unsignedField
    rw [if_pos rfl, if_pos rfl, low 1 0 (by omega), low 1 (0 + 1) (by omega),
      low 1 (0 + 2) (by omega), low 1 (0 + 3) (by omega)]
    rfl
  · unfold signedField unsignedField
    rw [if_pos rfl, if_pos rfl, low 1 4 (by omega), low 1 (4 + 1) (by omega),
      low 1 (4 + 2) (by omega), low 1 (4 + 3) (by omega)]
    rfl

theorem wrapRecord_decodes (version : Byte) :
    ∃ points item,
      RegionItem.parse RegionItem.fresh (wrapRecord version) = Except.ok (Error.Ok, item) ∧
      item.mRegions =
        [RegionGeometry.polygon
          ⟨true, points ++ [⟨signedField (wrapRecord version) 32 0,
                             signedField (wrapRecord version) 32 4⟩]⟩] ∧
      points.length = 536870910 := by
  have low := wrapRecord_low version
  obtain ⟨points, item, h, hr, hl⟩ := RegionItem.parse_wrapped_polygon RegionItem.fresh
    (wrapRecord version) (wrapRecord_length version)
    (by rw [low 1 (by omega)]; rfl) (by rw [low 10 (by omega)]; rfl)
    (by rw [low 11 (by omega)]; rfl) (by rw [low 12 (by omega)]; rfl)
    (by rw [low 13 (by omega)]; rfl) (by rw [low 14 (by omega)]; rfl)
    (by rw [low 15 (by omega)]; rfl)
  exact ⟨points, item, h, by rw [hr]; rfl, hl⟩

/-! ## Claims -/

/-- C1 (the code reads past the end): the twelve-byte record of the spec's first example
with `region_count` raised to 2 holds one Point and then ends; `RegionItem::parse`
decodes the Point and evaluates `data[12]` for the second tag, an index equal to the
buffer length.  The eight-byte record `00 00 00 00 00 00 02 09` makes it evaluate
`data[8]` after skipping the unrecognised tag 9.  No error is returned in either case. -/
theorem RegionItem.parse_reads_past_end :
    ([0, 0, 1, 0, 0, 200, 2, 0, 0, 10, 0, 20] : List Byte).length = 12 ∧
    RegionItem.parse RegionItem.fresh [0, 0, 1, 0, 0, 200, 2, 0, 0, 10, 0, 20]
      = Except.error (Fault.outOfBoundsRead 12) ∧
    ([0, 0, 0, 0, 0, 0, 2, 9] : List Byte).length = 8 ∧
    RegionItem.parse RegionItem.fresh [0, 0, 0, 0, 0, 0, 2, 9]
      = Except.error (Fault.outOfBoundsRead 8) :=
  ⟨rfl, rfl, rfl, rfl⟩

/-- C2 (the byte count wraps at field width 32): the buffer holds the count field
`0x20000000` and one point.  Eight bytes remain after the count field, fewer than the
exact product `0x20000000 × 2 × 4 = 2^32`, but the code computes the product in 32-bit
unsigned arithmetic, gets 0, passes the length check, reads the point at bytes 4 to 11
and then evaluates `data[12]`; it does not return `InvalidRegionData`.  The same payload
behind a 32-bit header with one closed polygon makes `RegionItem::parse` evaluate
`data[24]` in a 24-byte buffer. -/
theorem RegionGeometry_Polygon.parse_count_wraps :
    RegionGeometry.parse_unsigned [32, 0, 0, 0, 0, 0, 0, 1, 0, 0, 0, 2] 32 0
      = Except.ok (536870912, 4) ∧
    ([32, 0, 0, 0, 0, 0, 0, 1, 0, 0, 0, 2] : List Byte).length - 4
      < 536870912 * 2 * fieldBytes 32 ∧
    (toUnsigned (Int.tdiv 32 8) * 536870912 * 2) % 4294967296 = 0 ∧
    RegionGeometry_Polygon.parse_points [32, 0, 0, 0, 0, 0, 0, 1, 0, 0, 0, 2] 32 1 [] 4
      = Except.ok ([⟨1, 2⟩], 12) ∧
    RegionGeometry_Polygon.parse ⟨true, []⟩ [32, 0, 0, 0, 0, 0, 0, 1, 0, 0, 0, 2] 32 0
      = Except.error (Fault.outOfBoundsRead 12) ∧
    RegionItem.parse RegionItem.fresh
        [0, 1, 0, 0, 1, 0, 0, 0, 0, 200, 1, 3, 32, 0, 0, 0, 0, 0, 0, 1, 0, 0, 0, 2]
      = Except.error (Fault.outOfBoundsRead 24) :=
  ⟨rfl, by decide, rfl, rfl, rfl, rfl⟩

/-- C3 (16-bit fields are not sign-extended): at field width 16 the field `FF FE`, whose
unsigned value 65534 has the top bit set, is returned by `parse_signed` as 65534 and not
as the two's-complement value `65534 - 65536 = -2`; at field width 32 the field
`FF FF FF FE` is returned as `-2`. -/
theorem RegionGeometry.parse_signed_16_not_extended :
    RegionGeometry.parse_signed [255, 254] 16 0 = Except.ok (65534, 2) ∧
    ((65534 : Int) ≠ 65534 - 65536) ∧
    RegionGeometry.parse_signed [255, 255, 255, 254] 32 0 = Except.ok (-2, 4) :=
  ⟨rfl, by decide, rfl⟩

/-- C4: for every buffer shorter than 8 bytes, whatever it holds, `RegionItem::parse`
returns an error with sub-error `heif_suberror_Invalid_region_data` ("Less than 8 bytes
of data") and leaves the record, hence its regions, as it was. -/
theorem RegionItem.parse_short_buffer (self : RegionItem) (data : List Byte)
    (h : data.length < 8) :
    ∃ e, RegionItem.parse self data = Except.ok (e, self) ∧ e.isError = true ∧
      e.error_code = heif_error_code.heif_error_Invalid_input ∧
      e.sub_error_code = heif_suberror_code.heif_suberror_Invalid_region_data ∧
      e.message = "Less than 8 bytes of data" := by
  exact ⟨invalidRegionData "Less than 8 bytes of data",
    RegionItem.parse_of_length_lt_8 self data h, rfl, rfl, rfl, rfl⟩

theorem RegionItem.parse_short_buffer_witness :
    ([0, 0, 1, 0, 0, 200, 1] : List Byte).length < 8 ∧
    ∃ e, RegionItem.parse RegionItem.fresh [0, 0, 1, 0, 0, 200, 1]
        = Except.ok (e, RegionItem.fresh) ∧ e.isError = true ∧
      e.error_code = heif_error_code.heif_error_Invalid_input ∧
      e.sub_error_code = heif_suberror_code.heif_suberror_Invalid_region_data ∧
      e.message = "Less than 8 bytes of data" :=
  ⟨by decide,
   RegionItem.parse_short_buffer RegionItem.fresh [0, 0, 1, 0, 0, 200, 1] (by decide)⟩

/-- C5: for every buffer of length 8 to 11 whose flags byte (byte 1) has bit 0 set,
`RegionItem::parse` returns an error with sub-error `heif_suberror_Invalid_region_data`
("Region data incomplete") and leaves the record, hence its regions, as it was. -/
theorem RegionItem.parse_short_buffer32 (self : RegionItem) (data : List Byte)
    (h8 : 8 ≤ data.length) (h12 : data.length < 12) (hflag : byteAt data 1 % 2 = 1) :
    ∃ e, RegionItem.parse self data = Except.ok (e, self) ∧ e.isError = true ∧
      e.error_code = heif_error_code.heif_error_Invalid_input ∧
      e.sub_error_code = heif_suberror_code.heif_suberror_Invalid_region_data ∧
      e.message = "Region data incomplete" := by
  exact ⟨invalidRegionData "Region data incomplete",
    RegionItem.parse_of_length_lt_12 self data h8 h12 hflag, rfl, rfl, rfl, rfl⟩

theorem RegionItem.parse_short_buffer32_witness :
    8 ≤ ([0, 1, 0, 0, 1, 0, 0, 0, 0, 200, 0] : List Byte).length ∧
    ([0, 1, 0, 0, 1, 0, 0, 0, 0, 200, 0] : List Byte).length < 12 ∧
    byteAt [0, 1, 0, 0, 1, 0, 0, 0, 0, 200, 0] 1 % 2 = 1 ∧
    ∃ e, RegionItem.parse RegionItem.fresh [0, 1, 0, 0, 1, 0, 0, 0, 0, 200, 0]
        = Except.ok (e, RegionItem.fresh) ∧ e.isError = true ∧
      e.error_code = heif_error_code.heif_error_Invalid_input ∧
      e.sub_error_code = heif_suberror_code.heif_suberror_Invalid_region_data ∧
      e.message = "Region data incomplete" :=
  ⟨by decide, by decide, by decide,
   RegionItem.parse_short_buffer32 RegionItem.fresh [0, 1, 0, 0, 1, 0, 0, 0, 0, 200, 0]
     (by decide) (by decide) (by decide)⟩

/-- C6: for every buffer that passes the header length checks (length at least 8, and at
least 12 when bit 0 of the flags byte is set), `RegionItem::parse` enters its loop with
the reference size set from the header bytes, and whenever it returns, with `Error::Ok`
or with an error, the reference size of the record is the big-endian value of those
bytes: bytes 2,3 and 4,5 when bit 0 is clear; bytes 2..5 and 6..9, as unsigned 32-bit
values, when bit 0 is set (also when byte 2 or byte 6 is `≥ 0x80`). -/
theorem RegionItem.parse_reference_size (self : RegionItem) (data : List Byte)
    (h8 : 8 ≤ data.length) (h12 : byteAt data 1 % 2 = 1 → 12 ≤ data.length) :
    RegionItem.parse self data =
      RegionItem.parse_loop data (headerFieldSize data) (byteAt data (regionCountOffset data))
        (self.withReferenceSize data) (regionCountOffset data + 1) ∧
    ∀ (e : Error) (item : RegionItem), RegionItem.parse self data = Except.ok (e, item) →
      (byteAt data 1 % 2 = 0 →
        item.reference_width = 256 * byteAt data 2 + byteAt data 3 ∧
        item.reference_height = 256 * byteAt data 4 + byteAt data 5) ∧
      (byteAt data 1 % 2 = 1 →
        item.reference_width = byteAt data 2 * 2 ^ 24 + byteAt data 3 * 2 ^ 16
                                + byteAt data 4 * 2 ^ 8 + byteAt data 5 ∧
        item.reference_height = byteAt data 6 * 2 ^ 24 + byteAt data 7 * 2 ^ 16
                                + byteAt data 8 * 2 ^ 8 + byteAt data 9 ∧
        item.reference_width < 2 ^ 32 ∧ item.reference_height < 2 ^ 32) := by
  refine ⟨RegionItem.parse_header self data h8 h12, ?_⟩
  intro e item hret
  constructor
  · intro hflag
    rw [RegionItem.parse_header16 self data h8 hflag] at hret
    exact RegionItem.parse_regions_dims _ _ _ _ _ _ hret
  · intro hflag
    rw [RegionItem.parse_header32 self data (h12 hflag) hflag] at hret
    have h := RegionItem.parse_regions_dims _ _ _ _ _ _ hret
    have := byteAt_lt data 2; have := byteAt_lt data 3
    have := byteAt_lt data 4; have := byteAt_lt data 5
    have := byteAt_lt data 6; have := byteAt_lt data 7
    have := byteAt_lt data 8; have := byteAt_lt data 9
    simp only at h
    refine ⟨by omega, by omega, by omega, by omega⟩

theorem RegionItem.parse_reference_size_witness :
    8 ≤ ([0, 1, 128, 0, 0, 1, 255, 0, 0, 0, 1, 9] : List Byte).length ∧
    RegionItem.parse RegionItem.fresh [0, 1, 128, 0, 0, 1, 255, 0, 0, 0, 1, 9]
      = Except.ok (Error.Ok, ⟨2147483649, 4278190080, []⟩) ∧
    (byteAt [0, 1, 128, 0, 0, 1, 255, 0, 0, 0, 1, 9] 1 % 2 = 1 →
      (2147483649 : Nat) = byteAt [0, 1, 128, 0, 0, 1, 255, 0, 0, 0, 1, 9] 2 * 2 ^ 24
          + byteAt [0, 1, 128, 0, 0, 1, 255, 0, 0, 0, 1, 9] 3 * 2 ^ 16
          + byteAt [0, 1, 128, 0, 0, 1, 255, 0, 0, 0, 1, 9] 4 * 2 ^ 8
          + byteAt [0, 1, 128, 0, 0, 1, 255, 0, 0, 0, 1, 9] 5 ∧
      (4278190080 : Nat) = byteAt [0, 1, 128, 0, 0, 1, 255, 0, 0, 0, 1, 9] 6 * 2 ^ 24
          + byteAt [0, 1, 128, 0, 0, 1, 255, 0, 0, 0, 1, 9] 7 * 2 ^ 16
          + byteAt [0, 1, 128, 0, 0, 1, 255, 0, 0, 0, 1, 9] 8 * 2 ^ 8
          + byteAt [0, 1, 128, 0, 0, 1, 255, 0, 0, 0, 1, 9] 9 ∧
      (2147483649 : Nat) < 2 ^ 32 ∧ (4278190080 : Nat) < 2 ^ 32) :=
  ⟨by decide, rfl,
   ((RegionItem.parse_reference_size RegionItem.fresh
      [0, 1, 128, 0, 0, 1, 255, 0, 0, 0, 1, 9] (by decide) (fun _ => by decide)).2
      Error.Ok ⟨2147483649, 4278190080, []⟩ rfl).2⟩

/-- C7: whenever an iteration of the loop of `RegionItem::parse` reads a tag in
{0, 1, 2, 3, 6} and its payload decodes (the iteration falls through to the next one),
exactly one geometry is appended to the regions and its variant is the one of the
dispatch table: Point for 0, Rectangle for 1, Ellipse for 2, Polygon with
`closed = true` for 3, Polygon with `closed = false` for 6, whatever the payload bytes. -/
theorem RegionItem.parse_entry_dispatch (self : RegionItem) (data : List Byte)
    (field_size : Int) (dataOffset tag : Nat) (self1 : RegionItem) (off1 : Nat)
    (hread : readByte data dataOffset = Except.ok tag)
    (htag : tag = 0 ∨ tag = 1 ∨ tag = 2 ∨ tag = 3 ∨ tag = 6)
    (hok : RegionItem.parse_entry self data field_size dataOffset
            = Except.ok (LoopStep.next self1 off1)) :
    ∃ g, self1.mRegions = self.mRegions ++ [g] ∧
      (tag = 0 → ∃ p, g = RegionGeometry.point p) ∧
      (tag = 1 → ∃ r, g = RegionGeometry.rectangle r) ∧
      (tag = 2 → ∃ el, g = RegionGeometry.ellipse el) ∧
      (tag = 3 → ∃ pts, g = RegionGeometry.polygon ⟨true, pts⟩) ∧
      (tag = 6 → ∃ pts, g = RegionGeometry.polygon ⟨false, pts⟩) := by
  unfold RegionItem.parse_entry at hok
  rw [hread] at hok
  dsimp only at hok
  split at hok
  · rename_i hnone
    rcases htag with h | h | h | h | h <;> subst h <;> simp [makeRegion] at hnone
  · rename_i region hsome
    split at hok
    · simp at hok
    · rename_i e region1 off2 hparse
      split at hok
      · simp at hok
      · simp only [Except.ok.injEq, LoopStep.next.injEq] at hok
        have hk := RegionGeometry.parse_kind _ _ _ _ _ _ _ hparse
        refine ⟨region1, by rw [← hok.1], ?_, ?_, ?_, ?_, ?_⟩
        · intro h; subst h
          simp only [makeRegion, if_true, Option.some.injEq] at hsome
          exact hk.1 _ hsome.symm
        · intro h; subst h
          simp [makeRegion] at hsome
          exact hk.2.1 _ hsome.symm
        · intro h; subst h
          simp [makeRegion] at hsome
          exact hk.2.2.1 _ hsome.symm
        · intro h; subst h
          simp [makeRegion] at hsome
          exact hk.2.2.2 _ hsome.symm
        · intro h; subst h
          simp [makeRegion] at hsome
          exact hk.2.2.2 _ hsome.symm

theorem RegionItem.parse_entry_dispatch_witness :
    readByte [3, 0, 1, 0, 5, 0, 7] 0 = Except.ok 3 ∧
    RegionItem.parse_entry RegionItem.fresh [3, 0, 1, 0, 5, 0, 7] 16 0
      = Except.ok (LoopStep.next ⟨0, 0, [RegionGeometry.polygon ⟨true, [⟨5, 7⟩]⟩]⟩ 7) ∧
    ∃ g, [RegionGeometry.polygon ⟨true, [⟨5, 7⟩]⟩] = RegionItem.fresh.mRegions ++ [g] ∧
      ((3 : Nat) = 0 → ∃ p, g = RegionGeometry.point p) ∧
      ((3 : Nat) = 1 → ∃ r, g = RegionGeometry.rectangle r) ∧
      ((3 : Nat) = 2 → ∃ el, g = RegionGeometry.ellipse el) ∧
      ((3 : Nat) = 3 → ∃ pts, g = RegionGeometry.polygon ⟨true, pts⟩) ∧
      ((3 : Nat) = 6 → ∃ pts, g = RegionGeometry.polygon ⟨false, pts⟩) :=
  ⟨rfl, rfl,
   RegionItem.parse_entry_dispatch RegionItem.fresh [3, 0, 1, 0, 5, 0, 7] 16 0 3
     ⟨0, 0, [RegionGeometry.polygon ⟨true, [⟨5, 7⟩]⟩]⟩ 7 rfl (by decide) rfl⟩

/-- C9: at field width 16 or 32 and a cursor not beyond the end of the buffer: with fewer
than `2 × (field_size/8)` bytes remaining the Point decoder returns the
`InvalidRegionData` error; with fewer than `4 × (field_size/8)` the Rectangle and the
Ellipse decoder do; with fewer than `field_size/8` the Polygon decoder does; object and
cursor are returned unchanged.  When the loop body of `RegionItem::parse` has read a
recognised tag just before such a cursor it leaves through `return error` with the
record untouched, and `RegionItem::parse` itself returns that error with the record
built by the entries before it: the failing geometry is not appended. -/
theorem geometry_parse_truncated (data : List Byte) (field_size : Int) (dataOffset : Nat)
    (hfs : field_size = 16 ∨ field_size = 32) (hoff : dataOffset ≤ data.length) :
    (data.length - dataOffset < 2 * fieldBytes field_size →
      ∀ g : RegionGeometry_Point, g.parse data field_size dataOffset
        = Except.ok (invalidRegionData "Insufficient data remaining for point region",
                     g, dataOffset)) ∧
    (data.length - dataOffset < 4 * fieldBytes field_size →
      ∀ g : RegionGeometry_Rectangle, g.parse data field_size dataOffset
        = Except.ok (invalidRegionData "Insufficient data remaining for rectangle region",
                     g, dataOffset)) ∧
    (data.length - dataOffset < 4 * fieldBytes field_size →
      ∀ g : RegionGeometry_Ellipse, g.parse data field_size dataOffset
        = Except.ok (invalidRegionData "Insufficient data remaining for ellipse region",
                     g, dataOffset)) ∧
    (data.length - dataOffset < fieldBytes field_size →
      ∀ g : RegionGeometry_Polygon, g.parse data field_size dataOffset
        = Except.ok (invalidRegionData "Insufficient data remaining for polygon",
                     g, dataOffset)) ∧
    (∀ (self : RegionItem) (tagOffset tag : Nat),
      readByte data tagOffset = Except.ok tag →
      (tagOffset + 1) % 4294967296 = dataOffset →
      truncatedEntry data field_size tag dataOffset →
      ∃ region e, makeRegion tag = some region ∧
        region.parse data field_size dataOffset = Except.ok (e, region, dataOffset) ∧
        e.isError = true ∧
        e.error_code = heif_error_code.heif_error_Invalid_input ∧
        e.sub_error_code = heif_suberror_code.heif_suberror_Invalid_region_data ∧
        RegionItem.parse_entry self data field_size tagOffset
          = Except.ok (LoopStep.ret e self)) ∧
    (∀ (record self : RegionItem) (k tagOffset tag : Nat),
      8 ≤ data.length → (byteAt data 1 % 2 = 1 → 12 ≤ data.length) →
      field_size = headerFieldSize data →
      k < byteAt data (regionCountOffset data) →
      RegionItem.parse_entries data field_size k (record.withReferenceSize data)
          (regionCountOffset data + 1) = Except.ok (LoopStep.next self tagOffset) →
      readByte data tagOffset = Except.ok tag →
      (tagOffset + 1) % 4294967296 = dataOffset →
      truncatedEntry data field_size tag dataOffset →
      ∃ region e, makeRegion tag = some region ∧
        region.parse data field_size dataOffset = Except.ok (e, region, dataOffset) ∧
        e.isError = true ∧
        e.error_code = heif_error_code.heif_error_Invalid_input ∧
        e.sub_error_code = heif_suberror_code.heif_suberror_Invalid_region_data ∧
        RegionItem.parse record data = Except.ok (e, self)) := by
  refine ⟨
    fun h g => RegionGeometry_Point.parse_point_truncated g data field_size _ hfs hoff h,
    fun h g => RegionGeometry_Rectangle.parse_rectangle_truncated g data field_size _ hfs hoff h,
    fun h g => RegionGeometry_Ellipse.parse_ellipse_truncated g data field_size _ hfs hoff h,
    fun h g => RegionGeometry_Polygon.parse_polygon_truncated g data field_size _ hfs hoff h,
    ?_, ?_⟩
  · intro self tagOffset tag hread hcur hshort
    subst hcur
    obtain ⟨region, e, hmake, hparse, he, hc1, hc2⟩ :=
      RegionGeometry.parse_region_truncated data field_size tag _ hfs hoff hshort
    exact ⟨region, e, hmake, hparse, he, hc1, hc2,
      RegionItem.parse_entry_of_error self data field_size tagOffset tag region region e _
        hread hmake hparse he⟩
  · intro record self k tagOffset tag h8 h12 hfield hk hpre hread hcur hshort
    subst hcur
    obtain ⟨region, e, hmake, hparse, he, hc1, hc2⟩ :=
      RegionGeometry.parse_region_truncated data field_size tag _ hfs hoff hshort
    have hstep := RegionItem.parse_entry_of_error self data field_size tagOffset tag region
      region e _ hread hmake hparse he
    refine ⟨region, e, hmake, hparse, he, hc1, hc2, ?_⟩
    rw [RegionItem.parse_header record data h8 h12, ← hfield]
    obtain ⟨m, hm⟩ : ∃ m, byteAt data (regionCountOffset data) = k + (m + 1) :=
      ⟨byteAt data (regionCountOffset data) - k - 1, by omega⟩
    rw [hm, RegionItem.parse_loop_after_entries data field_size (m + 1) k _ _ _ _ hpre,
      RegionItem.parse_loop, hstep]

theorem geometry_parse_truncated_witness :
    (8 : Nat) ≤ ([0, 0, 1, 0, 0, 200, 1, 1, 0, 5, 0, 5, 0, 10, 0] : List Byte).length ∧
    ([0, 0, 1, 0, 0, 200, 1, 1, 0, 5, 0, 5, 0, 10, 0] : List Byte).length - 8
      < 4 * fieldBytes 16 ∧
    (∀ g : RegionGeometry_Rectangle,
      g.parse [0, 0, 1, 0, 0, 200, 1, 1, 0, 5, 0, 5, 0, 10, 0] 16 8
        = Except.ok (invalidRegionData "Insufficient data remaining for rectangle region",
                     g, 8)) ∧
    ∃ region e, makeRegion 1 = some region ∧
      region.parse [0, 0, 1, 0, 0, 200, 1, 1, 0, 5, 0, 5, 0, 10, 0] 16 8
        = Except.ok (e, region, 8) ∧
      e.isError = true ∧
      e.error_code = heif_error_code.heif_error_Invalid_input ∧
      e.sub_error_code = heif_suberror_code.heif_suberror_Invalid_region_data ∧
      RegionItem.parse RegionItem.fresh [0, 0, 1, 0, 0, 200, 1, 1, 0, 5, 0, 5, 0, 10, 0]
        = Except.ok (e, ⟨256, 200, []⟩) :=
  ⟨by decide, by decide,
   (geometry_parse_truncated [0, 0, 1, 0, 0, 200, 1, 1, 0, 5, 0, 5, 0, 10, 0] 16 8
      (Or.inl rfl) (by decide)).2.1 (by decide),
   (geometry_parse_truncated [0, 0, 1, 0, 0, 200, 1, 1, 0, 5, 0, 5, 0, 10, 0] 16 8
      (Or.inl rfl) (by decide)).2.2.2.2.2 RegionItem.fresh ⟨256, 200, []⟩ 0 7 1
      (by decide) (fun _ => by decide) rfl (by decide) rfl rfl rfl (by decide)⟩

/-- C10 (as stated, refuted): the 13-byte buffer announces two regions, holds a complete
Point (10, 20) and then a second tag 0 with no payload.  `RegionItem::parse` returns the
`InvalidRegionData` error of the Point decoder, and the fresh record it was called on
now holds the first Point: its regions are not the (empty) regions before the call. -/
theorem RegionItem.parse_error_keeps_decoded :
    RegionItem.parse RegionItem.fresh [0, 0, 1, 0, 0, 200, 2, 0, 0, 10, 0, 20, 0]
      = Except.ok (invalidRegionData "Insufficient data remaining for point region",
                   ⟨256, 200, [RegionGeometry.point ⟨10, 20⟩]⟩) ∧
    (invalidRegionData "Insufficient data remaining for point region").isError = true ∧
    (⟨256, 200, [RegionGeometry.point ⟨10, 20⟩]⟩ : RegionItem).mRegions
      ≠ RegionItem.fresh.mRegions :=
  ⟨rfl, rfl, by decide⟩

/-- C10 (amended): whenever `RegionItem::parse` returns an error, the regions of the
record are the regions before the call followed by the geometries appended by the loop
iterations that ran before the failing check, and the failing entry appends nothing:
either the record is unchanged (header errors), or it is the record built by the first
`k` iterations, `k` less than `region_count`, and iteration `k + 1` is the one that
took `return error`.  The record is unchanged when a header check fails (a buffer shorter
than 8 bytes, or shorter than 12 with bit 0 of the flags byte set); when the buffer
passes the header checks the error comes from iteration `k + 1` of the loop. -/
theorem RegionItem.parse_error_regions (self : RegionItem) (data : List Byte) (e : Error)
    (item : RegionItem) (hret : RegionItem.parse self data = Except.ok (e, item))
    (herr : e.isError = true) :
    (∃ gs, item.mRegions = self.mRegions ++ gs) ∧
    (item = self ∨
      ∃ k t, k < byteAt data (regionCountOffset data) ∧
        RegionItem.parse_entries data (headerFieldSize data) k (self.withReferenceSize data)
          (regionCountOffset data + 1) = Except.ok (LoopStep.next item t) ∧
        RegionItem.parse_entry item data (headerFieldSize data) t
          = Except.ok (LoopStep.ret e item)) ∧
    (data.length < 8 ∨ (byteAt data 1 % 2 = 1 ∧ data.length < 12) → item = self) ∧
    (8 ≤ data.length → (byteAt data 1 % 2 = 1 → 12 ≤ data.length) →
      ∃ k t, k < byteAt data (regionCountOffset data) ∧
        RegionItem.parse_entries data (headerFieldSize data) k (self.withReferenceSize data)
          (regionCountOffset data + 1) = Except.ok (LoopStep.next item t) ∧
        RegionItem.parse_entry item data (headerFieldSize data) t
          = Except.ok (LoopStep.ret e item)) := by
  by_cases h8 : data.length < 8
  · rw [RegionItem.parse_of_length_lt_8 self data h8] at hret
    simp only [Except.ok.injEq, Prod.mk.injEq] at hret
    exact ⟨⟨[], by rw [← hret.2, List.append_nil]⟩, Or.inl hret.2.symm,
      fun _ => hret.2.symm, fun h => absurd h8 (by omega)⟩
  · by_cases h12 : byteAt data 1 % 2 = 1 ∧ data.length < 12
    · rw [RegionItem.parse_of_length_lt_12 self data (by omega) h12.2 h12.1] at hret
      simp only [Except.ok.injEq, Prod.mk.injEq] at hret
      exact ⟨⟨[], by rw [← hret.2, List.append_nil]⟩, Or.inl hret.2.symm,
        fun _ => hret.2.symm, fun _ h => absurd (h h12.1) (by omega)⟩
    · rw [RegionItem.parse_header self data (by omega) (fun hf => by omega)] at hret
      obtain ⟨k, t, hk, hpre, hfail⟩ :=
        RegionItem.parse_loop_error data _ e item herr _ _ _ hret
      obtain ⟨gs, hgs, -⟩ := RegionItem.parse_entries_regions data _ k _ _ _ _ hpre
      refine ⟨⟨gs, ?_⟩, Or.inr ⟨k, t, hk, hpre, hfail⟩,
        fun h => absurd h (by omega), fun _ _ => ⟨k, t, hk, hpre, hfail⟩⟩
      rw [hgs]
      unfold RegionItem.withReferenceSize
      split <;> rfl

theorem RegionItem.parse_error_regions_witness :
    RegionItem.parse RegionItem.fresh [0, 0, 1, 0, 0, 200, 3, 0, 0, 10, 0, 20, 9, 3, 0]
      = Except.ok (invalidRegionData "Insufficient data remaining for polygon",
                   ⟨256, 200, [RegionGeometry.point ⟨10, 20⟩]⟩) ∧
    (∃ gs, (⟨256, 200, [RegionGeometry.point ⟨10, 20⟩]⟩ : RegionItem).mRegions
        = RegionItem.fresh.mRegions ++ gs) ∧
    (∃ k t, k < byteAt [0, 0, 1, 0, 0, 200, 3, 0, 0, 10, 0, 20, 9, 3, 0]
                (regionCountOffset [0, 0, 1, 0, 0, 200, 3, 0, 0, 10, 0, 20, 9, 3, 0]) ∧
      RegionItem.parse_entries [0, 0, 1, 0, 0, 200, 3, 0, 0, 10, 0, 20, 9, 3, 0]
        (headerFieldSize [0, 0, 1, 0, 0, 200, 3, 0, 0, 10, 0, 20, 9, 3, 0]) k
        (RegionItem.fresh.withReferenceSize
          [0, 0, 1, 0, 0, 200, 3, 0, 0, 10, 0, 20, 9, 3, 0])
        (regionCountOffset [0, 0, 1, 0, 0, 200, 3, 0, 0, 10, 0, 20, 9, 3, 0] + 1)
        = Except.ok (LoopStep.next ⟨256, 200, [RegionGeometry.point ⟨10, 20⟩]⟩ t) ∧
      RegionItem.parse_entry ⟨256, 200, [RegionGeometry.point ⟨10, 20⟩]⟩
        [0, 0, 1, 0, 0, 200, 3, 0, 0, 10, 0, 20, 9, 3, 0]
        (headerFieldSize [0, 0, 1, 0, 0, 200, 3, 0, 0, 10, 0, 20, 9, 3, 0]) t
        = Except.ok (LoopStep.ret
            (invalidRegionData "Insufficient data remaining for polygon")
            ⟨256, 200, [RegionGeometry.point ⟨10, 20⟩]⟩)) ∧
    RegionItem.parse ⟨7, 7, [RegionGeometry.point ⟨1, 2⟩]⟩ [0, 1, 0, 0, 0, 0, 0, 0, 0, 0, 0]
      = Except.ok (invalidRegionData "Region data incomplete",
                   ⟨7, 7, [RegionGeometry.point ⟨1, 2⟩]⟩) ∧
    (⟨7, 7, [RegionGeometry.point ⟨1, 2⟩]⟩ : RegionItem)
      = ⟨7, 7, [RegionGeometry.point ⟨1, 2⟩]⟩ :=
  ⟨rfl,
   (RegionItem.parse_error_regions RegionItem.fresh
     [0, 0, 1, 0, 0, 200, 3, 0, 0, 10, 0, 20, 9, 3, 0]
     (invalidRegionData "Insufficient data remaining for polygon")
     ⟨256, 200, [RegionGeometry.point ⟨10, 20⟩]⟩ rfl rfl).1,
   (RegionItem.parse_error_regions RegionItem.fresh
     [0, 0, 1, 0, 0, 200, 3, 0, 0, 10, 0, 20, 9, 3, 0]
     (invalidRegionData "Insufficient data remaining for polygon")
     ⟨256, 200, [RegionGeometry.point ⟨10, 20⟩]⟩ rfl rfl).2.2.2 (by decide) (by decide),
   rfl,
   (RegionItem.parse_error_regions ⟨7, 7, [RegionGeometry.point ⟨1, 2⟩]⟩
     [0, 1, 0, 0, 0, 0, 0, 0, 0, 0, 0] (invalidRegionData "Region data incomplete")
     ⟨7, 7, [RegionGeometry.point ⟨1, 2⟩]⟩ rfl rfl).2.2.1 (Or.inr (by decide))⟩

/-- C11: when `RegionItem::parse` succeeds on a fresh record, all `region_count` loop
iterations ran, the regions have as many elements as there were iterations with a tag in
{0, 1, 2, 3, 6}, hence at most `region_count ≤ 255`, and element by element, in order,
the regions are the geometries decoded from the recognised entries: the k-th region is
what the decoder selected by the k-th recognised tag returned at that entry's payload
cursor, so the variants of the regions are the recognised tags read, mapped through the
dispatch table. -/
theorem RegionItem.parse_regions_sequence (data : List Byte) (e : Error) (item : RegionItem)
    (hret : RegionItem.parse RegionItem.fresh data = Except.ok (e, item))
    (hok : e.isError = false) :
    (regionEntries data).length = byteAt data (regionCountOffset data) ∧
    item.mRegions.length
      = ((regionEntries data).filter (fun entry => recognisedTag entry.1)).length ∧
    item.mRegions.length ≤ byteAt data (regionCountOffset data) ∧
    byteAt data (regionCountOffset data) ≤ 255 ∧
    item.mRegions.map RegionGeometry.geometry_type
      = ((regionEntries data).filter (fun entry => recognisedTag entry.1)).map Prod.fst ∧
    List.Forall₂ (decodedFrom data (headerFieldSize data)) item.mRegions
      ((regionEntries data).filter (fun entry => recognisedTag entry.1)) := by
  by_cases h8 : data.length < 8
  · rw [RegionItem.parse_of_length_lt_8 _ data h8] at hret
    simp only [Except.ok.injEq, Prod.mk.injEq] at hret
    rw [← hret.1] at hok
    cases hok
  · by_cases h12 : byteAt data 1 % 2 = 1 ∧ data.length < 12
    · rw [RegionItem.parse_of_length_lt_12 _ data (by omega) h12.2 h12.1] at hret
      simp only [Except.ok.injEq, Prod.mk.injEq] at hret
      rw [← hret.1] at hok
      cases hok
    · rw [RegionItem.parse_header _ data (by omega) (fun hf => by omega)] at hret
      obtain ⟨hlen, gs, hgs, hall⟩ :=
        RegionItem.parse_loop_regions data _ e item hok _ _ _ hret
      have hfresh : (RegionItem.fresh.withReferenceSize data).mRegions = [] := by
        unfold RegionItem.withReferenceSize
        split <;> rfl
      rw [hfresh, List.nil_append] at hgs
      subst hgs
      have hflen := List.Forall₂.length_eq hall
      have hle := List.length_filter_le (fun entry : Nat × Nat => recognisedTag entry.1)
        (regionEntries data)
      have hb := byteAt_lt data (regionCountOffset data)
      unfold regionEntries at hle ⊢
      refine ⟨hlen, hflen, by omega, by omega,
        forall₂_decodedFrom_map data _ _ _ hall, hall⟩

theorem RegionItem.parse_regions_sequence_witness :
    RegionItem.parse RegionItem.fresh [0, 0, 1, 0, 0, 200, 3, 0, 0, 10, 0, 20, 9, 6, 0, 0]
      = Except.ok (Error.Ok, ⟨256, 200, [RegionGeometry.point ⟨10, 20⟩,
                                         RegionGeometry.polygon ⟨false, []⟩]⟩) ∧
    regionEntries [0, 0, 1, 0, 0, 200, 3, 0, 0, 10, 0, 20, 9, 6, 0, 0]
      = [(0, 8), (9, 13), (6, 14)] ∧
    (regionEntries [0, 0, 1, 0, 0, 200, 3, 0, 0, 10, 0, 20, 9, 6, 0, 0]).length
      = byteAt [0, 0, 1, 0, 0, 200, 3, 0, 0, 10, 0, 20, 9, 6, 0, 0]
          (regionCountOffset [0, 0, 1, 0, 0, 200, 3, 0, 0, 10, 0, 20, 9, 6, 0, 0]) ∧
    [RegionGeometry.point ⟨10, 20⟩, RegionGeometry.polygon ⟨false, []⟩].map
        RegionGeometry.geometry_type
      = ((regionEntries [0, 0, 1, 0, 0, 200, 3, 0, 0, 10, 0, 20, 9, 6, 0, 0]).filter
          (fun entry => recognisedTag entry.1)).map Prod.fst :=
  ⟨rfl, rfl,
   (RegionItem.parse_regions_sequence [0, 0, 1, 0, 0, 200, 3, 0, 0, 10, 0, 20, 9, 6, 0, 0]
      Error.Ok ⟨256, 200, [RegionGeometry.point ⟨10, 20⟩,
                           RegionGeometry.polygon ⟨false, []⟩]⟩ rfl rfl).1,
   (RegionItem.parse_regions_sequence [0, 0, 1, 0, 0, 200, 3, 0, 0, 10, 0, 20, 9, 6, 0, 0]
      Error.Ok ⟨256, 200, [RegionGeometry.point ⟨10, 20⟩,
                           RegionGeometry.polygon ⟨false, []⟩]⟩ rfl rfl).2.2.2.2.1⟩

/-- C12 (as stated, refuted): in the buffer `wrapBuffer` of `2^32 + 6` bytes the cursor
`2^32 - 1` has seven bytes remaining.  At field width 16 `parse_unsigned` reads the first
byte at the cursor (`01`) and the second at index `(2^32 - 1) + 1`, which in the 32-bit
cursor arithmetic is index 0 (`05`): it returns 261, not the value 256 of the two bytes
at the cursor, and leaves the cursor at 1, not at `2^32 + 1`. -/
theorem RegionGeometry.parse_unsigned_cursor_wraps :
    4294967295 + fieldBytes 16 ≤ wrapBuffer.length ∧
    RegionGeometry.parse_unsigned wrapBuffer 16 4294967295 = Except.ok (261, 1) ∧
    256 * byteAt wrapBuffer 4294967295 + byteAt wrapBuffer (4294967295 + 1) = 256 ∧
    (261 : Nat) ≠ 256 ∧ (1 : Nat) ≠ 4294967295 + fieldBytes 16 := by
  have hlen := wrapBuffer_length
  have hfb : fieldBytes 16 = 2 := rfl
  have b0 : byteAt wrapBuffer 0 = 5 := by rw [wrapBuffer_low 0 (by omega)]; rfl
  have bc : byteAt wrapBuffer 4294967295 = 1 := by
    rw [wrapBuffer_high _ (by omega)]; rfl
  have bn : byteAt wrapBuffer (4294967295 + 1) = 0 := by
    rw [wrapBuffer_high _ (by omega)]; rfl
  have m1 : (4294967295 + 1) % 4294967296 = 0 := by decide
  have m2 : (4294967295 + 2) % 4294967296 = 1 := by decide
  refine ⟨by rw [hlen, hfb]; omega, ?_, by rw [bc, bn], by decide, by rw [hfb]; omega⟩
  rw [RegionGeometry.parse_unsigned_16 wrapBuffer 16 4294967295 (by decide)
    (by rw [hlen]; omega) (by rw [m1, hlen]; omega), m1, m2, b0, bc]

/-- C12 (amended): at field width 16 or 32, with the whole field inside the buffer and
the cursor behind it below `2^32`, the range of the 32-bit cursor (so in every buffer
shorter than 4 GiB), `parse_unsigned` returns the big-endian unsigned value of the field,
`256*b[c] + b[c+1]` at width 16 and `b[c]*2^24 + b[c+1]*2^16 + b[c+2]*2^8 + b[c+3]` at
width 32, a value below `2^32`, and advances the cursor by exactly `field_size/8` bytes;
`parse_signed` advances the cursor by the same amount. -/
theorem RegionGeometry.parse_unsigned_value (data : List Byte) (field_size : Int)
    (dataOffset : Nat) (hfs : field_size = 16 ∨ field_size = 32)
    (hin : dataOffset + fieldBytes field_size ≤ data.length)
    (hrep : dataOffset + fieldBytes field_size < 4294967296) :
    (field_size = 16 →
      RegionGeometry.parse_unsigned data field_size dataOffset
        = Except.ok (256 * byteAt data dataOffset + byteAt data (dataOffset + 1),
                     dataOffset + 2)) ∧
    (field_size = 32 →
      RegionGeometry.parse_unsigned data field_size dataOffset
        = Except.ok (byteAt data dataOffset * 2 ^ 24 + byteAt data (dataOffset + 1) * 2 ^ 16
                      + byteAt data (dataOffset + 2) * 2 ^ 8 + byteAt data (dataOffset + 3),
                     dataOffset + 4)) ∧
    (∃ v, RegionGeometry.parse_unsigned data field_size dataOffset
            = Except.ok (v, dataOffset + fieldBytes field_size) ∧ v < 2 ^ 32) ∧
    (∃ x, RegionGeometry.parse_signed data field_size dataOffset
            = Except.ok (x, dataOffset + fieldBytes field_size)) := by
  rw [← fieldWidth_eq_fieldBytes field_size hfs] at hin hrep ⊢
  have hu := RegionGeometry.parse_unsigned_ok data field_size dataOffset hin hrep
  have hs := RegionGeometry.parse_signed_ok data field_size dataOffset hin hrep
  refine ⟨?_, ?_, ⟨_, hu, unsignedField_lt data field_size dataOffset⟩, ⟨_, hs⟩⟩
  · intro h16
    subst h16
    rw [hu]; rfl
  · intro h32
    subst h32
    rw [hu]; rfl

theorem RegionGeometry.parse_unsigned_value_witness :
    RegionGeometry.parse_unsigned [9, 255, 128, 0, 1] 32 1 = Except.ok (4286578689, 1 + 4) ∧
    (∃ v, RegionGeometry.parse_unsigned [9, 255, 128, 0, 1] 32 1
            = Except.ok (v, 1 + fieldBytes 32) ∧ v < 2 ^ 32) ∧
    (∃ x, RegionGeometry.parse_signed [9, 255, 128, 0, 1] 32 1
            = Except.ok (x, 1 + fieldBytes 32)) :=
  ⟨(RegionGeometry.parse_unsigned_value [9, 255, 128, 0, 1] 32 1 (Or.inr rfl)
      (by decide) (by decide)).2.1 rfl,
   (RegionGeometry.parse_unsigned_value [9, 255, 128, 0, 1] 32 1 (Or.inr rfl)
      (by decide) (by decide)).2.2⟩

/-- C13: a buffer shorter than `2^64` bytes (the range of `size_t`) that passes the header
checks, has `region_count = 1` (byte 6 at field width 16, byte 10 at width 32), first tag
0 (byte 7, resp. 11) and at least `2 × (field_size/8)` bytes behind the tag is decoded
with `Error::Ok`; the reference size is set and exactly one geometry is appended, a Point
whose `x` is what `parse_signed` reads from the first field behind the tag and whose `y`
is what it reads from the second.  At width 16 these are the big-endian values of the
two-byte fields; at width 32 they are the big-endian values when the top bit of the field
is clear. -/
theorem RegionItem.parse_single_point (self : RegionItem) (data : List Byte)
    (hsz : data.length < 18446744073709551616) :
    (12 ≤ data.length → byteAt data 1 % 2 = 0 → byteAt data 6 = 1 → byteAt data 7 = 0 →
      ∃ x y, RegionGeometry.parse_signed data 16 8 = Except.ok (x, 10) ∧
        RegionGeometry.parse_signed data 16 10 = Except.ok (y, 12) ∧
        RegionItem.parse self data =
          Except.ok (Error.Ok,
            ⟨256 * byteAt data 2 + byteAt data 3, 256 * byteAt data 4 + byteAt data 5,
             self.mRegions ++ [RegionGeometry.point ⟨x, y⟩]⟩) ∧
        x = ((256 * byteAt data 8 + byteAt data 9 : Nat) : Int) ∧
        y = ((256 * byteAt data 10 + byteAt data 11 : Nat) : Int)) ∧
    (20 ≤ data.length → byteAt data 1 % 2 = 1 → byteAt data 10 = 1 → byteAt data 11 = 0 →
      ∃ x y, RegionGeometry.parse_signed data 32 12 = Except.ok (x, 16) ∧
        RegionGeometry.parse_signed data 32 16 = Except.ok (y, 20) ∧
        RegionItem.parse self data =
          Except.ok (Error.Ok,
            ⟨byteAt data 2 * 2 ^ 24 + byteAt data 3 * 2 ^ 16 + byteAt data 4 * 2 ^ 8
               + byteAt data 5,
             byteAt data 6 * 2 ^ 24 + byteAt data 7 * 2 ^ 16 + byteAt data 8 * 2 ^ 8
               + byteAt data 9,
             self.mRegions ++ [RegionGeometry.point ⟨x, y⟩]⟩) ∧
        (byteAt data 12 < 128 →
          x = ((byteAt data 12 * 2 ^ 24 + byteAt data 13 * 2 ^ 16 + byteAt data 14 * 2 ^ 8
                + byteAt data 15 : Nat) : Int)) ∧
        (byteAt data 16 < 128 →
          y = ((byteAt data 16 * 2 ^ 24 + byteAt data 17 * 2 ^ 16 + byteAt data 18 * 2 ^ 8
                + byteAt data 19 : Nat) : Int))) := by
  constructor
  · intro hlen hflag hcount htag
    have hfs : headerFieldSize data = 16 := by
      unfold headerFieldSize; rw [if_neg (by omega)]
    have hoff : regionCountOffset data = 6 := by
      unfold regionCountOffset; rw [if_neg (by omega)]
    have hmain := RegionItem.parse_one_point self data (by omega) (fun h => by omega) hsz
      (by rw [hoff]; exact hcount) (by rw [hoff]; exact htag)
      (by rw [hoff, hfs]; exact hlen)
    rw [hfs, hoff] at hmain
    refine ⟨signedField data 16 8, signedField data 16 10,
      RegionGeometry.parse_signed_ok data 16 8 (by exact hlen.trans' (by decide)) (by decide),
      RegionGeometry.parse_signed_ok data 16 10 hlen (by decide), ?_, rfl, rfl⟩
    rw [hmain]
    unfold RegionItem.withReferenceSize
    rw [if_neg (by omega)]
    rfl
  · intro hlen hflag hcount htag
    have hfs : headerFieldSize data = 32 := by
      unfold headerFieldSize; rw [if_pos hflag]
    have hoff : regionCountOffset data = 10 := by
      unfold regionCountOffset; rw [if_pos hflag]
    have hmain := RegionItem.parse_one_point self data (by omega) (fun h => by omega) hsz
      (by rw [hoff]; exact hcount) (by rw [hoff]; exact htag)
      (by rw [hoff, hfs]; exact hlen)
    rw [hfs, hoff] at hmain
    have b13 := byteAt_lt data 13; have b14 := byteAt_lt data 14
    have b15 := byteAt_lt data 15; have b17 := byteAt_lt data 17
    have b18 := byteAt_lt data 18; have b19 := byteAt_lt data 19
    refine ⟨signedField data 32 12, signedField data 32 16,
      RegionGeometry.parse_signed_ok data 32 12 (by exact hlen.trans' (by decide)) (by decide),
      RegionGeometry.parse_signed_ok data 32 16 hlen (by decide), ?_, ?_, ?_⟩
    · rw [hmain]
      unfold RegionItem.withReferenceSize
      rw [if_pos hflag]
      rfl
    · intro htop
      show toInt32 (byteAt data 12 * 16777216 + byteAt data 13 * 65536 + byteAt data 14 * 256
        + byteAt data 15) = _
      rw [toInt32_of_lt _ (by omega)]
      norm_num
    · intro htop
      show toInt32 (byteAt data 16 * 16777216 + byteAt data 17 * 65536 + byteAt data 18 * 256
        + byteAt data 19) = _
      rw [toInt32_of_lt _ (by omega)]
      norm_num

theorem RegionItem.parse_single_point_witness :
    ∃ x y, RegionGeometry.parse_signed [0, 0, 1, 0, 0, 200, 1, 0, 0, 10, 0, 20] 16 8
        = Except.ok (x, 10) ∧
      RegionGeometry.parse_signed [0, 0, 1, 0, 0, 200, 1, 0, 0, 10, 0, 20] 16 10
        = Except.ok (y, 12) ∧
      RegionItem.parse RegionItem.fresh [0, 0, 1, 0, 0, 200, 1, 0, 0, 10, 0, 20] =
        Except.ok (Error.Ok, ⟨256, 200, [] ++ [RegionGeometry.point ⟨x, y⟩]⟩) ∧
      x = ((10 : Nat) : Int) ∧ y = ((20 : Nat) : Int) :=
  (RegionItem.parse_single_point RegionItem.fresh [0, 0, 1, 0, 0, 200, 1, 0, 0, 10, 0, 20]
    (by decide)).1 (by decide) (by decide) (by decide) (by decide)

/-- C14 (as stated, refuted): in `wrapBuffer` (`2^32 + 6` bytes) the cursor `2^32 - 2` has
exactly `4 × 2` bytes remaining.  At field width 16 the Rectangle decoder passes its
length check and reads `x` at the cursor; the cursor then wraps to 0 in 32-bit arithmetic
and `y`, `width`, `height` are read from bytes 0 to 5: the result is `(1, 1281, 2, 3)`
with final cursor 6, whereas the fields behind the cursor hold `y = 10`, `width = 11`,
`height = 12` and the cursor should end at `2^32 + 6`. -/
theorem RegionGeometry_Rectangle.parse_cursor_wraps :
    4294967294 + 4 * fieldBytes 16 ≤ wrapBuffer.length ∧
    RegionGeometry_Rectangle.parse ⟨0, 0, 0, 0⟩ wrapBuffer 16 4294967294
      = Except.ok (Error.Ok, ⟨1, 1281, 2, 3⟩, 6) ∧
    unsignedField wrapBuffer 16 (4294967294 + 2 * fieldBytes 16) = 11 ∧
    (2 : Nat) ≠ 11 ∧ (6 : Nat) ≠ 4294967294 + 4 * fieldBytes 16 := by
  have hfb : fieldBytes 16 = 2 := rfl
  have hlen := wrapBuffer_length
  obtain ⟨r0, -, r2, -, -, -, u2, u4⟩ := wrapBuffer_reads
  obtain ⟨-, -, -, -, -, -, -, -, -, -, bw0, bw1⟩ := wrapBuffer_bytes
  have hb : toUnsigned (Int.tdiv 16 8 * 4) = 8 := rfl
  refine ⟨by rw [hfb]; omega, ?_, ?_, by decide, by rw [hfb]; omega⟩
  · exact RegionGeometry_Rectangle.parse_of_four_reads _ wrapBuffer 16 4294967294 1 1281 2 3
      0 2 4 6 (by rw [hb, wrapBuffer_remaining _ (by omega)]; omega) r0 r2 u2 u4
  · unfold unsignedField
    rw [if_neg (by decide), hfb,
      show 4294967294 + 2 * 2 = 4294967298 by decide,
      show 4294967298 + 1 = 4294967299 by decide, bw0, bw1]

/-- C14 (amended): at field width 16 or 32, in a buffer shorter than 4 GiB with at least
`4 × (field_size/8)` bytes at the cursor, the Rectangle decoder and the Ellipse decoder
return `Error::Ok`, advance the cursor by exactly `4 × (field_size/8)` bytes and assign
the four consecutive fields in order: `x` and `y` are what `parse_signed` reads from
fields 1 and 2 (the values `signedField` of those bytes), `width`/`radius_x` and
`height`/`radius_y` are what `parse_unsigned` reads from fields 3 and 4, the big-endian
unsigned values of those fields. -/
theorem RegionGeometry.parse_four_fields (data : List Byte) (field_size : Int)
    (dataOffset : Nat) (hfs : field_size = 16 ∨ field_size = 32)
    (hin : dataOffset + 4 * fieldBytes field_size ≤ data.length)
    (hlen : data.length < 4294967296) :
    ∃ (x y : Int) (a b : Nat),
      RegionGeometry.parse_signed data field_size dataOffset
        = Except.ok (x, dataOffset + fieldBytes field_size) ∧
      RegionGeometry.parse_signed data field_size (dataOffset + fieldBytes field_size)
        = Except.ok (y, dataOffset + 2 * fieldBytes field_size) ∧
      RegionGeometry.parse_unsigned data field_size (dataOffset + 2 * fieldBytes field_size)
        = Except.ok (a, dataOffset + 3 * fieldBytes field_size) ∧
      RegionGeometry.parse_unsigned data field_size (dataOffset + 3 * fieldBytes field_size)
        = Except.ok (b, dataOffset + 4 * fieldBytes field_size) ∧
      a = unsignedField data field_size (dataOffset + 2 * fieldBytes field_size) ∧
      b = unsignedField data field_size (dataOffset + 3 * fieldBytes field_size) ∧
      (∀ g : RegionGeometry_Rectangle, g.parse data field_size dataOffset
        = Except.ok (Error.Ok, ⟨x, y, a, b⟩, dataOffset + 4 * fieldBytes field_size)) ∧
      (∀ g : RegionGeometry_Ellipse, g.parse data field_size dataOffset
        = Except.ok (Error.Ok, ⟨x, y, a, b⟩, dataOffset + 4 * fieldBytes field_size)) ∧
      x = signedField data field_size dataOffset ∧
      y = signedField data field_size (dataOffset + fieldBytes field_size) := by
  rw [← fieldWidth_eq_fieldBytes field_size hfs] at hin ⊢
  have hw : fieldWidth field_size = 2 ∨ fieldWidth field_size = 4 := by
    rcases hfs with rfl | rfl
    · exact Or.inl rfl
    · exact Or.inr rfl
  refine ⟨signedField data field_size dataOffset,
    signedField data field_size (dataOffset + fieldWidth field_size),
    unsignedField data field_size (dataOffset + 2 * fieldWidth field_size),
    unsignedField data field_size (dataOffset + 3 * fieldWidth field_size),
    RegionGeometry.parse_signed_ok data field_size _ (by omega) (by omega), ?_, ?_, ?_,
    rfl, rfl,
    fun g => RegionGeometry_Rectangle.parse_rectangle_ok g data field_size dataOffset hfs
      hin (by omega) (by omega),
    fun g => RegionGeometry_Ellipse.parse_ellipse_ok g data field_size dataOffset hfs
      hin (by omega) (by omega), rfl, rfl⟩
  · rw [RegionGeometry.parse_signed_ok data field_size _ (by omega) (by omega),
      show dataOffset + fieldWidth field_size + fieldWidth field_size
        = dataOffset + 2 * fieldWidth field_size by omega]
  · rw [RegionGeometry.parse_unsigned_ok data field_size _ (by omega) (by omega),
      show dataOffset + 2 * fieldWidth field_size + fieldWidth field_size
        = dataOffset + 3 * fieldWidth field_size by omega]
  · rw [RegionGeometry.parse_unsigned_ok data field_size _ (by omega) (by omega),
      show dataOffset + 3 * fieldWidth field_size + fieldWidth field_size
        = dataOffset + 4 * fieldWidth field_size by omega]

theorem RegionGeometry.parse_four_fields_witness :
    RegionItem.parse RegionItem.fresh [0, 0, 0, 100, 0, 100, 1, 1, 0, 5, 0, 5, 0, 10, 0, 10]
      = Except.ok (Error.Ok, ⟨100, 100, [RegionGeometry.rectangle ⟨5, 5, 10, 10⟩]⟩) ∧
    signedField [0, 0, 0, 100, 0, 100, 1, 1, 0, 5, 0, 5, 0, 10, 0, 10] 16 8 = 5 ∧
    signedField [0, 0, 0, 100, 0, 100, 1, 1, 0, 5, 0, 5, 0, 10, 0, 10] 16
      (8 + fieldBytes 16) = 5 ∧
    unsignedField [0, 0, 0, 100, 0, 100, 1, 1, 0, 5, 0, 5, 0, 10, 0, 10] 16
      (8 + 2 * fieldBytes 16) = 10 ∧
    unsignedField [0, 0, 0, 100, 0, 100, 1, 1, 0, 5, 0, 5, 0, 10, 0, 10] 16
      (8 + 3 * fieldBytes 16) = 10 ∧
    ∃ (x y : Int) (a b : Nat),
      RegionGeometry.parse_signed [0, 0, 0, 100, 0, 100, 1, 1, 0, 5, 0, 5, 0, 10, 0, 10] 16 8
        = Except.ok (x, 8 + fieldBytes 16) ∧
      RegionGeometry.parse_signed [0, 0, 0, 100, 0, 100, 1, 1, 0, 5, 0, 5, 0, 10, 0, 10] 16
          (8 + fieldBytes 16) = Except.ok (y, 8 + 2 * fieldBytes 16) ∧
      RegionGeometry.parse_unsigned [0, 0, 0, 100, 0, 100, 1, 1, 0, 5, 0, 5, 0, 10, 0, 10] 16
          (8 + 2 * fieldBytes 16) = Except.ok (a, 8 + 3 * fieldBytes 16) ∧
      RegionGeometry.parse_unsigned [0, 0, 0, 100, 0, 100, 1, 1, 0, 5, 0, 5, 0, 10, 0, 10] 16
          (8 + 3 * fieldBytes 16) = Except.ok (b, 8 + 4 * fieldBytes 16) ∧
      a = unsignedField [0, 0, 0, 100, 0, 100, 1, 1, 0, 5, 0, 5, 0, 10, 0, 10] 16
            (8 + 2 * fieldBytes 16) ∧
      b = unsignedField [0, 0, 0, 100, 0, 100, 1, 1, 0, 5, 0, 5, 0, 10, 0, 10] 16
            (8 + 3 * fieldBytes 16) ∧
      (∀ g : RegionGeometry_Rectangle,
        g.parse [0, 0, 0, 100, 0, 100, 1, 1, 0, 5, 0, 5, 0, 10, 0, 10] 16 8
          = Except.ok (Error.Ok, ⟨x, y, a, b⟩, 8 + 4 * fieldBytes 16)) ∧
      (∀ g : RegionGeometry_Ellipse,
        g.parse [0, 0, 0, 100, 0, 100, 1, 1, 0, 5, 0, 5, 0, 10, 0, 10] 16 8
          = Except.ok (Error.Ok, ⟨x, y, a, b⟩, 8 + 4 * fieldBytes 16)) ∧
      x = signedField [0, 0, 0, 100, 0, 100, 1, 1, 0, 5, 0, 5, 0, 10, 0, 10] 16 8 ∧
      y = signedField [0, 0, 0, 100, 0, 100, 1, 1, 0, 5, 0, 5, 0, 10, 0, 10] 16
            (8 + fieldBytes 16) :=
  ⟨rfl, rfl, rfl, rfl, rfl,
   RegionGeometry.parse_four_fields [0, 0, 0, 100, 0, 100, 1, 1, 0, 5, 0, 5, 0, 10, 0, 10]
     16 8 (Or.inl rfl) (by decide) (by decide)⟩

/-- C15 (as stated, refuted): in `wrapBuffer` the count field at cursor `2^32 - 2` is
fully present with value 1 and six bytes, more than `1 × 2 × 2`, follow it.  At field
width 16 the Polygon decoder reads the count, the cursor wraps to 0 in 32-bit arithmetic,
and the point is read from bytes 0 to 3: `points = [(1281, 2)]` with final cursor 4,
whereas the two fields behind the count field hold `(10, 11)` and the cursor should have
advanced by `3 × 2` to `2^32 + 4`. -/
theorem RegionGeometry_Polygon.parse_cursor_wraps_at_count :
    4294967294 + fieldBytes 16 ≤ wrapBuffer.length ∧
    256 * byteAt wrapBuffer 4294967294 + byteAt wrapBuffer (4294967294 + 1) = 1 ∧
    4294967294 + fieldBytes 16 + 1 * 2 * fieldBytes 16 ≤ wrapBuffer.length ∧
    RegionGeometry_Polygon.parse ⟨true, []⟩ wrapBuffer 16 4294967294
      = Except.ok (Error.Ok, ⟨true, [⟨1281, 2⟩]⟩, 4) ∧
    256 * byteAt wrapBuffer (4294967294 + fieldBytes 16)
      + byteAt wrapBuffer (4294967294 + fieldBytes 16 + 1) = 10 ∧
    (1281 : Int) ≠ 10 ∧ (4 : Nat) ≠ 4294967294 + (1 + 2 * 1) * fieldBytes 16 := by
  have hfb : fieldBytes 16 = 2 := rfl
  have hlen := wrapBuffer_length
  obtain ⟨-, -, r2, -, r4, u0, -, -⟩ := wrapBuffer_reads
  obtain ⟨-, -, -, -, -, -, bh0, bh1, bn0, bn1, -, -⟩ := wrapBuffer_bytes
  have hb : toUnsigned (Int.tdiv 16 8 * 1) = 2 := rfl
  have hb2 : (toUnsigned (Int.tdiv 16 8) * 1 * 2) % 4294967296 = 4 := rfl
  refine ⟨by rw [hfb]; omega, ?_, by rw [hfb]; omega, ?_, ?_, by decide,
    by rw [hfb]; omega⟩
  · rw [show 4294967294 + 1 = 4294967295 by decide, bh0, bh1]
  · exact RegionGeometry_Polygon.parse_of_points ⟨true, []⟩ wrapBuffer 16 4294967294 1 0 4
      [⟨1281, 2⟩] (by rw [hb, wrapBuffer_remaining _ (by omega)]; omega) u0
      (by rw [hb2, wrapBuffer_remaining _ (by omega)]; omega)
      (RegionGeometry_Polygon.parse_points_one wrapBuffer 16 [] 0 1281 2 2 4 r2 r4)
  · rw [hfb, show 4294967294 + 2 = 4294967296 by decide,
      show 4294967296 + 1 = 4294967297 by decide, bn0, bn1]

/-- C15 (amended): at field width 16 or 32, in a buffer shorter than 4 GiB where the
count field at the cursor is fully present with value `n` and at least
`n × 2 × (field_size/8)` bytes follow it, the Polygon decoder, run on a polygon with no
points, returns `Error::Ok`; `points` then has exactly `n` elements, element `i` (counted
from 0) holding what `parse_signed` reads from fields `2i+1` and `2i+2` behind the count
field (the values `signedField` of those bytes), in stream order; `closed` is kept and the
cursor has advanced by exactly `(1 + 2n) × (field_size/8)` bytes.  With `n = 0` the
decoder succeeds with no points and consumes only the count field. -/
theorem RegionGeometry_Polygon.parse_point_list (g : RegionGeometry_Polygon)
    (data : List Byte) (field_size : Int) (dataOffset n : Nat)
    (hfs : field_size = 16 ∨ field_size = 32) (hlen : data.length < 4294967296)
    (hcount : dataOffset + fieldBytes field_size ≤ data.length)
    (hn : RegionGeometry.parse_unsigned data field_size dataOffset
            = Except.ok (n, dataOffset + fieldBytes field_size))
    (hin : dataOffset + fieldBytes field_size + n * 2 * fieldBytes field_size ≤ data.length)
    (hempty : g.points = []) :
    ∃ points,
      g.parse data field_size dataOffset
        = Except.ok (Error.Ok, ⟨g.closed, points⟩,
                     dataOffset + (1 + 2 * n) * fieldBytes field_size) ∧
      points.length = n ∧
      (∀ i, i < n → ∃ p, points[i]? = some p ∧
        RegionGeometry.parse_signed data field_size
            (dataOffset + (2 * i + 1) * fieldBytes field_size)
          = Except.ok (p.x, dataOffset + (2 * i + 2) * fieldBytes field_size) ∧
        RegionGeometry.parse_signed data field_size
            (dataOffset + (2 * i + 2) * fieldBytes field_size)
          = Except.ok (p.y, dataOffset + (2 * i + 3) * fieldBytes field_size) ∧
        p.x = signedField data field_size (dataOffset + (2 * i + 1) * fieldBytes field_size) ∧
        p.y = signedField data field_size
                (dataOffset + (2 * i + 2) * fieldBytes field_size)) ∧
      (n = 0 → g.parse data field_size dataOffset
        = Except.ok (Error.Ok, g, dataOffset + fieldBytes field_size)) ∧
      n = unsignedField data field_size dataOffset := by
  rw [← fieldWidth_eq_fieldBytes field_size hfs] at hcount hn hin ⊢
  have hw : fieldWidth field_size = 2 ∨ fieldWidth field_size = 4 := by
    rcases hfs with rfl | rfl
    · exact Or.inl rfl
    · exact Or.inr rfl
  have hval : unsignedField data field_size dataOffset = n := by
    rw [RegionGeometry.parse_unsigned_ok data field_size dataOffset hcount (by omega)] at hn
    simp only [Except.ok.injEq, Prod.mk.injEq] at hn
    exact hn.1
  have hmain := RegionGeometry_Polygon.parse_polygon_ok g data field_size dataOffset hfs hlen
    (by rw [hval]; rw [show 2 * n * fieldWidth field_size = n * 2 * fieldWidth field_size
      by ring]; exact hin)
  rw [hval, hempty, List.nil_append] at hmain
  have hcur : dataOffset + fieldWidth field_size + 2 * n * fieldWidth field_size
      = dataOffset + (1 + 2 * n) * fieldWidth field_size := by ring
  rw [hcur] at hmain
  have hmul : n * 2 * fieldWidth field_size = 2 * n * fieldWidth field_size := by ring
  refine ⟨pointsAt data field_size n (dataOffset + fieldWidth field_size), hmain,
    pointsAt_length data field_size n _, ?_, ?_, hval.symm⟩
  · intro i hi
    have hle : (2 * i + 3) * fieldWidth field_size ≤ (1 + 2 * n) * fieldWidth field_size :=
      Nat.mul_le_mul_right _ (by omega)
    have h1 : (2 * i + 2) * fieldWidth field_size
        = (2 * i + 1) * fieldWidth field_size + fieldWidth field_size := by ring
    have h2 : (2 * i + 3) * fieldWidth field_size
        = (2 * i + 1) * fieldWidth field_size + 2 * fieldWidth field_size := by ring
    have h3 : (1 + 2 * n) * fieldWidth field_size
        = fieldWidth field_size + n * 2 * fieldWidth field_size := by ring
    have e1 : dataOffset + fieldWidth field_size + 2 * i * fieldWidth field_size
        = dataOffset + (2 * i + 1) * fieldWidth field_size := by ring
    have e2 : dataOffset + fieldWidth field_size + (2 * i + 1) * fieldWidth field_size
        = dataOffset + (2 * i + 2) * fieldWidth field_size := by ring
    refine ⟨_, pointsAt_getElem? data field_size n _ i hi, ?_, ?_, ?_, ?_⟩
    · rw [RegionGeometry.parse_signed_ok data field_size _ (by omega) (by omega)]
      simp only [e1]
      rw [show dataOffset + (2 * i + 1) * fieldWidth field_size + fieldWidth field_size
          = dataOffset + (2 * i + 2) * fieldWidth field_size by omega]
    · rw [RegionGeometry.parse_signed_ok data field_size _ (by omega) (by omega)]
      simp only [e2]
      rw [show dataOffset + (2 * i + 2) * fieldWidth field_size + fieldWidth field_size
          = dataOffset + (2 * i + 3) * fieldWidth field_size by omega]
    · simp only [e1]
    · simp only [e2]
  · intro h0
    subst h0
    rw [hmain]
    simp only [pointsAt, Nat.mul_zero, Nat.add_zero, Nat.one_mul]
    cases g
    simp only at hempty
    subst hempty
    rfl

theorem RegionGeometry_Polygon.parse_point_list_witness :
    RegionGeometry_Polygon.parse ⟨true, []⟩ [0, 2, 0, 1, 0, 2, 255, 255, 0, 4, 9] 16 0
      = Except.ok (Error.Ok, ⟨true, [⟨1, 2⟩, ⟨65535, 4⟩]⟩, 10) ∧
    signedField [0, 2, 0, 1, 0, 2, 255, 255, 0, 4, 9] 16 (0 + (2 * 1 + 1) * fieldBytes 16)
      = 65535 ∧
    ∃ points,
      RegionGeometry_Polygon.parse ⟨true, []⟩ [0, 2, 0, 1, 0, 2, 255, 255, 0, 4, 9] 16 0
        = Except.ok (Error.Ok, ⟨true, points⟩, 0 + (1 + 2 * 2) * fieldBytes 16) ∧
      points.length = 2 ∧
      (∀ i, i < 2 → ∃ p, points[i]? = some p ∧
        RegionGeometry.parse_signed [0, 2, 0, 1, 0, 2, 255, 255, 0, 4, 9] 16
            (0 + (2 * i + 1) * fieldBytes 16)
          = Except.ok (p.x, 0 + (2 * i + 2) * fieldBytes 16) ∧
        RegionGeometry.parse_signed [0, 2, 0, 1, 0, 2, 255, 255, 0, 4, 9] 16
            (0 + (2 * i + 2) * fieldBytes 16)
          = Except.ok (p.y, 0 + (2 * i + 3) * fieldBytes 16) ∧
        p.x = signedField [0, 2, 0, 1, 0, 2, 255, 255, 0, 4, 9] 16
                (0 + (2 * i + 1) * fieldBytes 16) ∧
        p.y = signedField [0, 2, 0, 1, 0, 2, 255, 255, 0, 4, 9] 16
                (0 + (2 * i + 2) * fieldBytes 16)) ∧
      ((2 : Nat) = 0 →
        RegionGeometry_Polygon.parse ⟨true, []⟩ [0, 2, 0, 1, 0, 2, 255, 255, 0, 4, 9] 16 0
          = Except.ok (Error.Ok, ⟨true, []⟩, 0 + fieldBytes 16)) ∧
      2 = unsignedField [0, 2, 0, 1, 0, 2, 255, 255, 0, 4, 9] 16 0 :=
  ⟨rfl, rfl,
   RegionGeometry_Polygon.parse_point_list ⟨true, []⟩ [0, 2, 0, 1, 0, 2, 255, 255, 0, 4, 9]
    16 0 2 (Or.inl rfl) (by decide) (by decide) rfl (by decide) rfl⟩

/-- C16: decoding a buffer twice, each time into a record of its own, gives structurally
equal results.  For any two records that hold the same regions (two fresh records in
particular, whatever reference size they start with): if one call reads out of bounds so
does the other, at the same index; if one returns, the other returns the same `Error`
with the same regions, and on `Error::Ok` (in fact whenever the header checks pass) the
two records are equal: same reference width, same reference height, same regions in the
same order. -/
theorem RegionItem.parse_twice (data : List Byte) (self1 self2 : RegionItem)
    (hregs : self1.mRegions = self2.mRegions) :
    (∀ f, RegionItem.parse self1 data = Except.error f →
      RegionItem.parse self2 data = Except.error f) ∧
    (∀ e item1, RegionItem.parse self1 data = Except.ok (e, item1) →
      ∃ item2, RegionItem.parse self2 data = Except.ok (e, item2) ∧
        item2.mRegions = item1.mRegions ∧
        (e.isError = false → item2 = item1)) ∧
    (self1 = self2 → RegionItem.parse self1 data = RegionItem.parse self2 data) := by
  by_cases h8 : data.length < 8
  · rw [RegionItem.parse_of_length_lt_8 self1 data h8,
      RegionItem.parse_of_length_lt_8 self2 data h8]
    refine ⟨fun f h => (by cases h), ?_, fun h => (by rw [h])⟩
    intro e item1 h
    simp only [Except.ok.injEq, Prod.mk.injEq] at h
    refine ⟨self2, by rw [h.1], by rw [← h.2, hregs], ?_⟩
    intro he
    rw [← h.1] at he
    cases he
  · by_cases h12 : byteAt data 1 % 2 = 1 ∧ data.length < 12
    · rw [RegionItem.parse_of_length_lt_12 self1 data (by omega) h12.2 h12.1,
        RegionItem.parse_of_length_lt_12 self2 data (by omega) h12.2 h12.1]
      refine ⟨fun f h => (by cases h), ?_, fun h => (by rw [h])⟩
      intro e item1 h
      simp only [Except.ok.injEq, Prod.mk.injEq] at h
      refine ⟨self2, by rw [h.1], by rw [← h.2, hregs], ?_⟩
      intro he
      rw [← h.1] at he
      cases he
    · have heq : RegionItem.parse self1 data = RegionItem.parse self2 data := by
        rw [RegionItem.parse_header self1 data (by omega) (fun hf => by omega),
          RegionItem.parse_header self2 data (by omega) (fun hf => by omega),
          RegionItem.withReferenceSize_congr self1 self2 data hregs]
      rw [heq]
      exact ⟨fun f h => h, fun e item1 h => ⟨item1, h, rfl, fun _ => rfl⟩, fun _ => rfl⟩

theorem RegionItem.parse_twice_witness :
    RegionItem.parse ⟨0, 0, []⟩ [0, 0, 1, 0, 0, 200, 1, 0, 0, 10, 0, 20]
      = Except.ok (Error.Ok, ⟨256, 200, [RegionGeometry.point ⟨10, 20⟩]⟩) ∧
    ∃ item2, RegionItem.parse ⟨7, 9, []⟩ [0, 0, 1, 0, 0, 200, 1, 0, 0, 10, 0, 20]
        = Except.ok (Error.Ok, item2) ∧
      item2.mRegions = (⟨256, 200, [RegionGeometry.point ⟨10, 20⟩]⟩ : RegionItem).mRegions ∧
      (Error.Ok.isError = false → item2 = ⟨256, 200, [RegionGeometry.point ⟨10, 20⟩]⟩) :=
  ⟨rfl,
   (RegionItem.parse_twice [0, 0, 1, 0, 0, 200, 1, 0, 0, 10, 0, 20] ⟨0, 0, []⟩ ⟨7, 9, []⟩
      rfl).2.1 Error.Ok ⟨256, 200, [RegionGeometry.point ⟨10, 20⟩]⟩ rfl⟩

/-- C17 (as stated, refuted): at field width 16 the buffer `00 02 00 00 00 01 00 00 00`
holds the count 2 and seven of the eight bytes two points need.  The Polygon decoder
reads the count, fails its second length check and returns the `InvalidRegionData`
error with the cursor at 2, not at the entry cursor 0: it has consumed the count
field. -/
theorem RegionGeometry_Polygon.parse_error_after_count :
    RegionGeometry_Polygon.parse ⟨true, []⟩ [0, 2, 0, 0, 0, 1, 0, 0, 0] 16 0
      = Except.ok (invalidRegionData "Insufficient data remaining for polygon",
                   ⟨true, []⟩, 2) ∧
    (invalidRegionData "Insufficient data remaining for polygon").sub_error_code
      = heif_suberror_code.heif_suberror_Invalid_region_data ∧
    (2 : Nat) ≠ 0 :=
  ⟨rfl, rfl, by decide⟩

/-- C17 (amended): for every field width, buffer and cursor, whenever the Point, the
Rectangle or the Ellipse decoder returns `InvalidRegionData`, the cursor on return equals
the cursor on entry; whenever the Polygon decoder returns `InvalidRegionData`, the cursor
on return either equals the cursor on entry (its first check failed) or lies just behind
the count field, one field further in the 32-bit cursor arithmetic (its second check
failed after `numPoints` was read).  Which of the two it is follows the first length
check: when fewer bytes remain than the count field needs the cursor is the entry cursor,
otherwise the count was read, the cursor is behind it and the second check is the one
that failed.  The object is unchanged in every case. -/
theorem geometry_parse_error_cursor (data : List Byte) (field_size : Int) (dataOffset : Nat) :
    (∀ (g g1 : RegionGeometry_Point) (e : Error) (off1 : Nat),
      g.parse data field_size dataOffset = Except.ok (e, g1, off1) →
      e.sub_error_code = heif_suberror_code.heif_suberror_Invalid_region_data →
      off1 = dataOffset ∧ g1 = g) ∧
    (∀ (g g1 : RegionGeometry_Rectangle) (e : Error) (off1 : Nat),
      g.parse data field_size dataOffset = Except.ok (e, g1, off1) →
      e.sub_error_code = heif_suberror_code.heif_suberror_Invalid_region_data →
      off1 = dataOffset ∧ g1 = g) ∧
    (∀ (g g1 : RegionGeometry_Ellipse) (e : Error) (off1 : Nat),
      g.parse data field_size dataOffset = Except.ok (e, g1, off1) →
      e.sub_error_code = heif_suberror_code.heif_suberror_Invalid_region_data →
      off1 = dataOffset ∧ g1 = g) ∧
    (∀ (g g1 : RegionGeometry_Polygon) (e : Error) (off1 : Nat),
      g.parse data field_size dataOffset = Except.ok (e, g1, off1) →
      e.sub_error_code = heif_suberror_code.heif_suberror_Invalid_region_data →
      g1 = g ∧
      (off1 = dataOffset ∨
        ∃ numPoints, RegionGeometry.parse_unsigned data field_size dataOffset
            = Except.ok (numPoints, off1) ∧
          off1 = (dataOffset + fieldWidth field_size) % 4294967296 ∧
          bytesRemaining data off1
            < (toUnsigned (Int.tdiv field_size 8) * numPoints * 2) % 4294967296) ∧
      (bytesRemaining data dataOffset < toUnsigned (Int.tdiv field_size 8 * 1) →
        off1 = dataOffset) ∧
      (¬ bytesRemaining data dataOffset < toUnsigned (Int.tdiv field_size 8 * 1) →
        ∃ numPoints, RegionGeometry.parse_unsigned data field_size dataOffset
            = Except.ok (numPoints, off1) ∧
          off1 = (dataOffset + fieldWidth field_size) % 4294967296 ∧
          bytesRemaining data off1
            < (toUnsigned (Int.tdiv field_size 8) * numPoints * 2) % 4294967296)) :=
  ⟨fun g g1 e off1 h he =>
      RegionGeometry_Point.parse_point_error g data field_size dataOffset e g1 off1 h he,
   fun g g1 e off1 h he =>
      RegionGeometry_Rectangle.parse_rectangle_error g data field_size dataOffset e g1 off1 h he,
   fun g g1 e off1 h he =>
      RegionGeometry_Ellipse.parse_ellipse_error g data field_size dataOffset e g1 off1 h he,
   fun g g1 e off1 h he =>
      ⟨(RegionGeometry_Polygon.parse_polygon_error g data field_size dataOffset e g1 off1
          h he).1,
       (RegionGeometry_Polygon.parse_polygon_error g data field_size dataOffset e g1 off1
          h he).2,
       RegionGeometry_Polygon.parse_polygon_error_check g data field_size dataOffset e g1
          off1 h he⟩⟩

theorem geometry_parse_error_cursor_witness :
    RegionGeometry_Point.parse ⟨0, 0⟩ [9, 9, 9, 0, 1, 0] 16 3
      = Except.ok (invalidRegionData "Insufficient data remaining for point region",
                   ⟨0, 0⟩, 3) ∧
    ((3 : Nat) = 3 ∧ (⟨0, 0⟩ : RegionGeometry_Point) = ⟨0, 0⟩) ∧
    RegionGeometry_Polygon.parse ⟨true, []⟩ [0, 2, 0, 0, 0, 1, 0, 0, 0] 16 0
      = Except.ok (invalidRegionData "Insufficient data remaining for polygon",
                   ⟨true, []⟩, 2) ∧
    (⟨true, []⟩ : RegionGeometry_Polygon) = ⟨true, []⟩ ∧
    ¬ bytesRemaining [0, 2, 0, 0, 0, 1, 0, 0, 0] 0 < toUnsigned (Int.tdiv 16 8 * 1) ∧
    (∃ numPoints, RegionGeometry.parse_unsigned [0, 2, 0, 0, 0, 1, 0, 0, 0] 16 0
        = Except.ok (numPoints, 2) ∧
      2 = (0 + fieldWidth 16) % 4294967296 ∧
      bytesRemaining [0, 2, 0, 0, 0, 1, 0, 0, 0] 2
        < (toUnsigned (Int.tdiv 16 8) * numPoints * 2) % 4294967296) ∧
    RegionGeometry_Polygon.parse ⟨false, [⟨7, 7⟩]⟩ [0, 2, 0] 16 2
      = Except.ok (invalidRegionData "Insufficient data remaining for polygon",
                   ⟨false, [⟨7, 7⟩]⟩, 2) ∧
    bytesRemaining [0, 2, 0] 2 < toUnsigned (Int.tdiv 16 8 * 1) ∧
    (2 : Nat) = 2 :=
  ⟨rfl,
   (geometry_parse_error_cursor [9, 9, 9, 0, 1, 0] 16 3).1 ⟨0, 0⟩ ⟨0, 0⟩
      (invalidRegionData "Insufficient data remaining for point region") 3 rfl rfl,
   rfl,
   ((geometry_parse_error_cursor [0, 2, 0, 0, 0, 1, 0, 0, 0] 16 0).2.2.2 ⟨true, []⟩
      ⟨true, []⟩ (invalidRegionData "Insufficient data remaining for polygon") 2 rfl rfl).1,
   by decide,
   ((geometry_parse_error_cursor [0, 2, 0, 0, 0, 1, 0, 0, 0] 16 0).2.2.2 ⟨true, []⟩
      ⟨true, []⟩ (invalidRegionData "Insufficient data remaining for polygon") 2 rfl
      rfl).2.2.2 (by decide),
   rfl,
   by decide,
   ((geometry_parse_error_cursor [0, 2, 0] 16 2).2.2.2 ⟨false, [⟨7, 7⟩]⟩
      ⟨false, [⟨7, 7⟩]⟩ (invalidRegionData "Insufficient data remaining for polygon") 2 rfl
      rfl).2.2.1 (by decide)⟩

/-- C18 (as stated, refuted): the buffers `wrapRecord 0` and `wrapRecord 1` have the same
length `2^32 + 8`, the same flags byte and the same bytes from index 1 on; they differ in
the version byte only.  Both announce 32-bit fields and one closed polygon with
`2^29 - 1` points, whose byte count `2^32 - 8` is exactly what remains behind the count
field, so both calls return `Error::Ok`.  The 32-bit cursor wraps to 0 behind point
`2^29 - 3`, and the last point is read from bytes 0 to 7: its `x` is 65536 with version 0
and 16842752 with version 1, so the regions of the two results differ. -/
theorem RegionItem.parse_reads_version_after_wrap :
    (wrapRecord 0).length = (wrapRecord 1).length ∧
    byteAt (wrapRecord 0) 1 % 2 = byteAt (wrapRecord 1) 1 % 2 ∧
    (∀ i, 2 ≤ i → byteAt (wrapRecord 0) i = byteAt (wrapRecord 1) i) ∧
    (∃ points item,
      RegionItem.parse RegionItem.fresh (wrapRecord 0) = Except.ok (Error.Ok, item) ∧
      item.mRegions = [RegionGeometry.polygon ⟨true, points ++ [⟨65536, 0⟩]⟩] ∧
      points.length = 536870910) ∧
    (∃ points item,
      RegionItem.parse RegionItem.fresh (wrapRecord 1) = Except.ok (Error.Ok, item) ∧
      item.mRegions = [RegionGeometry.polygon ⟨true, points ++ [⟨16842752, 0⟩]⟩] ∧
      points.length = 536870910) ∧
    RegionItem.parse RegionItem.fresh (wrapRecord 0)
      ≠ RegionItem.parse RegionItem.fresh (wrapRecord 1) := by
  obtain ⟨s0, s1, s2, s3⟩ := wrapRecord_last_point
  obtain ⟨p0, i0, h0, hr0, hl0⟩ := wrapRecord_decodes 0
  obtain ⟨p1, i1, h1, hr1, hl1⟩ := wrapRecord_decodes 1
  rw [s0, s1] at hr0
  rw [s2, s3] at hr1
  refine ⟨by rw [wrapRecord_length, wrapRecord_length],
    by rw [wrapRecord_same_tail 0 1 1 (by omega)],
    fun i hi => wrapRecord_same_tail 0 1 i (by omega),
    ⟨p0, i0, h0, hr0, hl0⟩, ⟨p1, i1, h1, hr1, hl1⟩, fun heq => ?_⟩
  rw [h0, h1] at heq
  simp only [Except.ok.injEq, Prod.mk.injEq, true_and] at heq
  rw [heq, hr1] at hr0
  simp only [List.cons.injEq, RegionGeometry.polygon.injEq, and_true,
    RegionGeometry_Polygon.mk.injEq, true_and] at hr0
  have hlast := List.append_inj_right' hr0 rfl
  simp at hlast

/-- C18 (amended): in buffers shorter than 4 GiB the result of `RegionItem::parse`
depends neither on the version byte nor on bits 1 to 7 of the flags byte.  For two
buffers of the same length, shorter than 4 GiB, that agree on bit 0 of byte 1 and on
every byte from index 2 on, the two calls, started on the same record, end the same way:
the same error, or `Error::Ok` with the same reference size and the same regions (and an
out-of-bounds read in one is the same out-of-bounds read in the other). -/
theorem RegionItem.parse_ignores_version (self : RegionItem) (d1 d2 : List Byte)
    (hlen : d1.length < 4294967296) (hlength : d1.length = d2.length)
    (hflag : byteAt d1 1 % 2 = byteAt d2 1 % 2)
    (hbytes : ∀ i, 2 ≤ i → byteAt d1 i = byteAt d2 i) :
    RegionItem.parse self d1 = RegionItem.parse self d2 := by
  have h : sameFromByte2 d1 d2 := ⟨hlength, hflag, hbytes⟩
  by_cases h8 : d1.length < 8
  · rw [RegionItem.parse_of_length_lt_8 self d1 h8,
      RegionItem.parse_of_length_lt_8 self d2 (by omega)]
  · by_cases h12 : byteAt d1 1 % 2 = 1 ∧ d1.length < 12
    · rw [RegionItem.parse_of_length_lt_12 self d1 (by omega) h12.2 h12.1,
        RegionItem.parse_of_length_lt_12 self d2 (by omega) (by omega) (by omega)]
    · have hfs : headerFieldSize d1 = headerFieldSize d2 := by
        unfold headerFieldSize; rw [hflag]
      have hoff : regionCountOffset d1 = regionCountOffset d2 := by
        unfold regionCountOffset; rw [hflag]
      have hoffv : regionCountOffset d1 = 6 ∨ regionCountOffset d1 = 10 := by
        unfold regionCountOffset; split
        · exact Or.inr rfl
        · exact Or.inl rfl
      have hhdr : self.withReferenceSize d1 = self.withReferenceSize d2 := by
        unfold RegionItem.withReferenceSize
        rw [hflag, hbytes 2 (by omega), hbytes 3 (by omega), hbytes 4 (by omega),
          hbytes 5 (by omega), hbytes 6 (by omega), hbytes 7 (by omega),
          hbytes 8 (by omega), hbytes 9 (by omega)]
      rw [RegionItem.parse_header self d1 (by omega) (fun hf => by omega),
        RegionItem.parse_header self d2 (by omega) (fun hf => by omega),
        ← hfs, ← hoff, ← hhdr, ← hbytes (regionCountOffset d1) (by omega)]
      exact RegionItem.parse_loop_congr d1 d2 h hlen _ _ _ _ (by omega)

theorem RegionItem.parse_ignores_version_witness :
    RegionItem.parse RegionItem.fresh [0, 0, 1, 0, 0, 200, 1, 0, 0, 10, 0, 20]
      = Except.ok (Error.Ok, ⟨256, 200, [RegionGeometry.point ⟨10, 20⟩]⟩) ∧
    RegionItem.parse RegionItem.fresh [0, 0, 1, 0, 0, 200, 1, 0, 0, 10, 0, 20]
      = RegionItem.parse RegionItem.fresh [7, 254, 1, 0, 0, 200, 1, 0, 0, 10, 0, 20] :=
  ⟨rfl,
   RegionItem.parse_ignores_version RegionItem.fresh
     [0, 0, 1, 0, 0, 200, 1, 0, 0, 10, 0, 20] [7, 254, 1, 0, 0, 200, 1, 0, 0, 10, 0, 20]
     (by decide) (by decide) (by decide)
     (fun i hi => by
       unfold byteAt
       rcases i with _ | _ | _ | _ | _ | _ | _ | _ | _ | _ | _ | _ | i
       all_goals first | omega | rfl)⟩

/-- C19: trailing bytes are ignored.  If `RegionItem::parse` succeeds on the buffer `d`
(it returns `Error::Ok`, every read inside `d`), then for every byte sequence `t` the
call on `d ++ t`, started on the same record (a fresh one in particular), returns
`Error::Ok` as well and leaves the same record: same reference width, same reference
height, same regions.  The length of `d ++ t` is taken below `2^64`, the range of
`size_t`. -/
theorem RegionItem.parse_append (self : RegionItem) (d t : List Byte) (e : Error)
    (item : RegionItem) (hsz : (d ++ t).length < 18446744073709551616)
    (hret : RegionItem.parse self d = Except.ok (e, item)) (hok : e.isError = false) :
    RegionItem.parse self (d ++ t) = Except.ok (e, item) := by
  have hlenapp : (d ++ t).length = d.length + t.length := List.length_append d t
  by_cases h8 : d.length < 8
  · rw [RegionItem.parse_of_length_lt_8 self d h8] at hret
    simp only [Except.ok.injEq, Prod.mk.injEq] at hret
    rw [← hret.1] at hok
    cases hok
  · by_cases h12 : byteAt d 1 % 2 = 1 ∧ d.length < 12
    · rw [RegionItem.parse_of_length_lt_12 self d (by omega) h12.2 h12.1] at hret
      simp only [Except.ok.injEq, Prod.mk.injEq] at hret
      rw [← hret.1] at hok
      cases hok
    · have hb : ∀ i, i < 10 → i < d.length → byteAt (d ++ t) i = byteAt d i :=
        fun i _ hi => byteAt_append d t i hi
      have hflag : byteAt (d ++ t) 1 = byteAt d 1 := byteAt_append d t 1 (by omega)
      have hfs : headerFieldSize (d ++ t) = headerFieldSize d := by
        unfold headerFieldSize; rw [hflag]
      have hoff : regionCountOffset (d ++ t) = regionCountOffset d := by
        unfold regionCountOffset; rw [hflag]
      have hoffv : regionCountOffset d = 6 ∨ (regionCountOffset d = 10 ∧ 12 ≤ d.length) := by
        unfold regionCountOffset
        by_cases hf : byteAt d 1 % 2 = 1
        · rw [if_pos hf]; exact Or.inr ⟨rfl, by omega⟩
        · rw [if_neg hf]; exact Or.inl rfl
      have hcount : byteAt (d ++ t) (regionCountOffset d) = byteAt d (regionCountOffset d) :=
        byteAt_append d t _ (by omega)
      have hhdr : self.withReferenceSize (d ++ t) = self.withReferenceSize d := by
        unfold RegionItem.withReferenceSize
        rw [hflag]
        by_cases hf : byteAt d 1 % 2 = 1
        · have : 12 ≤ d.length := by omega
          rw [if_pos hf, if_pos hf, byteAt_append d t 2 (by omega),
            byteAt_append d t 3 (by omega), byteAt_append d t 4 (by omega),
            byteAt_append d t 5 (by omega), byteAt_append d t 6 (by omega),
            byteAt_append d t 7 (by omega), byteAt_append d t 8 (by omega),
            byteAt_append d t 9 (by omega)]
        · rw [if_neg hf, if_neg hf, byteAt_append d t 2 (by omega),
            byteAt_append d t 3 (by omega), byteAt_append d t 4 (by omega),
            byteAt_append d t 5 (by omega)]
      rw [RegionItem.parse_header self d (by omega) (fun hf => by omega)] at hret
      rw [RegionItem.parse_header self (d ++ t) (by omega) (fun hf => by omega),
        hfs, hoff, hcount, hhdr]
      exact RegionItem.parse_loop_append d t _ e item hok hsz _ _ _ hret

theorem RegionItem.parse_append_witness :
    RegionItem.parse RegionItem.fresh [0, 0, 1, 0, 0, 200, 1, 0, 0, 10, 0, 20]
      = Except.ok (Error.Ok, ⟨256, 200, [RegionGeometry.point ⟨10, 20⟩]⟩) ∧
    RegionItem.parse RegionItem.fresh ([0, 0, 1, 0, 0, 200, 1, 0, 0, 10, 0, 20] ++ [3, 255, 7])
      = Except.ok (Error.Ok, ⟨256, 200, [RegionGeometry.point ⟨10, 20⟩]⟩) :=
  ⟨rfl,
   RegionItem.parse_append RegionItem.fresh [0, 0, 1, 0, 0, 200, 1, 0, 0, 10, 0, 20]
     [3, 255, 7] Error.Ok ⟨256, 200, [RegionGeometry.point ⟨10, 20⟩]⟩ (by decide) rfl rfl⟩

/-- C20 (as stated, refuted): in `wrapBuffer` the cursor `2^32 - 1` is inside the buffer
with seven bytes remaining.  At field width 16 the Point decoder passes its length check,
reads `x` from index `2^32 - 1` and index 0, `y` from indices 1 and 2, and returns
`Error::Ok` with final cursor 3, which is below the entry cursor. -/
theorem RegionGeometry_Point.parse_cursor_goes_back :
    4294967295 ≤ wrapBuffer.length ∧
    RegionGeometry_Point.parse ⟨0, 0⟩ wrapBuffer 16 4294967295
      = Except.ok (Error.Ok, ⟨261, 256⟩, 3) ∧
    ¬ (4294967295 ≤ 3) ∧
    ¬ inBoundsOutcome wrapBuffer 4294967295 Error.Ok 3 := by
  obtain ⟨-, r1, -, r3, -, -, -, -⟩ := wrapBuffer_reads
  have hlen := wrapBuffer_length
  have hb : toUnsigned (Int.tdiv 16 8 * 2) = 4 := rfl
  refine ⟨by omega, ?_, by omega, fun h => ?_⟩
  · exact RegionGeometry_Point.parse_of_reads _ wrapBuffer 16 4294967295 261 256 1 3
      (by rw [hb, wrapBuffer_remaining _ (by omega)]; omega) r1 r3
  · have := h.1
    omega

/-- C20 (amended): in a buffer shorter than 4 GiB and with the cursor not beyond its
end, no decoder call reads outside the buffer (the call returns; in the embedding a read
at an index `≥ data.size()` would end it as a fault instead): at field width 16 each of
the Point, Rectangle, Ellipse and Polygon decoders returns `InvalidRegionData` or
`Error::Ok`, and the cursor it leaves is at least the entry cursor and at most the buffer
length; the polygon byte count `numPoints × 4` is at most 262140 there and cannot wrap.
The same holds for the Point, Rectangle and Ellipse decoders at field width 32. -/
theorem geometry_parse_in_bounds (data : List Byte) (dataOffset : Nat)
    (hoff : dataOffset ≤ data.length) (hlen : data.length < 4294967296) :
    (∀ (field_size : Int), field_size = 16 ∨ field_size = 32 →
      (∀ g : RegionGeometry_Point, ∃ e g1 off1,
        g.parse data field_size dataOffset = Except.ok (e, g1, off1) ∧
        inBoundsOutcome data dataOffset e off1) ∧
      (∀ g : RegionGeometry_Rectangle, ∃ e g1 off1,
        g.parse data field_size dataOffset = Except.ok (e, g1, off1) ∧
        inBoundsOutcome data dataOffset e off1) ∧
      (∀ g : RegionGeometry_Ellipse, ∃ e g1 off1,
        g.parse data field_size dataOffset = Except.ok (e, g1, off1) ∧
        inBoundsOutcome data dataOffset e off1)) ∧
    (∀ g : RegionGeometry_Polygon, ∃ e g1 off1,
      g.parse data 16 dataOffset = Except.ok (e, g1, off1) ∧
      inBoundsOutcome data dataOffset e off1) ∧
    unsignedField data 16 dataOffset * 4 ≤ 262140 := by
  refine ⟨?_, ?_, ?_⟩
  · intro field_size hfs
    have hw : fieldWidth field_size = 2 ∨ fieldWidth field_size = 4 := by
      rcases hfs with rfl | rfl
      · exact Or.inl rfl
      · exact Or.inr rfl
    have hfb := fieldWidth_eq_fieldBytes field_size hfs
    refine ⟨?_, ?_, ?_⟩
    · intro g
      by_cases hin : dataOffset + 2 * fieldWidth field_size ≤ data.length
      · exact ⟨_, _, _, RegionGeometry_Point.parse_point_ok g data field_size dataOffset hfs
          hin (by omega) (by omega), by omega, hin, Or.inl rfl⟩
      · exact ⟨_, _, _, RegionGeometry_Point.parse_point_truncated g data field_size
          dataOffset hfs hoff (by rw [← hfb]; omega),
          inBoundsOutcome_error data dataOffset dataOffset _ (Nat.le_refl _) hoff⟩
    · intro g
      by_cases hin : dataOffset + 4 * fieldWidth field_size ≤ data.length
      · exact ⟨_, _, _, RegionGeometry_Rectangle.parse_rectangle_ok g data field_size
          dataOffset hfs hin (by omega) (by omega), by omega, hin, Or.inl rfl⟩
      · exact ⟨_, _, _, RegionGeometry_Rectangle.parse_rectangle_truncated g data field_size
          dataOffset hfs hoff (by rw [← hfb]; omega),
          inBoundsOutcome_error data dataOffset dataOffset _ (Nat.le_refl _) hoff⟩
    · intro g
      by_cases hin : dataOffset + 4 * fieldWidth field_size ≤ data.length
      · exact ⟨_, _, _, RegionGeometry_Ellipse.parse_ellipse_ok g data field_size
          dataOffset hfs hin (by omega) (by omega), by omega, hin, Or.inl rfl⟩
      · exact ⟨_, _, _, RegionGeometry_Ellipse.parse_ellipse_truncated g data field_size
          dataOffset hfs hoff (by rw [← hfb]; omega),
          inBoundsOutcome_error data dataOffset dataOffset _ (Nat.le_refl _) hoff⟩
  · intro g
    have hw : fieldWidth 16 = 2 := rfl
    have hfb : fieldBytes 16 = 2 := rfl
    have hn : unsignedField data 16 dataOffset < 65536 := by
      unfold unsignedField
      rw [if_neg (by decide)]
      have := byteAt_lt data dataOffset; have := byteAt_lt data (dataOffset + 1)
      omega
    by_cases hcount : dataOffset + 2 ≤ data.length
    · by_cases hin : dataOffset + 2 + 2 * unsignedField data 16 dataOffset * 2 ≤ data.length
      · exact ⟨_, _, _, RegionGeometry_Polygon.parse_polygon_ok g data 16 dataOffset
          (Or.inl rfl) hlen (by rw [hw]; exact hin), by rw [hw]; omega,
          by rw [hw]; exact hin, Or.inl rfl⟩
      · exact ⟨_, _, _, RegionGeometry_Polygon.parse_polygon_short_list g data 16 dataOffset
          (Or.inl rfl) hlen (by rw [hw]; exact hcount) (by rw [hw]; omega)
          (by rw [hw]; omega),
          inBoundsOutcome_error data dataOffset _ _ (by omega) (by rw [hw]; exact hcount)⟩
    · exact ⟨_, _, _, RegionGeometry_Polygon.parse_polygon_truncated g data 16 dataOffset
        (Or.inl rfl) hoff (by rw [hfb]; omega),
        inBoundsOutcome_error data dataOffset dataOffset _ (Nat.le_refl _) hoff⟩
  · unfold unsignedField
    rw [if_neg (by decide)]
    have := byteAt_lt data dataOffset; have := byteAt_lt data (dataOffset + 1)
    omega

theorem geometry_parse_in_bounds_witness :
    (∀ g : RegionGeometry_Polygon, ∃ e g1 off1,
      g.parse [255, 255, 0, 1, 0, 2] 16 0 = Except.ok (e, g1, off1) ∧
      inBoundsOutcome [255, 255, 0, 1, 0, 2] 0 e off1) ∧
    unsignedField [255, 255, 0, 1, 0, 2] 16 0 * 4 ≤ 262140 ∧
    RegionGeometry_Polygon.parse ⟨true, []⟩ [255, 255, 0, 1, 0, 2] 16 0
      = Except.ok (invalidRegionData "Insufficient data remaining for polygon",
                   ⟨true, []⟩, 2) :=
  ⟨(geometry_parse_in_bounds [255, 255, 0, 1, 0, 2] 0 (by decide) (by decide)).2.1,
   (geometry_parse_in_bounds [255, 255, 0, 1, 0, 2] 0 (by decide) (by decide)).2.2,
   rfl⟩

end Heif
